import Mathlib

/-! Finite-Difference-Synthesizer-OpenGL: start-up data, simulation cycle, excitation and
audio buffers.

Shallow embedding of `src/main.cpp`.

* `int` variables are integers wrapped to 32 bits after every arithmetic operation
  (`wrapInt32`), `sf::Int16` samples are wrapped to 16 bits (`wrapInt16`).
* `float` and `double` values are rationals.  The roundings of the `float` product of the
  sample conversion and of the `float` updates of `wrCoord` are modelled (`roundFloat32`);
  texture coordinates, vertex attributes and the mouse position are computed exactly.
* OpenGL and SFML calls are recorded as a list of `GLOp` values, in the order the
  program issues them.  Window, shader-loading and render-to-screen calls are not recorded.
* What the program reads from outside during one pass of the outer loop (the mapped pixel
  buffer, the clock difference, the mouse events delivered by `glfwPollEvents`, the state
  of the escape key) is a `BatchInput`.
* Arrays built at start-up (`pointType`, `texturePixels`) carry their allocated extent;
  an access outside it gives no result (`Option`).
* The update kernel `Shaders/fbo_fs.glsl` is not among the sources; `specNext`, `SpecGrid`
  and `specTick` follow the specification and are marked as such.
-/

namespace FDSynth

/-! ## Machine integers and conversions -/

/-- Largest value of a 32-bit `int`. -/
def INT_MAX : Int := 2147483647

/-- Smallest value of a 32-bit `int`. -/
def INT_MIN : Int := -2147483648

/-- Two's complement wrap-around of 32-bit `int` arithmetic. -/
def wrapInt32 (x : Int) : Int := (x + 2147483648) % 4294967296 - 2147483648

/-- Two's complement wrap-around of 16-bit `sf::Int16` values. -/
def wrapInt16 (x : Int) : Int := (x + 32768) % 65536 - 32768

/-- Truncation toward zero, the rounding of a C++ floating-point to integer conversion. -/
def truncQ (q : ℚ) : Int := if 0 ≤ q then ⌊q⌋ else ⌈q⌉

/-- Conversion `int(x)` of a floating-point value. -/
def floatToInt (q : ℚ) : Int := wrapInt32 (truncQ q)

/-- Conversion of a floating-point value to `sf::Int16`. -/
def toInt16 (q : ℚ) : Int := wrapInt16 (truncQ q)

/-! ## Floating-point rounding -/

/-- Rounding of a rational to the nearest integer, a tie going to the even one. -/
def roundHalfEven (q : ℚ) : Int :=
  if q - (⌊q⌋ : ℚ) < 1 / 2 then ⌊q⌋
  else if 1 / 2 < q - (⌊q⌋ : ℚ) then ⌊q⌋ + 1
  else if ⌊q⌋ % 2 = 0 then ⌊q⌋ else ⌊q⌋ + 1

/-- Rounding of a real value to the nearest value of the binary floating-point format with
`prec` significand bits and least normal exponent `emin`, a tie going to the even
significand (the rounding of every IEEE 754 operation in the default mode).  The value is
scaled so that its last significand bit has weight 1, rounded to an integer and scaled
back.  Values beyond the largest finite value of the format are not treated. -/
def roundBinary (prec : Nat) (emin : Int) (q : ℚ) : ℚ :=
  let e : Int := max (Int.log 2 |q|) emin
  ((roundHalfEven (q * (2 : ℚ) ^ ((prec : Int) - 1 - e)) : Int) : ℚ)
    / (2 : ℚ) ^ ((prec : Int) - 1 - e)

/-- Rounding to `float` (IEEE 754 binary32). -/
def roundFloat32 (q : ℚ) : ℚ := roundBinary 24 (-126) q

/-- Rounding to `double` (IEEE 754 binary64). -/
def roundFloat64 (q : ℚ) : ℚ := roundBinary 53 (-1022) q

/-! ## Loop counters -/

/-- Number of passes of `for (int i = 0; i != bound; ++i)` with a 32-bit counter. -/
def forLoopCount (bound : Int) : Nat := (bound % 4294967296).toNat

/-! ## Defines -/

def NUM_OF_TIMESTEPS : Int := 2
def MAGNIFIER : Int := 10
def MICROSECS_IN_SEC : Int := 1000000
def QUAD0 : Int := 0
def QUAD1 : Int := 1
def QUAD2 : Int := 2

/-- Value of `GLFW_MOUSE_BUTTON_LEFT` in the GLFW header. -/
def GLFW_MOUSE_BUTTON_LEFT : Int := 0

/-- Value of `GLFW_PRESS` in the GLFW header. -/
def GLFW_PRESS : Int := 1

/-- Number of elements of `realTimeAudioBuffer`. -/
def realTimeCapacity : Int := 54100

/-! ## Configuration: globals that are never assigned after start-up, and the console input -/

/-- The global settings and the four values read from `std::cin`; the defaults are the
initial values in the source. -/
structure Config where
  domainSize : Int × Int := (80, 80)
  ceiling : Int := 2
  listenerPosition : Int × Int := (5, 5)
  buffer_size : Int := 128
  sampleRate : Int := 44100
  duration : Int := 10
  excitationFrequency : Int := 1000
  propagationFactor : ℚ := 0
  dampingFactor : ℚ := 0
  boundaryGain : ℚ := 0
  isSingleExcitation : Bool := false

/-- Every `int` setting is a 32-bit value. -/
def Config.WellTyped (cfg : Config) : Prop :=
  INT_MIN ≤ cfg.domainSize.1 ∧ cfg.domainSize.1 ≤ INT_MAX ∧
  INT_MIN ≤ cfg.domainSize.2 ∧ cfg.domainSize.2 ≤ INT_MAX ∧
  INT_MIN ≤ cfg.ceiling ∧ cfg.ceiling ≤ INT_MAX ∧
  INT_MIN ≤ cfg.listenerPosition.1 ∧ cfg.listenerPosition.1 ≤ INT_MAX ∧
  INT_MIN ≤ cfg.listenerPosition.2 ∧ cfg.listenerPosition.2 ≤ INT_MAX ∧
  INT_MIN ≤ cfg.buffer_size ∧ cfg.buffer_size ≤ INT_MAX ∧
  INT_MIN ≤ cfg.sampleRate ∧ cfg.sampleRate ≤ INT_MAX ∧
  INT_MIN ≤ cfg.duration ∧ cfg.duration ≤ INT_MAX ∧
  INT_MIN ≤ cfg.excitationFrequency ∧ cfg.excitationFrequency ≤ INT_MAX

/-- The settings of the source, continuous excitation. -/
def defaultConfig : Config := {}

/-- Global `excitationDuration = sampleRate / excitationFrequency`. -/
def excitationDuration (cfg : Config) : Int :=
  wrapInt32 (Int.tdiv cfg.sampleRate cfg.excitationFrequency)

/-- Local `textureWidth = domainSize[0] * NUM_OF_TIMESTEPS`. -/
def textureWidth (cfg : Config) : Int := wrapInt32 (cfg.domainSize.1 * NUM_OF_TIMESTEPS)

/-- Local `textureHeight = domainSize[1] + ceiling`. -/
def textureHeight (cfg : Config) : Int := wrapInt32 (cfg.domainSize.2 + cfg.ceiling)

/-- The quotient of local `deltaX = 1.0 / (float)textureWidth`, the width of a texel in
texture coordinates, before it is rounded to `float`; the vertex attributes and the texel
centres are computed from it. -/
def deltaX (cfg : Config) : ℚ := 1 / (textureWidth cfg : ℚ)

/-- The quotient of local `deltaY = 1.0 / (float)textureHeight`, the height of a texel in
texture coordinates, before it is rounded to `float`. -/
def deltaY (cfg : Config) : ℚ := 1 / (textureHeight cfg : ℚ)

/-- Local `float deltaCoordX = deltaX` with `float deltaX = 1.0 / (float)textureWidth`: the
conversion of `textureWidth` to `float`, the division in `double` and the narrowing of the
quotient to `float`. -/
def deltaCoordX (cfg : Config) : ℚ :=
  roundFloat32 (roundFloat64 (1 / roundFloat32 (textureWidth cfg : ℚ)))

/-- Local `deltaV = 2.0 / (float)textureHeight`. -/
def deltaV (cfg : Config) : ℚ := 2 / (textureHeight cfg : ℚ)

/-- Local `totalSampleNum = sampleRate * duration`. -/
def totalSampleNum (cfg : Config) : Int := wrapInt32 (cfg.sampleRate * cfg.duration)

/-- Local `bufferNum = totalSampleNum / buffer_size`. -/
def bufferNum (cfg : Config) : Int := wrapInt32 (Int.tdiv (totalSampleNum cfg) cfg.buffer_size)

/-- Table `vertices[q][0]`: index of the first vertex of quad `q`. -/
def verticesFirst (q : Int) : Int := if q = 0 then 0 else if q = 1 then 4 else 8

/-- Table `vertices[q][1]`: number of vertices of quad `q` (`numOfVerticesPerQuad`). -/
def verticesCount (_q : Int) : Int := 4

/-- Array `listenerFragCoord[q]`. -/
def listenerFragCoord (cfg : Config) (q : Int) : ℚ × ℚ :=
  if q = 0 then
    (((cfg.listenerPosition.1 : ℚ) + 1 / 2 + (cfg.domainSize.1 : ℚ)) / (textureWidth cfg : ℚ),
     ((cfg.listenerPosition.2 : ℚ) + 1 / 2) / (textureHeight cfg : ℚ))
  else
    (((cfg.listenerPosition.1 : ℚ) + 1 / 2) / (textureWidth cfg : ℚ),
     ((cfg.listenerPosition.2 : ℚ) + 1 / 2) / (textureHeight cfg : ℚ))

/-! ## Mutable state of the simulation cycle -/

/-- The variables the simulation cycle and the mouse callback assign. -/
structure State where
  sampleCounter : Int
  realTimeAudioBuffer : Int → Int
  playbackAudioBuffer : List Int
  excitationPosition : ℚ × ℚ
  maxExcitation : ℚ
  state : Int
  excitationMagnitude : ℚ
  currentQuad : Int
  wrCoord : ℚ × ℚ
  sampleCnt : Int

/-- Values of the variables when the outer loop is entered. -/
def initialState : State where
  sampleCounter := 0
  realTimeAudioBuffer := fun _ => 0
  playbackAudioBuffer := []
  excitationPosition := (7 / 10, 1 / 2)
  maxExcitation := 1
  state := -1
  excitationMagnitude := 0
  currentQuad := QUAD0
  wrCoord := (0, 0)
  sampleCnt := 0

/-! ## Recorded calls -/

/-- The buffer whose address is passed to `loadFromSamples`. -/
inductive AudioSource where
  | realTime
  | playback
deriving DecidableEq, Repr

/-- The OpenGL and SFML calls of the simulation cycle that are recorded. -/
inductive GLOp where
  | uniformExcitationMagnitude (v : ℚ)
  | uniformExcitationPosition (x y : ℚ)
  | uniformState (v : Int)
  | uniformWrCoord (x c : ℚ)
  | drawArrays (first count : Int)
  | memoryBarrier
  | readPixels (x y width height : Int)
  | loadFromSamples (source : AudioSource) (sampleCount channelCount sampleRate : Int)
  | play
deriving DecidableEq, Repr

/-! ## One pass of the inner loop (one tick) -/

/-- Body of `for (int n = 0; n != buffer_size; ++n)`: the assignments.  The elements of
`wrCoord` are `float`: `wrCoord[1] = int(wrCoord[1] + 1) % 4` adds in `float`, converts to
`int` and back, and `wrCoord[0] += deltaCoordX` rounds the sum to `float`. -/
def tick (cfg : Config) (s : State) : State :=
  let wr1 : ℚ :=
    roundFloat32 ((Int.tmod (floatToInt (roundFloat32 (s.wrCoord.2 + 1))) 4 : Int) : ℚ)
  let wr0 : ℚ :=
    if wr1 = 0 then roundFloat32 (s.wrCoord.1 + deltaCoordX cfg) else s.wrCoord.1
  let cnt : Int := wrapInt32 (s.sampleCnt + 1)
  if cnt = excitationDuration cfg then
    { s with
      state := wrapInt32 (s.currentQuad * 2)
      currentQuad := wrapInt32 (1 - s.currentQuad)
      wrCoord := (wr0, wr1)
      excitationMagnitude := s.maxExcitation
      sampleCnt := 0
      maxExcitation := if cfg.isSingleExcitation then 0 else s.maxExcitation }
  else
    { s with
      state := wrapInt32 (s.currentQuad * 2)
      currentQuad := wrapInt32 (1 - s.currentQuad)
      wrCoord := (wr0, wr1)
      excitationMagnitude := 0
      sampleCnt := cnt }

/-- Body of `for (int n = 0; n != buffer_size; ++n)`: the calls, in order. -/
def tickOps (_cfg : Config) (s : State) : List GLOp :=
  [ GLOp.uniformExcitationMagnitude s.excitationMagnitude,
    GLOp.uniformExcitationPosition s.excitationPosition.1 s.excitationPosition.2,
    GLOp.uniformState (wrapInt32 (s.currentQuad * 2)),
    GLOp.drawArrays (verticesFirst s.currentQuad) (verticesCount s.currentQuad),
    GLOp.uniformWrCoord s.wrCoord.1 s.wrCoord.2,
    GLOp.uniformState (wrapInt32 (wrapInt32 (s.currentQuad * 2) + 1)),
    GLOp.drawArrays (verticesFirst QUAD2) (verticesCount QUAD2),
    GLOp.memoryBarrier ]

/-- State after `n` passes of the inner loop. -/
def ticks (cfg : Config) : Nat → State → State
  | 0, s => s
  | n + 1, s => ticks cfg n (tick cfg s)

/-- Calls of `n` passes of the inner loop. -/
def ticksOps (cfg : Config) : Nat → State → List GLOp
  | 0, _ => []
  | n + 1, s => tickOps cfg s ++ ticksOps cfg n (tick cfg s)

/-- The value of `wrCoord[0]` after `m` executions of `wrCoord[0] += deltaCoordX` that follow
`wrCoord[0] = 0`. -/
def cursorX (cfg : Config) : Nat → ℚ
  | 0 => 0
  | m + 1 => roundFloat32 (cursorX cfg m + deltaCoordX cfg)

/-! ## Appending the samples of one batch -/

/-- The initialiser of `sf::Int16 sample = sampleBuffer[i] * 32767` for the `float` value
`p` of `sampleBuffer[i]`: the product is formed in `float`, that is rounded to the nearest
`float`, and then converted to `sf::Int16`. -/
def sampleOf (p : ℚ) : Int := toInt16 (roundFloat32 (p * 32767))

/-- Body of the append loop for index `i` of the mapped pixel buffer. -/
def appendSample (sampleBuffer : Nat → ℚ) (i : Nat) (s : State) : State :=
  let sample : Int := sampleOf (sampleBuffer i)
  { s with
    playbackAudioBuffer := s.playbackAudioBuffer ++ [sample]
    realTimeAudioBuffer := fun j => if j = s.sampleCounter then sample else s.realTimeAudioBuffer j
    sampleCounter := wrapInt32 (s.sampleCounter + 1) }

/-- The remaining `count` passes of the append loop, starting at index `i`. -/
def appendSamples (sampleBuffer : Nat → ℚ) : Nat → Nat → State → State
  | 0, _, s => s
  | count + 1, i, s => appendSamples sampleBuffer count (i + 1) (appendSample sampleBuffer i s)

/-! ## Real-time flush -/

/-- The statement `if (differenceRealTimeClock < MICROSECS_IN_SEC) if (sampleCounter >
sampleRate) ...`: the `Sleep` call of the first `if` is commented out, so the first `if`
governs the second. -/
def realTimeFlush (cfg : Config) (differenceRealTimeClock : Int) (s : State) : State :=
  if differenceRealTimeClock < MICROSECS_IN_SEC then
    if s.sampleCounter > cfg.sampleRate then { s with sampleCounter := 0 } else s
  else s

/-- Calls issued by the real-time flush statement. -/
def realTimeFlushOps (cfg : Config) (differenceRealTimeClock : Int) (s : State) : List GLOp :=
  if differenceRealTimeClock < MICROSECS_IN_SEC then
    if s.sampleCounter > cfg.sampleRate then
      [GLOp.loadFromSamples AudioSource.realTime s.sampleCounter 1 44100, GLOp.play]
    else []
  else []

/-! ## Mouse callback -/

/-- One mouse-button event with the cursor position `glfwGetCursorPos` reports. -/
structure MouseEvent where
  button : Int
  action : Int
  xPos : ℚ
  yPos : ℚ

/-- Function `mouseButtonCallback`. -/
def mouseButtonCallback (cfg : Config) (e : MouseEvent) (s : State) : State :=
  if e.button = GLFW_MOUSE_BUTTON_LEFT ∧ e.action = GLFW_PRESS then
    let xPos0 : ℚ := e.xPos / ((wrapInt32 (cfg.domainSize.1 * MAGNIFIER) : Int) : ℚ)
    let xPos1 : ℚ := ((xPos0 - 0) * (1 - 1 / 2)) / (1 - 0) + 1 / 2
    let yPos0 : ℚ := e.yPos / ((wrapInt32 (cfg.domainSize.2 * MAGNIFIER) : Int) : ℚ)
    let yPos1 : ℚ := 1 - yPos0
    { s with excitationPosition := (xPos1, yPos1), maxExcitation := 1 }
  else s

/-- The callbacks run by one `glfwPollEvents` call. -/
def pollEvents (cfg : Config) (events : List MouseEvent) (s : State) : State :=
  events.foldl (fun st e => mouseButtonCallback cfg e st) s

/-! ## One pass of the outer loop (one batch) -/

/-- What one pass of the outer loop reads from outside. -/
structure BatchInput where
  sampleBuffer : Nat → ℚ
  differenceRealTimeClock : Int
  mouseEvents : List MouseEvent
  escapePressed : Bool

/-- State after the inner loop, the cursor reset and the append loop. -/
def batchFill (cfg : Config) (inp : BatchInput) (s : State) : State :=
  let s1 := ticks cfg (forLoopCount cfg.buffer_size) s
  let s2 := { s1 with wrCoord := (0, 0) }
  appendSamples inp.sampleBuffer (forLoopCount cfg.buffer_size) 0 s2

/-- Body of the outer loop: the assignments. -/
def batchIteration (cfg : Config) (inp : BatchInput) (s : State) : State :=
  pollEvents cfg inp.mouseEvents
    (realTimeFlush cfg inp.differenceRealTimeClock (batchFill cfg inp s))

/-- Body of the outer loop: the calls, in order. -/
def batchIterationOps (cfg : Config) (inp : BatchInput) (s : State) : List GLOp :=
  ticksOps cfg (forLoopCount cfg.buffer_size) s
    ++ [GLOp.readPixels 0 (wrapInt32 (textureHeight cfg - 1)) (Int.tdiv cfg.buffer_size 4) 1]
    ++ realTimeFlushOps cfg inp.differenceRealTimeClock (batchFill cfg inp s)

/-- State after `k` passes of the outer loop with indices `i, i + 1, ...`, none of them
leaving the loop. -/
def batches (cfg : Config) (inputs : Nat → BatchInput) : Nat → Nat → State → State
  | 0, _, s => s
  | k + 1, i, s => batches cfg inputs k (i + 1) (batchIteration cfg (inputs i) s)

/-- Calls of `k` passes of the outer loop with indices `i, i + 1, ...`. -/
def batchesOps (cfg : Config) (inputs : Nat → BatchInput) : Nat → Nat → State → List GLOp
  | 0, _, _ => []
  | k + 1, i, s =>
    batchIterationOps cfg (inputs i) s
      ++ batchesOps cfg inputs k (i + 1) (batchIteration cfg (inputs i) s)

/-- Number of passes the outer loop makes when at most `remaining` are left, starting at
index `i`: a pass whose escape poll succeeds is the last one. -/
def executedBatches (inputs : Nat → BatchInput) : Nat → Nat → Nat
  | 0, _ => 0
  | remaining + 1, i =>
    if (inputs i).escapePressed then 1 else executedBatches inputs remaining (i + 1) + 1

/-- The outer loop `for (int i = 0; i != bufferNum; ++i)` with its `break`: the state. -/
def mainLoop (cfg : Config) (inputs : Nat → BatchInput) : Nat → Nat → State → State
  | 0, _, s => s
  | remaining + 1, i, s =>
    if (inputs i).escapePressed then batchIteration cfg (inputs i) s
    else mainLoop cfg inputs remaining (i + 1) (batchIteration cfg (inputs i) s)

/-- The outer loop with its `break`: the calls. -/
def mainLoopOps (cfg : Config) (inputs : Nat → BatchInput) : Nat → Nat → State → List GLOp
  | 0, _, _ => []
  | remaining + 1, i, s =>
    if (inputs i).escapePressed then batchIterationOps cfg (inputs i) s
    else batchIterationOps cfg (inputs i) s
      ++ mainLoopOps cfg inputs remaining (i + 1) (batchIteration cfg (inputs i) s)

/-- The playback after the outer loop: `loadFromSamples(&playbackAudioBuffer[0],
bufferNum*buffer_size, 1, 44100)` and `play()`. -/
def finalPlaybackOps (cfg : Config) : List GLOp :=
  [GLOp.loadFromSamples AudioSource.playback (wrapInt32 (bufferNum cfg * cfg.buffer_size)) 1 44100,
   GLOp.play]

/-- State when `main` reaches the end of the program. -/
def mainState (cfg : Config) (inputs : Nat → BatchInput) : State :=
  mainLoop cfg inputs (forLoopCount (bufferNum cfg)) 0 initialState

/-- All recorded calls of `main`, from the entry of the outer loop to the final playback. -/
def mainOps (cfg : Config) (inputs : Nat → BatchInput) : List GLOp :=
  mainLoopOps cfg inputs (forLoopCount (bufferNum cfg)) 0 initialState ++ finalPlaybackOps cfg

/-! ## Observations on the recorded calls -/

/-- The values passed to the `excitationMagnitude` uniform, in order. -/
def suppliedMagnitudes (ops : List GLOp) : List ℚ :=
  ops.filterMap (fun op =>
    match op with
    | GLOp.uniformExcitationMagnitude v => some v
    | _ => none)

/-- Two states agree on the variables the next ticks depend on. -/
def TickEq (s t : State) : Prop :=
  s.sampleCnt = t.sampleCnt ∧ s.excitationMagnitude = t.excitationMagnitude ∧
  s.maxExcitation = t.maxExcitation ∧ s.currentQuad = t.currentQuad

/-- The call is one of the calls of a tick. -/
def GLOp.isTickOp : GLOp → Bool
  | GLOp.readPixels _ _ _ _ => false
  | GLOp.loadFromSamples _ _ _ _ => false
  | GLOp.play => false
  | _ => true

/-- The sample counts of the `loadFromSamples` calls on `playbackAudioBuffer`, in order. -/
def playbackLoadCounts (ops : List GLOp) : List Int :=
  ops.filterMap (fun op =>
    match op with
    | GLOp.loadFromSamples AudioSource.playback c _ _ => some c
    | _ => none)

/-- The sample counts of the `loadFromSamples` calls on `realTimeAudioBuffer` (the rolling
buffer flushes), in order. -/
def flushCounts (ops : List GLOp) : List Int :=
  ops.filterMap (fun op =>
    match op with
    | GLOp.loadFromSamples AudioSource.realTime c _ _ => some c
    | _ => none)

/-- The `state` uniform assignments and the draw calls, in order. -/
def stateAndDrawOps (ops : List GLOp) : List GLOp :=
  ops.filterMap (fun op =>
    match op with
    | GLOp.uniformState v => some (GLOp.uniformState v)
    | GLOp.drawArrays first count => some (GLOp.drawArrays first count)
    | _ => none)

/-- Two states agree on `currentQuad`. -/
def QuadEq (s t : State) : Prop := s.currentQuad = t.currentQuad

/-- The three kinds of operations of the tick loop that the ordering is about. -/
inductive PassKind where
  | update
  | audioRead
  | barrier
deriving DecidableEq, Repr

/-- The update passes (draws of quad 0 or quad 1), audio read passes (draws of quad 2) and
barriers, in order. -/
def passKinds (ops : List GLOp) : List PassKind :=
  ops.filterMap (fun op =>
    match op with
    | GLOp.drawArrays first _ =>
      if first = verticesFirst QUAD2 then some PassKind.audioRead else some PassKind.update
    | GLOp.memoryBarrier => some PassKind.barrier
    | _ => none)

/-- The ordering the specification asks for, as a check on a sequence of operations: every
audio read pass comes after a barrier that was issued after the latest update pass.  The
flag tells whether a barrier has been issued since the latest update pass. -/
def barrierBetweenUpdateAndRead : Bool → List PassKind → Bool
  | _, [] => true
  | _, PassKind.update :: rest => barrierBetweenUpdateAndRead false rest
  | _, PassKind.barrier :: rest => barrierBetweenUpdateAndRead true rest
  | seen, PassKind.audioRead :: rest => seen && barrierBetweenUpdateAndRead seen rest

/-- Modelled from the spec: the audio pass is part of `Shaders/fbo_fs.glsl`, which is not
among the sources.  The specification has it read "the other, already-finalized layer at the
listener cell", never the layer being written in the same tick; `main.cpp` uploads both
entries of `listenerFragCoord` and names the entry for each state in its comments
("state1: read audio from quad1", "state3: read audio from quad0"; entry 0: "Quad0 reads
audio from Quad1", entry 1: "Quad1 reads audio from Quad0").  The texture coordinate at
which the audio pass samples when the `state` uniform is `st`: `listenerFragCoord[q]` for
`st = 2q + 1`, none for another state. -/
def audioReadCoord (cfg : Config) (st : Int) : Option (ℚ × ℚ) :=
  if st = 1 then some (listenerFragCoord cfg 0)
  else if st = 3 then some (listenerFragCoord cfg 1)
  else none

/-- The coordinates at which the audio passes among the recorded calls sample, in order:
each draw of the audio quad is taken with the value of the `state` uniform in force, `st`
at the start. -/
def audioReadCoordsFrom (cfg : Config) : Int → List GLOp → List (Option (ℚ × ℚ))
  | _, [] => []
  | _, GLOp.uniformState v :: rest => audioReadCoordsFrom cfg v rest
  | st, GLOp.drawArrays first _ :: rest =>
    if first = verticesFirst QUAD2 then audioReadCoord cfg st :: audioReadCoordsFrom cfg st rest
    else audioReadCoordsFrom cfg st rest
  | st, _ :: rest => audioReadCoordsFrom cfg st rest

/-- The coordinates at which the audio passes of a run sample; `state` is -1 when the
simulation cycle starts. -/
def audioReadCoords (cfg : Config) (ops : List GLOp) : List (Option (ℚ × ℚ)) :=
  audioReadCoordsFrom cfg (-1) ops

/-! ## Texture layout -/

/-- Local `numOfAttributesPerVertex`. -/
def numOfAttributesPerVertex : Nat := 12

/-- Array `attributes`: twelve values for each of the twelve vertices. -/
def attributes (cfg : Config) : List ℚ :=
  let dX : ℚ := deltaX cfg
  let dY : ℚ := deltaY cfg
  let dV : ℚ := deltaV cfg
  let c : ℚ := (cfg.ceiling : ℚ)
  [ -1, -1, 1 / 2, 0, 1 / 2 - dX, 0, 1 / 2, 0 + dY, 1 / 2 + dX, 0, 1 / 2, 0 - dY,
    -1, 1 - c * dV, 1 / 2, 1 - c * dY, 1 / 2 - dX, 1 - c * dY, 1 / 2, 1 + dY - c * dY,
      1 / 2 + dX, 1 - c * dY, 1 / 2, 1 - dY - c * dY,
    0, -1, 1, 0, 1 - dX, 0, 1, 0 + dY, 1 + dX, 0, 1, 0 - dY,
    0, 1 - c * dV, 1, 1 - c * dY, 1 - dX, 1 - c * dY, 1, 1 + dY - c * dY,
      1 + dX, 1 - c * dY, 1, 1 - dY - c * dY,
    0, -1, 0, 0, 0 - dX, 0, 0, 0 + dY, 0 + dX, 0, 0, 0 - dY,
    0, 1 - c * dV, 0, 1 - c * dY, 0 - dX, 1 - c * dY, 0, 1 + dY - c * dY,
      0 + dX, 1 - c * dY, 0, 1 - dY - c * dY,
    1, -1, 1 / 2, 0, 1 / 2 - dX, 0, 1 / 2, 0 + dY, 1 / 2 + dX, 0, 1 / 2, 0 - dY,
    1, 1 - c * dV, 1 / 2, 1 - c * dY, 1 / 2 - dX, 1 - c * dY, 1 / 2, 1 + dY - c * dY,
      1 / 2 + dX, 1 - c * dY, 1 / 2, 1 - dY - c * dY,
    -1, 1 - dV, 0, 1 - dY, 0, 0, 0, 0, 0, 0, 0, 0,
    -1, 1, 0, 1, 0, 0, 0, 0, 0, 0, 0, 0,
    1, 1 - dV, 1, 1 - dY, 0, 0, 0, 0, 0, 0, 0, 0,
    1, 1, 1, 1, 0, 0, 0, 0, 0, 0, 0, 0 ]

/-- The x position, in normalised device coordinates, of vertex `v`. -/
def vertexPosX (cfg : Config) (v : Nat) : ℚ :=
  (attributes cfg).getD (numOfAttributesPerVertex * v) 0

/-- The window x coordinate of a normalised device x coordinate under
`glViewport(0, 0, textureWidth, textureHeight)`. -/
def viewportX (cfg : Config) (x : ℚ) : ℚ := (x + 1) / 2 * (textureWidth cfg : ℚ)

/-- Left edge, in texture columns, of the rectangle drawn for quad `q`. -/
def quadLeft (cfg : Config) (q : Int) : ℚ :=
  let v := (verticesFirst q).toNat
  viewportX cfg (min (min (vertexPosX cfg v) (vertexPosX cfg (v + 1)))
    (min (vertexPosX cfg (v + 2)) (vertexPosX cfg (v + 3))))

/-- Right edge, in texture columns, of the rectangle drawn for quad `q`. -/
def quadRight (cfg : Config) (q : Int) : ℚ :=
  let v := (verticesFirst q).toNat
  viewportX cfg (max (max (vertexPosX cfg v) (vertexPosX cfg (v + 1)))
    (max (vertexPosX cfg (v + 2)) (vertexPosX cfg (v + 3))))

/-- The y position, in normalised device coordinates, of vertex `v`. -/
def vertexPosY (cfg : Config) (v : Nat) : ℚ :=
  (attributes cfg).getD (numOfAttributesPerVertex * v + 1) 0

/-- The window y coordinate of a normalised device y coordinate under
`glViewport(0, 0, textureWidth, textureHeight)`. -/
def viewportY (cfg : Config) (y : ℚ) : ℚ := (y + 1) / 2 * (textureHeight cfg : ℚ)

/-- Bottom edge, in texture rows, of the rectangle drawn for quad `q`. -/
def quadBottom (cfg : Config) (q : Int) : ℚ :=
  let v := (verticesFirst q).toNat
  viewportY cfg (min (min (vertexPosY cfg v) (vertexPosY cfg (v + 1)))
    (min (vertexPosY cfg (v + 2)) (vertexPosY cfg (v + 3))))

/-- Top edge, in texture rows, of the rectangle drawn for quad `q`. -/
def quadTop (cfg : Config) (q : Int) : ℚ :=
  let v := (verticesFirst q).toNat
  viewportY cfg (max (max (vertexPosY cfg v) (vertexPosY cfg (v + 1)))
    (max (vertexPosY cfg (v + 2)) (vertexPosY cfg (v + 3))))

/-- Texture coordinate of the centre of the texel in column `c` and row `r`. -/
def texelCentre (cfg : Config) (c r : Int) : ℚ × ℚ :=
  (((c : ℚ) + 1 / 2) / (textureWidth cfg : ℚ), ((r : ℚ) + 1 / 2) / (textureHeight cfg : ℚ))

/-- Column and row of the texel that contains a texture coordinate. -/
def texelOf (cfg : Config) (coord : ℚ × ℚ) : Int × Int :=
  (⌊coord.1 * (textureWidth cfg : ℚ)⌋, ⌊coord.2 * (textureHeight cfg : ℚ)⌋)

/-! ## Concrete inputs -/

/-- Outside input of a batch in which nothing happens: silent samples, no clock time,
no mouse event, escape not pressed. -/
def quietBatch : BatchInput where
  sampleBuffer := fun _ => 0
  differenceRealTimeClock := 0
  mouseEvents := []
  escapePressed := false

/-- A run in which every batch is quiet. -/
def quietInputs : Nat → BatchInput := fun _ => quietBatch

/-- Settings `sampleRate = 100`, `excitationFrequency = 25`, four ticks a batch, continuous. -/
def cadenceConfig : Config :=
  { sampleRate := 100, excitationFrequency := 25, buffer_size := 4, duration := 1 }

/-- The same settings with single excitation. -/
def cadenceConfigSingle : Config :=
  { sampleRate := 100, excitationFrequency := 25, buffer_size := 4, duration := 1,
    isSingleExcitation := true }

/-- A left-button press with the cursor at window pixel (400, 200). -/
def leftPressEvent : MouseEvent := { button := 0, action := 1, xPos := 400, yPos := 200 }

/-- A left-button release at the same pixel. -/
def leftReleaseEvent : MouseEvent := { button := 0, action := 0, xPos := 400, yPos := 200 }

/-- A state of a single-shot run after the shot: `maxExcitation` and the magnitude are 0 and
the tick counter stands at 2. -/
def spentState : State := { initialState with maxExcitation := 0, sampleCnt := 2 }

/-- The samples one batch appends: the conversions of the first `buffer_size` entries of
the mapped pixel buffer, in index order. -/
def batchSamples (cfg : Config) (inp : BatchInput) : List Int :=
  (List.range (forLoopCount cfg.buffer_size)).map (fun i => sampleOf (inp.sampleBuffer i))

/-- A run in which the escape key is found pressed at the poll of every batch, so that the
first batch is the last. -/
def escapeInputs : Nat → BatchInput := fun _ => { quietBatch with escapePressed := true }

/-- A run in which every batch takes 1000000 clock ticks. -/
def slowInputs : Nat → BatchInput :=
  fun _ => { quietBatch with differenceRealTimeClock := 1000000 }

/-- A pressure that is a `float` and whose product with 32767 is not: `0x1.0002p-15`, that
is `32769 / 2^30`. -/
def roundingPressure : ℚ := 32769 / 1073741824

/-- The values passed to the `wrCoord` uniform, in order. -/
def wrCoordUniforms (ops : List GLOp) : List (ℚ × ℚ) :=
  ops.filterMap (fun op =>
    match op with
    | GLOp.uniformWrCoord x c => some (x, c)
    | _ => none)

/-- The indices of the writes `realTimeAudioBuffer[sampleCounter++] = sample` made by the
remaining `count` passes of the append loop, in order. -/
def appendSamplesIndices (sampleBuffer : Nat → ℚ) : Nat → Nat → State → List Int
  | 0, _, _ => []
  | count + 1, i, s =>
    s.sampleCounter :: appendSamplesIndices sampleBuffer count (i + 1) (appendSample sampleBuffer i s)

/-- The indices written into `realTimeAudioBuffer` by one pass of the outer loop. -/
def batchWriteIndices (cfg : Config) (inp : BatchInput) (s : State) : List Int :=
  let s1 := ticks cfg (forLoopCount cfg.buffer_size) s
  let s2 := { s1 with wrCoord := (0, 0) }
  appendSamplesIndices inp.sampleBuffer (forLoopCount cfg.buffer_size) 0 s2

/-- The indices written into `realTimeAudioBuffer` by `k` passes of the outer loop. -/
def batchesWriteIndices (cfg : Config) (inputs : Nat → BatchInput) : Nat → Nat → State → List Int
  | 0, _, _ => []
  | k + 1, i, s =>
    batchWriteIndices cfg (inputs i) s
      ++ batchesWriteIndices cfg inputs k (i + 1) (batchIteration cfg (inputs i) s)

/-! ## Point types: the interior mask and the excitation mask -/

/-- The arrays `pointType[0]` (transmission value: 1 for a regular point, 0 for a boundary
point) and `pointType[1]` (1 at an excitation point), indexed `[i][j]`.  `allocated i` tells
whether the rows `pointType[0][i]` and `pointType[1][i]` have been allocated. -/
structure PointType where
  allocated : Int → Bool
  transmission : Int → Int → ℚ
  excitation : Int → Int → ℚ

/-- The arrays after `new float*[domainSize[0]]`, before any row is allocated. -/
def emptyPointType : PointType where
  allocated := fun _ => false
  transmission := fun _ _ => 0
  excitation := fun _ _ => 0

/-- The access `pointType[..][i][j]` stays inside the allocated storage: `i` indexes one of
the `domainSize[0]` row pointers, the row is allocated, and `j` indexes one of its
`domainSize[1]` elements. -/
def PointType.inBounds (cfg : Config) (pt : PointType) (i j : Int) : Bool :=
  decide (0 ≤ i ∧ i < cfg.domainSize.1) && pt.allocated i
    && decide (0 ≤ j ∧ j < cfg.domainSize.2)

/-- The statements `pointType[0][i] = new float[domainSize[1]]` and `pointType[1][i] = new
float[domainSize[1]]`; no result when `i` is not one of the row pointers or the size is
negative. -/
def PointType.allocateRow (cfg : Config) (pt : PointType) (i : Int) : Option PointType :=
  if 0 ≤ i ∧ i < cfg.domainSize.1 ∧ 0 ≤ cfg.domainSize.2 then
    some { pt with allocated := fun a => if a = i then true else pt.allocated a }
  else none

/-- The assignment `pointType[0][i][j] = v`; no result when the access is out of bounds. -/
def PointType.setTransmission (cfg : Config) (pt : PointType) (i j : Int) (v : ℚ) :
    Option PointType :=
  if pt.inBounds cfg i j then
    some { pt with transmission := fun a b => if a = i ∧ b = j then v else pt.transmission a b }
  else none

/-- The assignment `pointType[1][i][j] = v`; no result when the access is out of bounds. -/
def PointType.setExcitation (cfg : Config) (pt : PointType) (i j : Int) (v : ℚ) :
    Option PointType :=
  if pt.inBounds cfg i j then
    some { pt with excitation := fun a b => if a = i ∧ b = j then v else pt.excitation a b }
  else none

/-- The loop `for (int j = 0; j != domainSize[1]; ++j)` that initialises row `i`: the
remaining `count` passes, starting at `j`. -/
def initRow (cfg : Config) (excitationPosition : ℚ × ℚ) (i : Int) :
    Nat → Int → PointType → Option PointType
  | 0, _, pt => some pt
  | count + 1, j, pt =>
    (pt.setTransmission cfg i j 1).bind fun pt1 =>
    (pt1.setExcitation cfg i j 0).bind fun pt2 =>
    (if (i : ℚ) = excitationPosition.1 ∧ (j : ℚ) = excitationPosition.2 then
        pt2.setExcitation cfg i j 1
      else some pt2).bind fun pt3 =>
    initRow cfg excitationPosition i count (wrapInt32 (j + 1)) pt3

/-- The first loop `for (int i = 0; i != domainSize[0]; ++i)`, which allocates and
initialises the rows: the remaining `count` passes, starting at `i`. -/
def initRows (cfg : Config) (excitationPosition : ℚ × ℚ) :
    Nat → Int → PointType → Option PointType
  | 0, _, pt => some pt
  | count + 1, i, pt =>
    (pt.allocateRow cfg i).bind fun pt1 =>
    (initRow cfg excitationPosition i (forLoopCount cfg.domainSize.2) 0 pt1).bind fun pt2 =>
    initRows cfg excitationPosition count (wrapInt32 (i + 1)) pt2

/-- The second loop `for (int i = 0; i != domainSize[0]; ++i)`, which clears
`pointType[0][i][0]` and `pointType[0][i][domainSize[1] - 1]`. -/
def boundaryLoopFirst (cfg : Config) : Nat → Int → PointType → Option PointType
  | 0, _, pt => some pt
  | count + 1, i, pt =>
    (pt.setTransmission cfg i 0 0).bind fun pt1 =>
    (pt1.setTransmission cfg i (wrapInt32 (cfg.domainSize.2 - 1)) 0).bind fun pt2 =>
    boundaryLoopFirst cfg count (wrapInt32 (i + 1)) pt2

/-- The third loop `for (int i = 0; i != domainSize[1] - 1; ++i)`, which clears
`pointType[0][0][i]` and `pointType[0][domainSize[0] - 1][i]`. -/
def boundaryLoopSecond (cfg : Config) : Nat → Int → PointType → Option PointType
  | 0, _, pt => some pt
  | count + 1, i, pt =>
    (pt.setTransmission cfg 0 i 0).bind fun pt1 =>
    (pt1.setTransmission cfg (wrapInt32 (cfg.domainSize.1 - 1)) i 0).bind fun pt2 =>
    boundaryLoopSecond cfg count (wrapInt32 (i + 1)) pt2

/-- Construction of `pointType`: the allocation of the row pointers and the three loops.
No result when an allocation has a negative size or an access is out of bounds. -/
def buildPointType (cfg : Config) (excitationPosition : ℚ × ℚ) : Option PointType :=
  if 0 ≤ cfg.domainSize.1 then
    (initRows cfg excitationPosition (forLoopCount cfg.domainSize.1) 0 emptyPointType).bind
      fun pt1 =>
    (boundaryLoopFirst cfg (forLoopCount cfg.domainSize.1) 0 pt1).bind fun pt2 =>
    boundaryLoopSecond cfg (forLoopCount (wrapInt32 (cfg.domainSize.2 - 1))) 0 pt2
  else none

/-! ## The texture and the start of the program -/

/-- The array `texturePixels`: `size` floats. -/
structure Texture where
  size : Int
  pixels : Int → ℚ

/-- The statements `new float[textureWidth*textureHeight*numChannels]` and `memset`; no
result when the size is negative. -/
def newTexture (cfg : Config) : Option Texture :=
  if 0 ≤ wrapInt32 (wrapInt32 (textureWidth cfg * textureHeight cfg) * 4) then
    some { size := wrapInt32 (wrapInt32 (textureWidth cfg * textureHeight cfg) * 4),
           pixels := fun _ => 0 }
  else none

/-- The assignment `texturePixels[idx] = v`; no result when the access is out of bounds. -/
def Texture.set (t : Texture) (idx : Int) (v : ℚ) : Option Texture :=
  if 0 ≤ idx ∧ idx < t.size then
    some { t with pixels := fun a => if a = idx then v else t.pixels a }
  else none

/-- The value `texturePixels[idx]`; no result when the access is out of bounds. -/
def Texture.get (t : Texture) (idx : Int) : Option ℚ :=
  if 0 ≤ idx ∧ idx < t.size then some (t.pixels idx) else none

/-- The value `pointType[0][i][j]`; no result when the access is out of bounds. -/
def PointType.getTransmission (cfg : Config) (pt : PointType) (i j : Int) : Option ℚ :=
  if pt.inBounds cfg i j then some (pt.transmission i j) else none

/-- The value `pointType[1][i][j]`; no result when the access is out of bounds. -/
def PointType.getExcitation (cfg : Config) (pt : PointType) (i j : Int) : Option ℚ :=
  if pt.inBounds cfg i j then some (pt.excitation i j) else none

/-- The index `(j*textureWidth + i) * 4 + channel` into `texturePixels`. -/
def pixelIndex (cfg : Config) (i j channel : Int) : Int :=
  wrapInt32 (wrapInt32 (wrapInt32 (wrapInt32 (j * textureWidth cfg) + i) * 4) + channel)

/-- The two assignments that copy the point types of cell `(src, j)` into channels 2 and 3
of texture pixel `(i, j)`. -/
def copyPoint (cfg : Config) (pt : PointType) (i src j : Int) (t : Texture) : Option Texture :=
  (pt.getTransmission cfg src j).bind fun v0 =>
  (t.set (pixelIndex cfg i j 2) v0).bind fun t1 =>
  (pt.getExcitation cfg src j).bind fun v1 =>
  t1.set (pixelIndex cfg i j 3) v1

/-- The loop `for (int j = 0; j != textureHeight - ceiling; ++j)` of the copy for texture
column `i`: the remaining `count` passes, starting at `j`. -/
def copyColumn (cfg : Config) (pt : PointType) (i : Int) : Nat → Int → Texture → Option Texture
  | 0, _, t => some t
  | count + 1, j, t =>
    (if i < cfg.domainSize.1 then copyPoint cfg pt i i j t else some t).bind fun t1 =>
    (if i ≥ cfg.domainSize.1 then
        copyPoint cfg pt i (wrapInt32 (i - cfg.domainSize.1)) j t1
      else some t1).bind fun t2 =>
    copyColumn cfg pt i count (wrapInt32 (j + 1)) t2

/-- The loop `for (int i = 0; i != textureWidth; ++i)` that copies the point types into
both quads of the texture: the remaining `count` passes, starting at `i`. -/
def copyPointTypes (cfg : Config) (pt : PointType) : Nat → Int → Texture → Option Texture
  | 0, _, t => some t
  | count + 1, i, t =>
    (copyColumn cfg pt i (forLoopCount (wrapInt32 (textureHeight cfg - cfg.ceiling))) 0 t).bind
      fun t1 => copyPointTypes cfg pt count (wrapInt32 (i + 1)) t1

/-- The loop `for (int i = 0; i != sizeof(texturePixels) * 4; ++i)` that prints
`texturePixels[i]`: the remaining `count` reads, starting at `i`. -/
def printTexture (t : Texture) : Nat → Int → Option Unit
  | 0, _ => some ()
  | count + 1, i => (t.get i).bind fun _ => printTexture t count (wrapInt32 (i + 1))

/-- What the program finds when it starts: whether `glfwCreateWindow` returns a window,
whether `gladLoadGLLoader` succeeds, and the size in bytes of a pointer. -/
structure Startup where
  windowCreated : Bool
  gladLoaded : Bool
  pointerSize : Int

/-- How a run of `main` ends. -/
inductive Outcome where
  | fatal (code : Int)
  | undefined
  | finished (s : State) (ops : List GLOp)

/-- The texture data `main` builds before the simulation cycle: the texture array, the
point types, the copy of the point types into the texture and the print of its first
values.  No result when an allocation has a negative size or an access is out of bounds. -/
def buildTexture (cfg : Config) (startup : Startup) (excitationPosition : ℚ × ℚ) :
    Option Texture :=
  (newTexture cfg).bind fun t0 =>
  (buildPointType cfg excitationPosition).bind fun pt =>
  (copyPointTypes cfg pt (forLoopCount (textureWidth cfg)) 0 t0).bind fun t1 =>
  (printTexture t1 (forLoopCount (wrapInt32 (startup.pointerSize * 4))) 0).bind fun _ =>
  some t1

/-- The function `main` from the creation of the window on: `return -1` when the window or
the OpenGL loader is missing, then the texture data, the simulation cycle and the final
playback.  `Outcome.undefined` stands for a run whose start-up leaves the bounds of an
array.  The OpenGL object set-up between the texture data and the cycle issues no recorded
call and assigns none of the variables of `State`. -/
def program (cfg : Config) (startup : Startup) (inputs : Nat → BatchInput) : Outcome :=
  if startup.windowCreated = false then Outcome.fatal (-1)
  else if startup.gladLoaded = false then Outcome.fatal (-1)
  else
    match buildTexture cfg startup initialState.excitationPosition with
    | none => Outcome.undefined
    | some _ => Outcome.finished (mainState cfg inputs) (mainOps cfg inputs)

/-! ## The update rule of the specification -/

/-- A domain of 3 by 5 cells. -/
def oblongConfig : Config := { domainSize := (3, 5) }

/-- A domain of 2 by 2 cells, the other settings as in the source. -/
def tinyConfig : Config := { domainSize := (2, 2) }

/-- A start with a window and the OpenGL loader on a 64-bit target. -/
def normalStartup : Startup := { windowCreated := true, gladLoaded := true, pointerSize := 8 }


/-! ## Lemmas: floating-point rounding -/

theorem roundHalfEven_intCast (n : Int) : roundHalfEven (n : ℚ) = n := by
  unfold roundHalfEven
  rw [Int.floor_intCast, sub_self, if_pos (by norm_num)]

theorem floor_le_roundHalfEven (q : ℚ) : ⌊q⌋ ≤ roundHalfEven q := by
  unfold roundHalfEven
  split_ifs <;> omega

theorem roundHalfEven_le_floor_succ (q : ℚ) : roundHalfEven q ≤ ⌊q⌋ + 1 := by
  unfold roundHalfEven
  split_ifs <;> omega

/-- An integer below a value is below its rounding. -/
theorem intCast_le_roundHalfEven (a : Int) (q : ℚ) (h : (a : ℚ) ≤ q) : a ≤ roundHalfEven q :=
  le_trans (Int.le_floor.mpr h) (floor_le_roundHalfEven q)

/-- An integer above a value is above its rounding. -/
theorem roundHalfEven_le_intCast (b : Int) (q : ℚ) (h : q ≤ (b : ℚ)) : roundHalfEven q ≤ b := by
  by_cases hq : q = (b : ℚ)
  · rw [hq, roundHalfEven_intCast]
  · have hlt : q < (b : ℚ) := lt_of_le_of_ne h hq
    have : ⌊q⌋ < b := Int.floor_lt.mpr hlt
    have := roundHalfEven_le_floor_succ q
    omega

/-- A value less than half a unit away from an integer rounds to it. -/
theorem roundHalfEven_eq (q : ℚ) (n : Int) (h1 : (n : ℚ) - 1 / 2 < q)
    (h2 : q < (n : ℚ) + 1 / 2) : roundHalfEven q = n := by
  unfold roundHalfEven
  by_cases hn : (n : ℚ) ≤ q
  · have hf : ⌊q⌋ = n := by
      rw [Int.floor_eq_iff]
      exact ⟨hn, by linarith⟩
    rw [hf, if_pos (by linarith)]
  · have hn2 : q < (n : ℚ) := not_le.mp hn
    have hf : ⌊q⌋ = n - 1 := by
      rw [Int.floor_eq_iff]
      push_cast
      exact ⟨by linarith, by linarith⟩
    rw [hf]
    push_cast
    rw [if_neg (by linarith), if_pos (by linarith)]
    ring

theorem two_zpow_pos (z : Int) : (0 : ℚ) < (2 : ℚ) ^ z := zpow_pos (by norm_num) z

/-- The binade of a value whose significand, scaled by `2 ^ k`, has `prec` bits. -/
theorem log_eq_of_scaled (prec : Nat) (q : ℚ) (k : Nat) (hprec : 1 ≤ prec)
    (hlo : (2 : ℚ) ^ (prec - 1) ≤ |q| * 2 ^ k) (hhi : |q| * 2 ^ k < 2 ^ prec) :
    Int.log 2 |q| = (prec : Int) - 1 - (k : Int) := by
  have hk : (0 : ℚ) < (2 : ℚ) ^ k := pow_pos (by norm_num) k
  have hq : 0 < |q| := by
    by_contra hcon
    have h0 : |q| = 0 := le_antisymm (not_lt.mp hcon) (abs_nonneg q)
    rw [h0, zero_mul] at hlo
    exact absurd hlo (not_le.mpr (pow_pos (by norm_num) _))
  have hc : ((2 : Nat) : ℚ) = 2 := by norm_num
  have hz1 : (2 : ℚ) ^ ((prec : Int) - 1 - (k : Int)) = (2 : ℚ) ^ (prec - 1) / 2 ^ k := by
    have hp : ((prec : Int) - 1) = ((prec - 1 : Nat) : Int) := by omega
    rw [zpow_sub₀ (by norm_num), hp, zpow_natCast, zpow_natCast]
  have hz2 : (2 : ℚ) ^ ((prec : Int) - 1 - (k : Int) + 1) = (2 : ℚ) ^ prec / 2 ^ k := by
    have hp : ((prec : Int) - 1 - (k : Int) + 1) = (prec : Int) - (k : Int) := by omega
    rw [hp, zpow_sub₀ (by norm_num), zpow_natCast, zpow_natCast]
  apply le_antisymm
  · have h := (Int.lt_zpow_iff_log_lt (by norm_num : 1 < 2) hq
      (x := (prec : Int) - 1 - (k : Int) + 1)).mp (by
        rw [hc, hz2, lt_div_iff₀ hk]
        exact hhi)
    omega
  · exact (Int.zpow_le_iff_le_log (by norm_num : 1 < 2) hq).mp (by
      rw [hc, hz1, div_le_iff₀ hk]
      exact hlo)

/-- Evaluation of a rounding: a value whose significand, scaled by `2 ^ k`, has `prec` bits
and lies less than half a unit from the integer `n` rounds to `n / 2 ^ k`. -/
theorem roundBinary_eq (prec : Nat) (emin : Int) (q : ℚ) (k : Nat) (n : Int)
    (hprec : 1 ≤ prec) (hk : emin ≤ (prec : Int) - 1 - (k : Int))
    (hlo : (2 : ℚ) ^ (prec - 1) ≤ |q| * 2 ^ k) (hhi : |q| * 2 ^ k < 2 ^ prec)
    (h1 : (n : ℚ) - 1 / 2 < q * 2 ^ k) (h2 : q * 2 ^ k < (n : ℚ) + 1 / 2) :
    roundBinary prec emin q = (n : ℚ) / 2 ^ k := by
  unfold roundBinary
  dsimp only
  rw [log_eq_of_scaled prec q k hprec hlo hhi, max_eq_left hk]
  have hz : (prec : Int) - 1 - ((prec : Int) - 1 - (k : Int)) = (k : Int) := by omega
  rw [hz, zpow_natCast, roundHalfEven_eq _ n h1 h2]

/-- The scaling exponent of a value below `2 ^ prec` is not negative. -/
theorem scale_nonneg (prec : Nat) (emin : Int) (q : ℚ) (hprec : 1 ≤ prec)
    (hemin : emin ≤ (prec : Int) - 1) (hq : |q| < 2 ^ prec) :
    0 ≤ (prec : Int) - 1 - max (Int.log 2 |q|) emin := by
  have hlog : Int.log 2 |q| ≤ (prec : Int) - 1 := by
    by_cases h0 : |q| = 0
    · rw [h0, Int.log_zero_right]
      omega
    · have hpos : 0 < |q| := lt_of_le_of_ne (abs_nonneg q) (Ne.symm h0)
      have h := (Int.lt_zpow_iff_log_lt (by norm_num : 1 < 2) hpos (x := (prec : Int))).mp (by
        rw [zpow_natCast]
        have hc : ((2 : Nat) : ℚ) = 2 := by norm_num
        rw [hc]
        exact hq)
      omega
  have := max_le hlog hemin
  omega

/-- An integer above a value below `2 ^ prec` is above its rounding. -/
theorem roundBinary_le_intCast (prec : Nat) (emin : Int) (q : ℚ) (b : Int) (hprec : 1 ≤ prec)
    (hemin : emin ≤ (prec : Int) - 1) (hq : |q| < 2 ^ prec) (h : q ≤ (b : ℚ)) :
    roundBinary prec emin q ≤ (b : ℚ) := by
  have hs := scale_nonneg prec emin q hprec hemin hq
  unfold roundBinary
  dsimp only
  obtain ⟨j, hj⟩ := Int.eq_ofNat_of_zero_le hs
  rw [hj, zpow_natCast]
  have hpos : (0 : ℚ) < (2 : ℚ) ^ j := pow_pos (by norm_num) j
  rw [div_le_iff₀ hpos]
  have hle : roundHalfEven (q * 2 ^ j) ≤ b * 2 ^ j := by
    apply roundHalfEven_le_intCast
    push_cast
    exact mul_le_mul_of_nonneg_right h (le_of_lt hpos)
  have : ((roundHalfEven (q * 2 ^ j) : Int) : ℚ) ≤ ((b * 2 ^ j : Int) : ℚ) := by
    exact_mod_cast hle
  push_cast at this
  exact this

/-- An integer below a value below `2 ^ prec` is below its rounding. -/
theorem intCast_le_roundBinary (prec : Nat) (emin : Int) (q : ℚ) (a : Int) (hprec : 1 ≤ prec)
    (hemin : emin ≤ (prec : Int) - 1) (hq : |q| < 2 ^ prec) (h : (a : ℚ) ≤ q) :
    (a : ℚ) ≤ roundBinary prec emin q := by
  have hs := scale_nonneg prec emin q hprec hemin hq
  unfold roundBinary
  dsimp only
  obtain ⟨j, hj⟩ := Int.eq_ofNat_of_zero_le hs
  rw [hj, zpow_natCast]
  have hpos : (0 : ℚ) < (2 : ℚ) ^ j := pow_pos (by norm_num) j
  rw [le_div_iff₀ hpos]
  have hle : a * 2 ^ j ≤ roundHalfEven (q * 2 ^ j) := by
    apply intCast_le_roundHalfEven
    push_cast
    exact mul_le_mul_of_nonneg_right h (le_of_lt hpos)
  have : ((a * 2 ^ j : Int) : ℚ) ≤ ((roundHalfEven (q * 2 ^ j) : Int) : ℚ) := by
    exact_mod_cast hle
  push_cast at this
  exact this

/-- An integer of fewer than `prec` bits is a value of the format. -/
theorem roundBinary_intCast (prec : Nat) (emin : Int) (n : Int) (hprec : 1 ≤ prec)
    (hemin : emin ≤ (prec : Int) - 1) (hn : |(n : ℚ)| < 2 ^ prec) :
    roundBinary prec emin (n : ℚ) = (n : ℚ) :=
  le_antisymm (roundBinary_le_intCast prec emin _ n hprec hemin hn (le_refl _))
    (intCast_le_roundBinary prec emin _ n hprec hemin hn (le_refl _))

theorem roundFloat32_intCast (n : Int) (hn : |(n : ℚ)| < 16777216) :
    roundFloat32 (n : ℚ) = (n : ℚ) :=
  roundBinary_intCast 24 (-126) n (by norm_num) (by norm_num) (by norm_num; exact hn)

theorem roundFloat32_le_intCast (q : ℚ) (b : Int) (hq : |q| < 16777216) (h : q ≤ (b : ℚ)) :
    roundFloat32 q ≤ (b : ℚ) :=
  roundBinary_le_intCast 24 (-126) q b (by norm_num) (by norm_num) (by norm_num; exact hq) h

theorem intCast_le_roundFloat32 (q : ℚ) (a : Int) (hq : |q| < 16777216) (h : (a : ℚ) ≤ q) :
    (a : ℚ) ≤ roundFloat32 q :=
  intCast_le_roundBinary 24 (-126) q a (by norm_num) (by norm_num) (by norm_num; exact hq) h

/-- Evaluation of a rounding to `float`. -/
theorem roundFloat32_eq (q : ℚ) (k : Nat) (n : Int) (hk : k ≤ 149)
    (hlo : (8388608 : ℚ) ≤ |q| * 2 ^ k) (hhi : |q| * 2 ^ k < 16777216)
    (h1 : (n : ℚ) - 1 / 2 < q * 2 ^ k) (h2 : q * 2 ^ k < (n : ℚ) + 1 / 2) :
    roundFloat32 q = (n : ℚ) / 2 ^ k :=
  roundBinary_eq 24 (-126) q k n (by norm_num) (by push_cast; omega)
    (by norm_num; exact hlo) (by norm_num; exact hhi) h1 h2

/-- Evaluation of a rounding to `double`. -/
theorem roundFloat64_eq (q : ℚ) (k : Nat) (n : Int) (hk : k ≤ 1074)
    (hlo : (4503599627370496 : ℚ) ≤ |q| * 2 ^ k) (hhi : |q| * 2 ^ k < 9007199254740992)
    (h1 : (n : ℚ) - 1 / 2 < q * 2 ^ k) (h2 : q * 2 ^ k < (n : ℚ) + 1 / 2) :
    roundFloat64 q = (n : ℚ) / 2 ^ k :=
  roundBinary_eq 53 (-1022) q k n (by norm_num) (by push_cast; omega)
    (by norm_num; exact hlo) (by norm_num; exact hhi) h1 h2

/-! ## Lemmas: machine integers -/

theorem wrapInt32_of_range {x : Int} (h1 : INT_MIN ≤ x) (h2 : x ≤ INT_MAX) : wrapInt32 x = x := by
  unfold INT_MIN at h1
  unfold INT_MAX at h2
  unfold wrapInt32
  omega

theorem wrapInt32_le (x : Int) : wrapInt32 x ≤ INT_MAX := by
  unfold INT_MAX wrapInt32
  omega

theorem wrapInt32_ge (x : Int) : INT_MIN ≤ wrapInt32 x := by
  unfold INT_MIN wrapInt32
  omega

theorem forLoopCount_of_range {b : Int} (h1 : 0 ≤ b) (h2 : b ≤ INT_MAX) :
    (forLoopCount b : Int) = b := by
  unfold INT_MAX at h2
  unfold forLoopCount
  omega

/-! ## Lemmas: the inner loop -/

theorem tick_sampleCnt (cfg : Config) (s : State) :
    (tick cfg s).sampleCnt =
      if wrapInt32 (s.sampleCnt + 1) = excitationDuration cfg then 0
      else wrapInt32 (s.sampleCnt + 1) := by
  unfold tick
  dsimp only
  split_ifs <;> rfl

theorem tick_excitationMagnitude (cfg : Config) (s : State) :
    (tick cfg s).excitationMagnitude =
      if wrapInt32 (s.sampleCnt + 1) = excitationDuration cfg then s.maxExcitation else 0 := by
  unfold tick
  dsimp only
  split_ifs <;> rfl

theorem tick_maxExcitation (cfg : Config) (s : State) :
    (tick cfg s).maxExcitation =
      if wrapInt32 (s.sampleCnt + 1) = excitationDuration cfg then
        (if cfg.isSingleExcitation then 0 else s.maxExcitation)
      else s.maxExcitation := by
  unfold tick
  dsimp only
  split_ifs <;> rfl

theorem tick_currentQuad (cfg : Config) (s : State) :
    (tick cfg s).currentQuad = wrapInt32 (1 - s.currentQuad) := by
  unfold tick
  dsimp only
  split_ifs <;> rfl

theorem tick_excitationPosition (cfg : Config) (s : State) :
    (tick cfg s).excitationPosition = s.excitationPosition := by
  unfold tick
  dsimp only
  split_ifs <;> rfl

theorem tick_sampleCounter (cfg : Config) (s : State) :
    (tick cfg s).sampleCounter = s.sampleCounter := by
  unfold tick
  dsimp only
  split_ifs <;> rfl

theorem tick_playbackAudioBuffer (cfg : Config) (s : State) :
    (tick cfg s).playbackAudioBuffer = s.playbackAudioBuffer := by
  unfold tick
  dsimp only
  split_ifs <;> rfl

theorem ticks_succ_right (cfg : Config) (n : Nat) (s : State) :
    ticks cfg (n + 1) s = tick cfg (ticks cfg n s) := by
  induction n generalizing s with
  | zero => rfl
  | succ n ih =>
    show ticks cfg (n + 1) (tick cfg s) = _
    rw [ih (tick cfg s)]
    rfl

theorem ticks_add (cfg : Config) (a b : Nat) (s : State) :
    ticks cfg (a + b) s = ticks cfg b (ticks cfg a s) := by
  induction a generalizing s with
  | zero => simp [ticks]
  | succ a ih =>
    have h : a + 1 + b = (a + b) + 1 := by omega
    rw [h]
    show ticks cfg (a + b) (tick cfg s) = ticks cfg b (ticks cfg a (tick cfg s))
    exact ih (tick cfg s)

theorem ticks_sampleCounter (cfg : Config) (n : Nat) (s : State) :
    (ticks cfg n s).sampleCounter = s.sampleCounter := by
  induction n generalizing s with
  | zero => rfl
  | succ n ih =>
    show (ticks cfg n (tick cfg s)).sampleCounter = _
    rw [ih, tick_sampleCounter]

theorem ticks_playbackAudioBuffer (cfg : Config) (n : Nat) (s : State) :
    (ticks cfg n s).playbackAudioBuffer = s.playbackAudioBuffer := by
  induction n generalizing s with
  | zero => rfl
  | succ n ih =>
    show (ticks cfg n (tick cfg s)).playbackAudioBuffer = _
    rw [ih, tick_playbackAudioBuffer]

theorem ticks_excitationPosition (cfg : Config) (n : Nat) (s : State) :
    (ticks cfg n s).excitationPosition = s.excitationPosition := by
  induction n generalizing s with
  | zero => rfl
  | succ n ih =>
    show (ticks cfg n (tick cfg s)).excitationPosition = _
    rw [ih, tick_excitationPosition]

theorem tickEq_refl (s : State) : TickEq s s := ⟨rfl, rfl, rfl, rfl⟩

theorem tickEq_trans {s t u : State} (h1 : TickEq s t) (h2 : TickEq t u) : TickEq s u :=
  ⟨h1.1.trans h2.1, h1.2.1.trans h2.2.1, h1.2.2.1.trans h2.2.2.1, h1.2.2.2.trans h2.2.2.2⟩

theorem tickEq_tick (cfg : Config) {s t : State} (h : TickEq s t) :
    TickEq (tick cfg s) (tick cfg t) := by
  obtain ⟨h1, h2, h3, h4⟩ := h
  refine ⟨?_, ?_, ?_, ?_⟩
  · rw [tick_sampleCnt, tick_sampleCnt, h1]
  · rw [tick_excitationMagnitude, tick_excitationMagnitude, h1, h3]
  · rw [tick_maxExcitation, tick_maxExcitation, h1, h3]
  · rw [tick_currentQuad, tick_currentQuad, h4]

theorem tickEq_ticks (cfg : Config) (n : Nat) {s t : State} (h : TickEq s t) :
    TickEq (ticks cfg n s) (ticks cfg n t) := by
  induction n generalizing s t with
  | zero => exact h
  | succ n ih => exact ih (tickEq_tick cfg h)

/-! ## Lemmas: the excitation counter -/

theorem succ_emod_cases (x p : Int) (hp : 1 ≤ p) :
    (x + 1) % p = if x % p + 1 = p then 0 else x % p + 1 := by
  have h0 : 0 ≤ x % p := Int.emod_nonneg x (by omega)
  have h1 : x % p < p := Int.emod_lt_of_pos x (by omega)
  rw [← Int.emod_add_emod]
  split_ifs with h
  · rw [h]
    exact Int.emod_self
  · exact Int.emod_eq_of_lt (by omega) (by omega)

theorem tick_wrap_sampleCnt (cfg : Config) (s : State) (h0 : 0 ≤ s.sampleCnt)
    (h1 : s.sampleCnt < excitationDuration cfg) :
    wrapInt32 (s.sampleCnt + 1) = s.sampleCnt + 1 := by
  have hle : excitationDuration cfg ≤ INT_MAX := wrapInt32_le _
  apply wrapInt32_of_range
  · unfold INT_MIN
    omega
  · omega

theorem ticks_sampleCnt (cfg : Config) (s : State) (hP : 1 ≤ excitationDuration cfg)
    (h0 : 0 ≤ s.sampleCnt) (h1 : s.sampleCnt < excitationDuration cfg) (n : Nat) :
    (ticks cfg n s).sampleCnt = (s.sampleCnt + (n : Int)) % excitationDuration cfg := by
  induction n with
  | zero =>
    show s.sampleCnt = _
    rw [Nat.cast_zero, add_zero]
    exact (Int.emod_eq_of_lt h0 h1).symm
  | succ n ih =>
    have hr0 : 0 ≤ (ticks cfg n s).sampleCnt := by
      rw [ih]
      exact Int.emod_nonneg _ (by omega)
    have hr1 : (ticks cfg n s).sampleCnt < excitationDuration cfg := by
      rw [ih]
      exact Int.emod_lt_of_pos _ (by omega)
    rw [ticks_succ_right, tick_sampleCnt, tick_wrap_sampleCnt cfg _ hr0 hr1, ih]
    have hc : s.sampleCnt + ((n + 1 : Nat) : Int) = (s.sampleCnt + (n : Int)) + 1 := by
      push_cast
      ring
    rw [hc, succ_emod_cases _ _ hP]

theorem ticks_sampleCnt_range (cfg : Config) (s : State) (hP : 1 ≤ excitationDuration cfg)
    (h0 : 0 ≤ s.sampleCnt) (h1 : s.sampleCnt < excitationDuration cfg) (n : Nat) :
    0 ≤ (ticks cfg n s).sampleCnt ∧ (ticks cfg n s).sampleCnt < excitationDuration cfg := by
  rw [ticks_sampleCnt cfg s hP h0 h1]
  exact ⟨Int.emod_nonneg _ (by omega), Int.emod_lt_of_pos _ (by omega)⟩

theorem ticks_maxExcitation_continuous (cfg : Config) (s : State)
    (hmode : cfg.isSingleExcitation = false) (n : Nat) :
    (ticks cfg n s).maxExcitation = s.maxExcitation := by
  induction n with
  | zero => rfl
  | succ n ih =>
    rw [ticks_succ_right, tick_maxExcitation, hmode, ih]
    simp

theorem ticks_excitationMagnitude_continuous (cfg : Config) (s : State)
    (hP : 1 ≤ excitationDuration cfg) (h0 : 0 ≤ s.sampleCnt)
    (h1 : s.sampleCnt < excitationDuration cfg)
    (hmode : cfg.isSingleExcitation = false) (n : Nat) :
    (ticks cfg (n + 1) s).excitationMagnitude =
      if (s.sampleCnt + (n : Int) + 1) % excitationDuration cfg = 0 then s.maxExcitation
      else 0 := by
  obtain ⟨hr0, hr1⟩ := ticks_sampleCnt_range cfg s hP h0 h1 n
  rw [ticks_succ_right, tick_excitationMagnitude, tick_wrap_sampleCnt cfg _ hr0 hr1,
    ticks_maxExcitation_continuous cfg s hmode, succ_emod_cases _ _ hP,
    ← ticks_sampleCnt cfg s hP h0 h1 n]
  by_cases h : (ticks cfg n s).sampleCnt + 1 = excitationDuration cfg
  · simp [h]
  · have h2 : ¬ ((ticks cfg n s).sampleCnt + 1 = 0) := by omega
    simp [h, h2]

theorem ticks_maxExcitation_single (cfg : Config) (s : State)
    (hP : 1 ≤ excitationDuration cfg) (h0 : 0 ≤ s.sampleCnt)
    (h1 : s.sampleCnt < excitationDuration cfg)
    (hmode : cfg.isSingleExcitation = true) (n : Nat) :
    (ticks cfg n s).maxExcitation =
      if s.sampleCnt + (n : Int) < excitationDuration cfg then s.maxExcitation else 0 := by
  induction n with
  | zero =>
    show s.maxExcitation = _
    simp [h1]
  | succ n ih =>
    obtain ⟨hr0, hr1⟩ := ticks_sampleCnt_range cfg s hP h0 h1 n
    rw [ticks_succ_right, tick_maxExcitation, tick_wrap_sampleCnt cfg _ hr0 hr1, hmode, ih]
    have hcnt := ticks_sampleCnt cfg s hP h0 h1 n
    push_cast
    by_cases hlt : s.sampleCnt + (n : Int) < excitationDuration cfg
    · have hmod : (ticks cfg n s).sampleCnt = s.sampleCnt + (n : Int) := by
        rw [hcnt]
        exact Int.emod_eq_of_lt (by omega) hlt
      rw [hmod]
      by_cases hf : s.sampleCnt + (n : Int) + 1 = excitationDuration cfg
      · have h3 : ¬ (s.sampleCnt + ((n : Int) + 1) < excitationDuration cfg) := by omega
        simp [hf, h3]
      · have h3 : s.sampleCnt + ((n : Int) + 1) < excitationDuration cfg := by omega
        simp [hf, h3, hlt]
    · have h3 : ¬ (s.sampleCnt + ((n : Int) + 1) < excitationDuration cfg) := by omega
      simp [hlt, h3]

theorem ticks_excitationMagnitude_single (cfg : Config) (s : State)
    (hP : 1 ≤ excitationDuration cfg) (h0 : 0 ≤ s.sampleCnt)
    (h1 : s.sampleCnt < excitationDuration cfg)
    (hmode : cfg.isSingleExcitation = true) (n : Nat) :
    (ticks cfg (n + 1) s).excitationMagnitude =
      if s.sampleCnt + (n : Int) + 1 = excitationDuration cfg then s.maxExcitation else 0 := by
  obtain ⟨hr0, hr1⟩ := ticks_sampleCnt_range cfg s hP h0 h1 n
  rw [ticks_succ_right, tick_excitationMagnitude, tick_wrap_sampleCnt cfg _ hr0 hr1,
    ticks_maxExcitation_single cfg s hP h0 h1 hmode]
  have hcnt := ticks_sampleCnt cfg s hP h0 h1 n
  by_cases hlt : s.sampleCnt + (n : Int) < excitationDuration cfg
  · have hmod : (ticks cfg n s).sampleCnt = s.sampleCnt + (n : Int) := by
      rw [hcnt]
      exact Int.emod_eq_of_lt (by omega) hlt
    rw [hmod]
    simp [hlt]
  · have h3 : ¬ (s.sampleCnt + (n : Int) + 1 = excitationDuration cfg) := by omega
    simp [hlt, h3]

/-! ## Lemmas: the recorded calls of ticks and batches -/

theorem ticksOps_succ_right (cfg : Config) (n : Nat) (s : State) :
    ticksOps cfg (n + 1) s = ticksOps cfg n s ++ tickOps cfg (ticks cfg n s) := by
  induction n generalizing s with
  | zero => simp [ticksOps, ticks]
  | succ n ih =>
    show tickOps cfg s ++ ticksOps cfg (n + 1) (tick cfg s) = _
    rw [ih (tick cfg s)]
    show _ = (tickOps cfg s ++ ticksOps cfg n (tick cfg s)) ++ tickOps cfg (ticks cfg n (tick cfg s))
    rw [List.append_assoc]

theorem filterMap_ticksOps {α : Type} (f : GLOp → Option α) (cfg : Config) (n : Nat) (s : State) :
    (ticksOps cfg n s).filterMap f =
      (List.range n).flatMap (fun t => (tickOps cfg (ticks cfg t s)).filterMap f) := by
  induction n with
  | zero => rfl
  | succ n ih =>
    rw [ticksOps_succ_right, List.filterMap_append, ih, List.range_succ, List.flatMap_append,
      List.flatMap_singleton]

theorem flatMap_singleton_eq_map {α β : Type} (h : α → β) (l : List α) :
    l.flatMap (fun t => [h t]) = l.map h := by
  induction l with
  | nil => rfl
  | cons a l ih => simp [List.flatMap_cons, ih]

theorem tickEq_appendSamples (sampleBuffer : Nat → ℚ) (n i : Nat) (s : State) :
    TickEq (appendSamples sampleBuffer n i s) s := by
  induction n generalizing i s with
  | zero => exact tickEq_refl s
  | succ n ih =>
    exact tickEq_trans (ih (i + 1) (appendSample sampleBuffer i s)) ⟨rfl, rfl, rfl, rfl⟩

theorem tickEq_realTimeFlush (cfg : Config) (clk : Int) (s : State) :
    TickEq (realTimeFlush cfg clk s) s := by
  unfold realTimeFlush
  split_ifs
  · exact ⟨rfl, rfl, rfl, rfl⟩
  · exact tickEq_refl s
  · exact tickEq_refl s

theorem tickEq_batchFill (cfg : Config) (inp : BatchInput) (s : State) :
    TickEq (batchFill cfg inp s) (ticks cfg (forLoopCount cfg.buffer_size) s) := by
  unfold batchFill
  exact tickEq_trans (tickEq_appendSamples _ _ _ _) ⟨rfl, rfl, rfl, rfl⟩

theorem tickEq_batchIteration (cfg : Config) (inp : BatchInput) (s : State)
    (hev : inp.mouseEvents = []) :
    TickEq (batchIteration cfg inp s) (ticks cfg (forLoopCount cfg.buffer_size) s) := by
  unfold batchIteration
  rw [hev]
  exact tickEq_trans (tickEq_realTimeFlush _ _ _) (tickEq_batchFill cfg inp s)

theorem filterMap_realTimeFlushOps {α : Type} (f : GLOp → Option α)
    (hf : ∀ op, GLOp.isTickOp op = false → f op = none) (cfg : Config) (clk : Int) (s : State) :
    (realTimeFlushOps cfg clk s).filterMap f = [] := by
  unfold realTimeFlushOps
  split_ifs
  · simp [hf _ (rfl : GLOp.isTickOp (GLOp.loadFromSamples _ _ _ _) = false),
      hf _ (rfl : GLOp.isTickOp GLOp.play = false)]
  · rfl
  · rfl

theorem filterMap_batchIterationOps {α : Type} (f : GLOp → Option α)
    (hf : ∀ op, GLOp.isTickOp op = false → f op = none) (cfg : Config) (inp : BatchInput)
    (s : State) :
    (batchIterationOps cfg inp s).filterMap f =
      (ticksOps cfg (forLoopCount cfg.buffer_size) s).filterMap f := by
  unfold batchIterationOps
  rw [List.filterMap_append, List.filterMap_append, filterMap_realTimeFlushOps f hf]
  simp [hf _ (rfl : GLOp.isTickOp (GLOp.readPixels _ _ _ _) = false)]

theorem ticks_rel (cfg : Config) (R : State → State → Prop)
    (hRtick : ∀ s t, R s t → R (tick cfg s) (tick cfg t)) (n : Nat) {s t : State}
    (h : R s t) : R (ticks cfg n s) (ticks cfg n t) := by
  induction n generalizing s t with
  | zero => exact h
  | succ n ih => exact ih (hRtick s t h)

/-- The calls of `k` batches, seen through an observation `f` of the calls of a tick that
depends on the state only up to a relation `R` which ticks preserve and which the end of a
batch does not disturb, are the calls of `k * buffer_size` consecutive ticks. -/
theorem filterMap_batchesOps_rel {α : Type} (f : GLOp → Option α)
    (hf : ∀ op, GLOp.isTickOp op = false → f op = none) (cfg : Config)
    (R : State → State → Prop)
    (hRtick : ∀ s t, R s t → R (tick cfg s) (tick cfg t))
    (hg : ∀ s t, R s t → (tickOps cfg s).filterMap f = (tickOps cfg t).filterMap f)
    (inputs : Nat → BatchInput) (k i : Nat) (s : State)
    (hRbatch : ∀ j, i ≤ j → j < i + k → ∀ u,
      R (batchIteration cfg (inputs j) u) (ticks cfg (forLoopCount cfg.buffer_size) u)) :
    (batchesOps cfg inputs k i s).filterMap f =
      (List.range (k * forLoopCount cfg.buffer_size)).flatMap
        (fun t => (tickOps cfg (ticks cfg t s)).filterMap f) := by
  induction k generalizing i s with
  | zero => simp [batchesOps]
  | succ k ih =>
    have hsplit : (k + 1) * forLoopCount cfg.buffer_size
        = forLoopCount cfg.buffer_size + k * forLoopCount cfg.buffer_size := by ring
    show (batchIterationOps cfg (inputs i) s
      ++ batchesOps cfg inputs k (i + 1) (batchIteration cfg (inputs i) s)).filterMap f = _
    rw [List.filterMap_append, filterMap_batchIterationOps f hf, filterMap_ticksOps,
      ih (i + 1) _ (fun j h1 h2 => hRbatch j (by omega) (by omega)), hsplit, List.range_add,
      List.flatMap_append, List.flatMap_map]
    congr 1
    apply List.flatMap_congr
    intro t _
    rw [ticks_add]
    exact hg _ _ (ticks_rel cfg R hRtick t (hRbatch i (le_refl i) (by omega) s))

theorem filterMap_batchesOps {α : Type} (f : GLOp → Option α)
    (hf : ∀ op, GLOp.isTickOp op = false → f op = none) (cfg : Config)
    (hg : ∀ s t, TickEq s t → (tickOps cfg s).filterMap f = (tickOps cfg t).filterMap f)
    (inputs : Nat → BatchInput) (k i : Nat) (s : State)
    (hev : ∀ j, i ≤ j → j < i + k → (inputs j).mouseEvents = []) :
    (batchesOps cfg inputs k i s).filterMap f =
      (List.range (k * forLoopCount cfg.buffer_size)).flatMap
        (fun t => (tickOps cfg (ticks cfg t s)).filterMap f) :=
  filterMap_batchesOps_rel f hf cfg TickEq (fun _ _ h => tickEq_tick cfg h) hg inputs k i s
    (fun j h1 h2 u => tickEq_batchIteration cfg (inputs j) u (hev j h1 h2))

theorem suppliedMagnitudes_batchesOps (cfg : Config) (inputs : Nat → BatchInput) (k i : Nat)
    (s : State) (hev : ∀ j, i ≤ j → j < i + k → (inputs j).mouseEvents = []) :
    suppliedMagnitudes (batchesOps cfg inputs k i s) =
      (List.range (k * forLoopCount cfg.buffer_size)).map
        (fun t => (ticks cfg t s).excitationMagnitude) := by
  unfold suppliedMagnitudes
  rw [filterMap_batchesOps _ _ cfg _ inputs k i s hev]
  · exact flatMap_singleton_eq_map _ _
  · intro op hop
    cases op <;> first | rfl | cases hop
  · intro s t h
    simp [tickOps, h.2.1]

theorem tickEq_batches (cfg : Config) (inputs : Nat → BatchInput) (k i : Nat) (s : State)
    (hev : ∀ j, i ≤ j → j < i + k → (inputs j).mouseEvents = []) :
    TickEq (batches cfg inputs k i s) (ticks cfg (k * forLoopCount cfg.buffer_size) s) := by
  induction k generalizing i s with
  | zero =>
    rw [Nat.zero_mul]
    exact tickEq_refl s
  | succ k ih =>
    have hsplit : (k + 1) * forLoopCount cfg.buffer_size
        = forLoopCount cfg.buffer_size + k * forLoopCount cfg.buffer_size := by ring
    have hi : (inputs i).mouseEvents = [] := hev i (le_refl i) (by omega)
    rw [hsplit, ticks_add]
    show TickEq (batches cfg inputs k (i + 1) (batchIteration cfg (inputs i) s)) _
    exact tickEq_trans (ih (i + 1) _ (fun j h1 h2 => hev j (by omega) (by omega)))
      (tickEq_ticks cfg _ (tickEq_batchIteration cfg (inputs i) s hi))

theorem filter_ne_zero_indicator (P : Int) (hP : 0 ≤ P) (L : Nat) :
    ((List.range L).map (fun (n : Nat) => if (n : Int) = P then (1 : ℚ) else 0)).filter
        (fun v => v ≠ 0) = if P < (L : Int) then [1] else [] := by
  induction L with
  | zero =>
    have : ¬ (P < 0) := by omega
    simp [this]
  | succ L ih =>
    rw [List.range_succ, List.map_append, List.filter_append, ih]
    push_cast
    by_cases h : (L : Int) = P
    · have h1 : ¬ (P < (L : Int)) := by omega
      have h2 : P < (L : Int) + 1 := by omega
      simp [h, h1, h2]
    · by_cases h3 : P < (L : Int)
      · have h2 : P < (L : Int) + 1 := by omega
        simp [h, h3, h2]
      · have h2 : ¬ (P < (L : Int) + 1) := by omega
        simp [h, h3, h2]

theorem suppliedMagnitudes_single (cfg : Config) (inputs : Nat → BatchInput) (k i : Nat)
    (s : State) (hmode : cfg.isSingleExcitation = true) (hP : 1 ≤ excitationDuration cfg)
    (h0 : 0 ≤ s.sampleCnt) (h1 : s.sampleCnt < excitationDuration cfg)
    (hev : ∀ j, i ≤ j → j < i + k → (inputs j).mouseEvents = []) :
    suppliedMagnitudes (batchesOps cfg inputs k i s) =
      (List.range (k * forLoopCount cfg.buffer_size)).map
        (fun (t : Nat) =>
          if t = 0 then s.excitationMagnitude
          else if s.sampleCnt + (t : Int) = excitationDuration cfg then s.maxExcitation
          else 0) := by
  rw [suppliedMagnitudes_batchesOps cfg inputs k i s hev]
  apply List.map_congr_left
  intro n _
  cases n with
  | zero => rfl
  | succ m =>
    rw [ticks_excitationMagnitude_single cfg s hP h0 h1 hmode m, if_neg (Nat.succ_ne_zero m)]
    push_cast
    rw [add_assoc]

theorem mouseButtonCallback_press (cfg : Config) (e : MouseEvent) (s : State)
    (h : e.button = GLFW_MOUSE_BUTTON_LEFT ∧ e.action = GLFW_PRESS) :
    mouseButtonCallback cfg e s =
      { s with
        excitationPosition :=
          (((e.xPos / ((wrapInt32 (cfg.domainSize.1 * MAGNIFIER) : Int) : ℚ) - 0) * (1 - 1 / 2))
              / (1 - 0) + 1 / 2,
           1 - e.yPos / ((wrapInt32 (cfg.domainSize.2 * MAGNIFIER) : Int) : ℚ))
        maxExcitation := 1 } := by
  unfold mouseButtonCallback
  rw [if_pos h]

theorem mouseButtonCallback_other (cfg : Config) (e : MouseEvent) (s : State)
    (h : ¬ (e.button = GLFW_MOUSE_BUTTON_LEFT ∧ e.action = GLFW_PRESS)) :
    mouseButtonCallback cfg e s = s := by
  unfold mouseButtonCallback
  rw [if_neg h]

/-! ## Lemmas: the playback buffer and the outer loop -/

theorem appendSamples_playbackAudioBuffer (sampleBuffer : Nat → ℚ) (n i : Nat) (s : State) :
    (appendSamples sampleBuffer n i s).playbackAudioBuffer =
      s.playbackAudioBuffer
        ++ (List.range n).map (fun t => sampleOf (sampleBuffer (i + t))) := by
  induction n generalizing i s with
  | zero => simp [appendSamples]
  | succ n ih =>
    show (appendSamples sampleBuffer n (i + 1) (appendSample sampleBuffer i s)).playbackAudioBuffer
      = _
    rw [ih (i + 1) (appendSample sampleBuffer i s), List.range_succ_eq_map]
    simp only [appendSample, List.map_cons, List.map_map, List.append_assoc,
      List.singleton_append, Nat.add_zero]
    congr 2
    apply List.map_congr_left
    intro t _
    simp only [Function.comp, Nat.succ_eq_add_one]
    rw [Nat.add_assoc, Nat.add_comm 1 t]

theorem realTimeFlush_playbackAudioBuffer (cfg : Config) (clk : Int) (s : State) :
    (realTimeFlush cfg clk s).playbackAudioBuffer = s.playbackAudioBuffer := by
  unfold realTimeFlush
  split_ifs <;> rfl

theorem mouseButtonCallback_playbackAudioBuffer (cfg : Config) (e : MouseEvent) (s : State) :
    (mouseButtonCallback cfg e s).playbackAudioBuffer = s.playbackAudioBuffer := by
  unfold mouseButtonCallback
  split_ifs <;> rfl

theorem mouseButtonCallback_sampleCounter (cfg : Config) (e : MouseEvent) (s : State) :
    (mouseButtonCallback cfg e s).sampleCounter = s.sampleCounter := by
  unfold mouseButtonCallback
  split_ifs <;> rfl

theorem pollEvents_playbackAudioBuffer (cfg : Config) (events : List MouseEvent) (s : State) :
    (pollEvents cfg events s).playbackAudioBuffer = s.playbackAudioBuffer := by
  induction events generalizing s with
  | nil => rfl
  | cons e es ih =>
    show (pollEvents cfg es (mouseButtonCallback cfg e s)).playbackAudioBuffer = _
    rw [ih, mouseButtonCallback_playbackAudioBuffer]

theorem pollEvents_sampleCounter (cfg : Config) (events : List MouseEvent) (s : State) :
    (pollEvents cfg events s).sampleCounter = s.sampleCounter := by
  induction events generalizing s with
  | nil => rfl
  | cons e es ih =>
    show (pollEvents cfg es (mouseButtonCallback cfg e s)).sampleCounter = _
    rw [ih, mouseButtonCallback_sampleCounter]

theorem batchFill_playbackAudioBuffer (cfg : Config) (inp : BatchInput) (s : State) :
    (batchFill cfg inp s).playbackAudioBuffer = s.playbackAudioBuffer ++ batchSamples cfg inp := by
  unfold batchFill batchSamples
  rw [appendSamples_playbackAudioBuffer]
  show (ticks cfg _ s).playbackAudioBuffer ++ _ = _
  rw [ticks_playbackAudioBuffer]
  simp

theorem batchIteration_playbackAudioBuffer (cfg : Config) (inp : BatchInput) (s : State) :
    (batchIteration cfg inp s).playbackAudioBuffer =
      s.playbackAudioBuffer ++ batchSamples cfg inp := by
  unfold batchIteration
  rw [pollEvents_playbackAudioBuffer, realTimeFlush_playbackAudioBuffer,
    batchFill_playbackAudioBuffer]

theorem batchSamples_length (cfg : Config) (inp : BatchInput) :
    (batchSamples cfg inp).length = forLoopCount cfg.buffer_size := by
  simp [batchSamples]

theorem batches_playbackAudioBuffer_length (cfg : Config) (inputs : Nat → BatchInput)
    (k i : Nat) (s : State) :
    (batches cfg inputs k i s).playbackAudioBuffer.length =
      s.playbackAudioBuffer.length + k * forLoopCount cfg.buffer_size := by
  induction k generalizing i s with
  | zero => simp [batches]
  | succ k ih =>
    show (batches cfg inputs k (i + 1) (batchIteration cfg (inputs i) s)).playbackAudioBuffer.length
      = _
    rw [ih, batchIteration_playbackAudioBuffer, List.length_append, batchSamples_length]
    ring

theorem mainLoop_eq_batches (cfg : Config) (inputs : Nat → BatchInput) (r i : Nat) (s : State) :
    mainLoop cfg inputs r i s = batches cfg inputs (executedBatches inputs r i) i s := by
  induction r generalizing i s with
  | zero => rfl
  | succ r ih =>
    unfold mainLoop executedBatches
    by_cases h : (inputs i).escapePressed = true
    · rw [if_pos h, if_pos h]
      rfl
    · rw [if_neg h, if_neg h, ih]
      rfl

theorem mainLoopOps_eq_batchesOps (cfg : Config) (inputs : Nat → BatchInput) (r i : Nat)
    (s : State) :
    mainLoopOps cfg inputs r i s = batchesOps cfg inputs (executedBatches inputs r i) i s := by
  induction r generalizing i s with
  | zero => rfl
  | succ r ih =>
    unfold mainLoopOps executedBatches
    by_cases h : (inputs i).escapePressed = true
    · rw [if_pos h, if_pos h]
      simp [batchesOps]
    · rw [if_neg h, if_neg h, ih]
      rfl

theorem executedBatches_no_escape (inputs : Nat → BatchInput) (r i : Nat)
    (h : ∀ j, (inputs j).escapePressed = false) : executedBatches inputs r i = r := by
  induction r generalizing i with
  | zero => rfl
  | succ r ih =>
    unfold executedBatches
    rw [h i, ih]
    simp

theorem appendSamples_sampleCounter (sampleBuffer : Nat → ℚ) (n i : Nat) (s : State)
    (h0 : INT_MIN ≤ s.sampleCounter) (h1 : s.sampleCounter + (n : Int) ≤ INT_MAX) :
    (appendSamples sampleBuffer n i s).sampleCounter = s.sampleCounter + (n : Int) := by
  induction n generalizing i s with
  | zero => simp [appendSamples]
  | succ n ih =>
    have hstep : (appendSample sampleBuffer i s).sampleCounter = s.sampleCounter + 1 := by
      show wrapInt32 (s.sampleCounter + 1) = _
      apply wrapInt32_of_range
      · unfold INT_MIN at *
        omega
      · push_cast at h1
        omega
    show (appendSamples sampleBuffer n (i + 1) (appendSample sampleBuffer i s)).sampleCounter = _
    rw [ih (i + 1) (appendSample sampleBuffer i s) (by rw [hstep]; omega)
      (by rw [hstep]; push_cast at h1; omega), hstep]
    push_cast
    ring

theorem batchFill_sampleCounter (cfg : Config) (inp : BatchInput) (s : State)
    (h0 : INT_MIN ≤ s.sampleCounter)
    (h1 : s.sampleCounter + (forLoopCount cfg.buffer_size : Int) ≤ INT_MAX) :
    (batchFill cfg inp s).sampleCounter
      = s.sampleCounter + (forLoopCount cfg.buffer_size : Int) := by
  unfold batchFill
  have hsc : ({ ticks cfg (forLoopCount cfg.buffer_size) s with wrCoord := (0, 0) } : State).sampleCounter
      = s.sampleCounter := ticks_sampleCounter cfg _ s
  rw [appendSamples_sampleCounter _ _ _ _ (by rw [hsc]; exact h0) (by rw [hsc]; exact h1), hsc]

theorem batchIteration_sampleCounter (cfg : Config) (inp : BatchInput) (s : State) :
    (batchIteration cfg inp s).sampleCounter =
      if inp.differenceRealTimeClock < MICROSECS_IN_SEC ∧
          (batchFill cfg inp s).sampleCounter > cfg.sampleRate then 0
      else (batchFill cfg inp s).sampleCounter := by
  unfold batchIteration
  rw [pollEvents_sampleCounter]
  unfold realTimeFlush
  by_cases h1 : inp.differenceRealTimeClock < MICROSECS_IN_SEC
  · by_cases h2 : (batchFill cfg inp s).sampleCounter > cfg.sampleRate
    · rw [if_pos h1, if_pos h2, if_pos ⟨h1, h2⟩]
    · rw [if_pos h1, if_neg h2, if_neg (fun h => h2 h.2)]
  · rw [if_neg h1, if_neg (fun h => h1 h.1)]

theorem filterMap_tickOps_nil {α : Type} (f : GLOp → Option α)
    (hf : ∀ op, GLOp.isTickOp op = true → f op = none) (cfg : Config) (s : State) :
    (tickOps cfg s).filterMap f = [] := by
  unfold tickOps
  simp [hf _ (rfl : GLOp.isTickOp (GLOp.uniformExcitationMagnitude _) = true),
    hf _ (rfl : GLOp.isTickOp (GLOp.uniformExcitationPosition _ _) = true),
    hf _ (rfl : GLOp.isTickOp (GLOp.uniformState _) = true),
    hf _ (rfl : GLOp.isTickOp (GLOp.drawArrays _ _) = true),
    hf _ (rfl : GLOp.isTickOp (GLOp.uniformWrCoord _ _) = true),
    hf _ (rfl : GLOp.isTickOp GLOp.memoryBarrier = true)]

theorem filterMap_ticksOps_nil {α : Type} (f : GLOp → Option α)
    (hf : ∀ op, GLOp.isTickOp op = true → f op = none) (cfg : Config) (n : Nat) (s : State) :
    (ticksOps cfg n s).filterMap f = [] := by
  induction n generalizing s with
  | zero => rfl
  | succ n ih =>
    show (tickOps cfg s ++ ticksOps cfg n (tick cfg s)).filterMap f = []
    rw [List.filterMap_append, filterMap_tickOps_nil f hf, ih]
    rfl

theorem flushCounts_batchIterationOps (cfg : Config) (inp : BatchInput) (s : State) :
    flushCounts (batchIterationOps cfg inp s) =
      if inp.differenceRealTimeClock < MICROSECS_IN_SEC ∧
          (batchFill cfg inp s).sampleCounter > cfg.sampleRate
      then [(batchFill cfg inp s).sampleCounter] else [] := by
  unfold flushCounts batchIterationOps
  rw [List.filterMap_append, List.filterMap_append, filterMap_ticksOps_nil]
  · unfold realTimeFlushOps
    by_cases h1 : inp.differenceRealTimeClock < MICROSECS_IN_SEC
    · by_cases h2 : (batchFill cfg inp s).sampleCounter > cfg.sampleRate
      · rw [if_pos h1, if_pos h2, if_pos ⟨h1, h2⟩]
        rfl
      · rw [if_pos h1, if_neg h2, if_neg (fun h => h2 h.2)]
        rfl
    · rw [if_neg h1, if_neg (fun h => h1 h.1)]
      rfl
  · intro op hop
    cases op <;> first | rfl | cases hop

theorem playbackLoadCounts_batchIterationOps (cfg : Config) (inp : BatchInput) (s : State) :
    playbackLoadCounts (batchIterationOps cfg inp s) = [] := by
  unfold playbackLoadCounts batchIterationOps
  rw [List.filterMap_append, List.filterMap_append, filterMap_ticksOps_nil]
  · unfold realTimeFlushOps
    split_ifs <;> rfl
  · intro op hop
    cases op <;> first | rfl | cases hop

theorem playbackLoadCounts_batchesOps (cfg : Config) (inputs : Nat → BatchInput) (k i : Nat)
    (s : State) : playbackLoadCounts (batchesOps cfg inputs k i s) = [] := by
  induction k generalizing i s with
  | zero => rfl
  | succ k ih =>
    show playbackLoadCounts (batchIterationOps cfg (inputs i) s
      ++ batchesOps cfg inputs k (i + 1) (batchIteration cfg (inputs i) s)) = []
    unfold playbackLoadCounts
    rw [List.filterMap_append]
    have h1 := playbackLoadCounts_batchIterationOps cfg (inputs i) s
    have h2 := ih (i + 1) (batchIteration cfg (inputs i) s)
    unfold playbackLoadCounts at h1 h2
    rw [h1, h2]
    rfl

theorem batchesOps_one (cfg : Config) (inputs : Nat → BatchInput) (i : Nat) (s : State) :
    batchesOps cfg inputs 1 i s = batchIterationOps cfg (inputs i) s := by
  show batchIterationOps cfg (inputs i) s ++ [] = _
  exact List.append_nil _

theorem batches_add (cfg : Config) (inputs : Nat → BatchInput) (a b i : Nat) (s : State) :
    batches cfg inputs (a + b) i s = batches cfg inputs b (i + a) (batches cfg inputs a i s) := by
  induction a generalizing i s with
  | zero => simp [batches]
  | succ a ih =>
    have h : a + 1 + b = (a + b) + 1 := by omega
    rw [h]
    show batches cfg inputs (a + b) (i + 1) (batchIteration cfg (inputs i) s) = _
    rw [ih (i + 1) (batchIteration cfg (inputs i) s)]
    have h2 : i + 1 + a = i + (a + 1) := by omega
    rw [h2]
    rfl

theorem batchesOps_add (cfg : Config) (inputs : Nat → BatchInput) (a b i : Nat) (s : State) :
    batchesOps cfg inputs (a + b) i s =
      batchesOps cfg inputs a i s
        ++ batchesOps cfg inputs b (i + a) (batches cfg inputs a i s) := by
  induction a generalizing i s with
  | zero => simp [batches, batchesOps]
  | succ a ih =>
    have h : a + 1 + b = (a + b) + 1 := by omega
    rw [h]
    show batchIterationOps cfg (inputs i) s
      ++ batchesOps cfg inputs (a + b) (i + 1) (batchIteration cfg (inputs i) s) = _
    rw [ih (i + 1) (batchIteration cfg (inputs i) s)]
    have h2 : i + 1 + a = i + (a + 1) := by omega
    rw [h2, ← List.append_assoc]
    rfl

/-- While the counter stays at or below `sampleRate`, no batch flushes and every batch adds
`buffer_size` to `sampleCounter`. -/
theorem batches_below_sampleRate (cfg : Config) (inputs : Nat → BatchInput) (k i : Nat)
    (s : State) (h0 : 0 ≤ s.sampleCounter) (hR : cfg.sampleRate ≤ INT_MAX)
    (hk : s.sampleCounter + (k : Int) * (forLoopCount cfg.buffer_size : Int) ≤ cfg.sampleRate) :
    (batches cfg inputs k i s).sampleCounter
        = s.sampleCounter + (k : Int) * (forLoopCount cfg.buffer_size : Int)
      ∧ flushCounts (batchesOps cfg inputs k i s) = [] := by
  induction k generalizing i s with
  | zero => simp [batches, batchesOps, flushCounts]
  | succ k ih =>
    have hB0 : (0 : Int) ≤ (forLoopCount cfg.buffer_size : Int) := Int.natCast_nonneg _
    have hkB : (0 : Int) ≤ (k : Int) * (forLoopCount cfg.buffer_size : Int) :=
      Int.mul_nonneg (Int.natCast_nonneg _) hB0
    have hk2 : s.sampleCounter + (forLoopCount cfg.buffer_size : Int)
        + (k : Int) * (forLoopCount cfg.buffer_size : Int) ≤ cfg.sampleRate := by
      push_cast at hk
      linarith
    have hfill := batchFill_sampleCounter cfg (inputs i) s (by unfold INT_MIN; omega)
      (by omega)
    have hno : ¬ ((inputs i).differenceRealTimeClock < MICROSECS_IN_SEC ∧
        (batchFill cfg (inputs i) s).sampleCounter > cfg.sampleRate) := by
      rw [hfill]
      intro h
      omega
    have hsc : (batchIteration cfg (inputs i) s).sampleCounter
        = s.sampleCounter + (forLoopCount cfg.buffer_size : Int) := by
      rw [batchIteration_sampleCounter, if_neg hno, hfill]
    have hih := ih (i + 1) (batchIteration cfg (inputs i) s) (by rw [hsc]; omega)
      (by rw [hsc]; exact hk2)
    constructor
    · show (batches cfg inputs k (i + 1) (batchIteration cfg (inputs i) s)).sampleCounter = _
      rw [hih.1, hsc]
      push_cast
      ring
    · show flushCounts (batchIterationOps cfg (inputs i) s
        ++ batchesOps cfg inputs k (i + 1) (batchIteration cfg (inputs i) s)) = []
      have h1 := flushCounts_batchIterationOps cfg (inputs i) s
      have h2 := hih.2
      unfold flushCounts at h1 h2 ⊢
      rw [List.filterMap_append, h1, h2, if_neg hno]
      rfl

theorem flushCounts_append (a b : List GLOp) :
    flushCounts (a ++ b) = flushCounts a ++ flushCounts b := by
  unfold flushCounts
  exact List.filterMap_append a b _

theorem playbackLoadCounts_append (a b : List GLOp) :
    playbackLoadCounts (a ++ b) = playbackLoadCounts a ++ playbackLoadCounts b := by
  unfold playbackLoadCounts
  exact List.filterMap_append a b _

/-- The final playback is the only `loadFromSamples` call on the playback buffer, and
its sample count is `bufferNum * buffer_size` whatever the outer loop did. -/
theorem playbackLoadCounts_mainOps (cfg : Config) (inputs : Nat → BatchInput) :
    playbackLoadCounts (mainOps cfg inputs) = [wrapInt32 (bufferNum cfg * cfg.buffer_size)] := by
  unfold mainOps
  rw [playbackLoadCounts_append, mainLoopOps_eq_batchesOps, playbackLoadCounts_batchesOps]
  rfl

/-- When no batch finishes in less than `MICROSECS_IN_SEC` clock ticks, no batch flushes
and every batch adds `buffer_size` to `sampleCounter`. -/
theorem batches_slow (cfg : Config) (inputs : Nat → BatchInput) (k i : Nat) (s : State)
    (h0 : 0 ≤ s.sampleCounter)
    (hk : s.sampleCounter + (k : Int) * (forLoopCount cfg.buffer_size : Int) ≤ INT_MAX)
    (hslow : ∀ j, ¬ ((inputs j).differenceRealTimeClock < MICROSECS_IN_SEC)) :
    (batches cfg inputs k i s).sampleCounter
        = s.sampleCounter + (k : Int) * (forLoopCount cfg.buffer_size : Int)
      ∧ flushCounts (batchesOps cfg inputs k i s) = [] := by
  induction k generalizing i s with
  | zero => simp [batches, batchesOps, flushCounts]
  | succ k ih =>
    have hB0 : (0 : Int) ≤ (forLoopCount cfg.buffer_size : Int) := Int.natCast_nonneg _
    have hkB : (0 : Int) ≤ (k : Int) * (forLoopCount cfg.buffer_size : Int) :=
      Int.mul_nonneg (Int.natCast_nonneg _) hB0
    have hk2 : s.sampleCounter + (forLoopCount cfg.buffer_size : Int)
        + (k : Int) * (forLoopCount cfg.buffer_size : Int) ≤ INT_MAX := by
      push_cast at hk
      linarith
    have hfill := batchFill_sampleCounter cfg (inputs i) s (by unfold INT_MIN; omega)
      (by omega)
    have hno : ¬ ((inputs i).differenceRealTimeClock < MICROSECS_IN_SEC ∧
        (batchFill cfg (inputs i) s).sampleCounter > cfg.sampleRate) :=
      fun h => hslow i h.1
    have hsc : (batchIteration cfg (inputs i) s).sampleCounter
        = s.sampleCounter + (forLoopCount cfg.buffer_size : Int) := by
      rw [batchIteration_sampleCounter, if_neg hno, hfill]
    have hih := ih (i + 1) (batchIteration cfg (inputs i) s) (by rw [hsc]; omega)
      (by rw [hsc]; exact hk2)
    constructor
    · show (batches cfg inputs k (i + 1) (batchIteration cfg (inputs i) s)).sampleCounter = _
      rw [hih.1, hsc]
      push_cast
      ring
    · show flushCounts (batchIterationOps cfg (inputs i) s
        ++ batchesOps cfg inputs k (i + 1) (batchIteration cfg (inputs i) s)) = []
      rw [flushCounts_append, flushCounts_batchIterationOps, hih.2, if_neg hno]
      rfl

/-- Every flush hands more than `sampleRate` samples. -/
theorem flushCounts_gt_sampleRate (cfg : Config) (inputs : Nat → BatchInput) (k i : Nat)
    (s : State) : ∀ c ∈ flushCounts (batchesOps cfg inputs k i s), cfg.sampleRate < c := by
  induction k generalizing i s with
  | zero =>
    intro c hc
    cases hc
  | succ k ih =>
    intro c hc
    have hc2 : c ∈ flushCounts (batchIterationOps cfg (inputs i) s
        ++ batchesOps cfg inputs k (i + 1) (batchIteration cfg (inputs i) s)) := hc
    rw [flushCounts_append, List.mem_append, flushCounts_batchIterationOps] at hc2
    rcases hc2 with h | h
    · by_cases hcond : (inputs i).differenceRealTimeClock < MICROSECS_IN_SEC ∧
          (batchFill cfg (inputs i) s).sampleCounter > cfg.sampleRate
      · rw [if_pos hcond, List.mem_singleton] at h
        rw [h]
        exact hcond.2
      · rw [if_neg hcond] at h
        cases h
    · exact ih (i + 1) _ c h

/-- When every batch finishes in less than `MICROSECS_IN_SEC` clock ticks, the counter is
at most `sampleRate` after every batch and a flush hands at most `sampleRate + buffer_size`
samples. -/
theorem batches_fast (cfg : Config) (inputs : Nat → BatchInput) (k i : Nat) (s : State)
    (h0 : 0 ≤ s.sampleCounter) (h1 : s.sampleCounter ≤ cfg.sampleRate)
    (hfit : cfg.sampleRate + (forLoopCount cfg.buffer_size : Int) ≤ INT_MAX)
    (hfast : ∀ j, (inputs j).differenceRealTimeClock < MICROSECS_IN_SEC) :
    (0 ≤ (batches cfg inputs k i s).sampleCounter ∧
      (batches cfg inputs k i s).sampleCounter ≤ cfg.sampleRate)
      ∧ ∀ c ∈ flushCounts (batchesOps cfg inputs k i s),
          c ≤ cfg.sampleRate + (forLoopCount cfg.buffer_size : Int) := by
  induction k generalizing i s with
  | zero =>
    refine ⟨⟨h0, h1⟩, ?_⟩
    intro c hc
    cases hc
  | succ k ih =>
    have hB0 : (0 : Int) ≤ (forLoopCount cfg.buffer_size : Int) := Int.natCast_nonneg _
    have hfill := batchFill_sampleCounter cfg (inputs i) s (by unfold INT_MIN; omega)
      (by omega)
    have hsc := batchIteration_sampleCounter cfg (inputs i) s
    have hs0 : 0 ≤ (batchIteration cfg (inputs i) s).sampleCounter := by
      rw [hsc]
      split_ifs
      · exact le_refl 0
      · rw [hfill]
        omega
    have hs1 : (batchIteration cfg (inputs i) s).sampleCounter ≤ cfg.sampleRate := by
      rw [hsc]
      split_ifs with hc
      · omega
      · have hle : ¬ ((batchFill cfg (inputs i) s).sampleCounter > cfg.sampleRate) :=
          fun h => hc ⟨hfast i, h⟩
        omega
    have hih := ih (i + 1) (batchIteration cfg (inputs i) s) hs0 hs1
    refine ⟨hih.1, ?_⟩
    intro c hc
    have hc2 : c ∈ flushCounts (batchIterationOps cfg (inputs i) s
        ++ batchesOps cfg inputs k (i + 1) (batchIteration cfg (inputs i) s)) := hc
    rw [flushCounts_append, List.mem_append, flushCounts_batchIterationOps] at hc2
    rcases hc2 with h | h
    · split_ifs at h with hcond
      · rw [List.mem_singleton] at h
        rw [h, hfill]
        omega
      · cases h
    · exact hih.2 c h

/-- With the settings of the source and quiet batches the first flush comes with the
345th batch and hands 44160 samples. -/
theorem flushCounts_defaults_first_flush :
    flushCounts (batchesOps defaultConfig quietInputs 345 0 initialState) = [44160] := by
  have hB : forLoopCount defaultConfig.buffer_size = 128 := by decide
  have h344 := batches_below_sampleRate defaultConfig quietInputs 344 0 initialState
    (by decide) (by decide) (by decide)
  have hsc : (batches defaultConfig quietInputs 344 0 initialState).sampleCounter = 44032 := by
    rw [h344.1]
    decide
  have hfill := batchFill_sampleCounter defaultConfig (quietInputs (0 + 344))
    (batches defaultConfig quietInputs 344 0 initialState)
    (by rw [hsc]; decide) (by rw [hsc]; decide)
  rw [hsc, hB] at hfill
  have h345 : (345 : Nat) = 344 + 1 := rfl
  rw [h345, batchesOps_add, flushCounts_append, h344.2, batchesOps_one, List.nil_append,
    flushCounts_batchIterationOps, hfill]
  exact if_pos ⟨(by decide : (0 : Int) < MICROSECS_IN_SEC), by decide⟩

theorem truncQ_bounds (q : ℚ) (h1 : -32767 ≤ q) (h2 : q ≤ 32767) :
    -32767 ≤ truncQ q ∧ truncQ q ≤ 32767 := by
  unfold truncQ
  split_ifs with h
  · constructor
    · have : (0 : Int) ≤ ⌊q⌋ := Int.floor_nonneg.mpr h
      omega
    · have h3 : ((⌊q⌋ : Int) : ℚ) ≤ 32767 := le_trans (Int.floor_le q) h2
      exact_mod_cast h3
  · constructor
    · have h3 : (-32767 : ℚ) ≤ ((⌈q⌉ : Int) : ℚ) := le_trans h1 (Int.le_ceil q)
      exact_mod_cast h3
    · have : ⌈q⌉ ≤ (0 : Int) := Int.ceil_le.mpr (by push_cast; linarith)
      omega

theorem truncQ_toward_zero (q : ℚ) :
    (0 ≤ q → ((truncQ q : Int) : ℚ) ≤ q ∧ q < ((truncQ q : Int) : ℚ) + 1 ∧ 0 ≤ truncQ q)
    ∧ (q ≤ 0 → q ≤ ((truncQ q : Int) : ℚ) ∧ ((truncQ q : Int) : ℚ) - 1 < q ∧ truncQ q ≤ 0) := by
  constructor
  · intro h
    unfold truncQ
    rw [if_pos h]
    exact ⟨Int.floor_le q, Int.lt_floor_add_one q, Int.floor_nonneg.mpr h⟩
  · intro h
    unfold truncQ
    by_cases h0 : 0 ≤ q
    · have hq : q = 0 := le_antisymm h h0
      rw [if_pos h0, hq]
      norm_num
    · rw [if_neg h0]
      refine ⟨Int.le_ceil q, ?_, Int.ceil_le.mpr (by push_cast; exact h)⟩
      have := Int.ceil_lt_add_one q
      linarith

theorem wrapInt16_of_range {x : Int} (h1 : -32768 ≤ x) (h2 : x ≤ 32767) : wrapInt16 x = x := by
  unfold wrapInt16
  omega

/-! ## Lemmas: the rounded sample -/

theorem roundFloat32_sample_bounds (p : ℚ) (h1 : -1 ≤ p) (h2 : p ≤ 1) :
    |p * 32767| < 16777216 ∧ (-32767 : ℚ) ≤ roundFloat32 (p * 32767)
      ∧ roundFloat32 (p * 32767) ≤ 32767 := by
  have habs : |p * 32767| < 16777216 := by
    rw [abs_lt]
    constructor <;> linarith
  refine ⟨habs, ?_, ?_⟩
  · have h := intCast_le_roundFloat32 (p * 32767) (-32767) habs (by push_cast; linarith)
    push_cast at h
    exact h
  · have h := roundFloat32_le_intCast (p * 32767) 32767 habs (by push_cast; linarith)
    push_cast at h
    exact h

theorem sampleOf_eq_truncQ (p : ℚ) (h1 : -1 ≤ p) (h2 : p ≤ 1) :
    sampleOf p = truncQ (roundFloat32 (p * 32767))
      ∧ -32767 ≤ sampleOf p ∧ sampleOf p ≤ 32767 := by
  obtain ⟨_, hlo, hhi⟩ := roundFloat32_sample_bounds p h1 h2
  have hb := truncQ_bounds (roundFloat32 (p * 32767)) hlo hhi
  have hconv : sampleOf p = truncQ (roundFloat32 (p * 32767)) := by
    unfold sampleOf toInt16
    exact wrapInt16_of_range (by omega) (by omega)
  rw [hconv]
  exact ⟨rfl, hb⟩

theorem roundFloat32_roundingPressure :
    roundFloat32 roundingPressure = roundingPressure
      ∧ roundFloat32 (roundingPressure * 32767) = 1 := by
  unfold roundingPressure
  constructor
  · rw [roundFloat32_eq _ 38 8388864 (by norm_num) (by norm_num [abs_of_pos])
      (by norm_num [abs_of_pos]) (by norm_num) (by norm_num)]
    norm_num
  · rw [roundFloat32_eq _ 24 16777216 (by norm_num) (by norm_num [abs_of_pos])
      (by norm_num [abs_of_pos]) (by norm_num) (by norm_num)]
    norm_num

theorem truncQ_one : truncQ 1 = 1 := by
  unfold truncQ
  rw [if_pos (by norm_num)]
  exact Int.floor_one

/-! ## Lemmas: the samples in tick order -/

theorem appendSamples_currentQuad (sampleBuffer : Nat → ℚ) (n i : Nat) (s : State) :
    (appendSamples sampleBuffer n i s).currentQuad = s.currentQuad :=
  (tickEq_appendSamples sampleBuffer n i s).2.2.2

theorem mouseButtonCallback_currentQuad (cfg : Config) (e : MouseEvent) (s : State) :
    (mouseButtonCallback cfg e s).currentQuad = s.currentQuad := by
  unfold mouseButtonCallback
  split_ifs <;> rfl

theorem pollEvents_currentQuad (cfg : Config) (events : List MouseEvent) (s : State) :
    (pollEvents cfg events s).currentQuad = s.currentQuad := by
  induction events generalizing s with
  | nil => rfl
  | cons e es ih =>
    show (pollEvents cfg es (mouseButtonCallback cfg e s)).currentQuad = _
    rw [ih, mouseButtonCallback_currentQuad]

theorem quadEq_batchIteration (cfg : Config) (inp : BatchInput) (s : State) :
    QuadEq (batchIteration cfg inp s) (ticks cfg (forLoopCount cfg.buffer_size) s) := by
  unfold QuadEq batchIteration
  rw [pollEvents_currentQuad, (tickEq_realTimeFlush cfg _ _).2.2.2,
    (tickEq_batchFill cfg inp s).2.2.2]

theorem quadEq_tick (cfg : Config) (s t : State) (h : QuadEq s t) :
    QuadEq (tick cfg s) (tick cfg t) := by
  unfold QuadEq at *
  rw [tick_currentQuad, tick_currentQuad, h]

theorem ticks_currentQuad (cfg : Config) (s : State) (h : s.currentQuad = 0) (n : Nat) :
    (ticks cfg n s).currentQuad = ((n % 2 : Nat) : Int) := by
  induction n with
  | zero => exact h
  | succ n ih =>
    rw [ticks_succ_right, tick_currentQuad, ih]
    unfold wrapInt32
    omega

theorem flatMap_const_eq_flatten_replicate {α : Type} (c : List α) (n : Nat) :
    (List.range n).flatMap (fun _ => c) = (List.replicate n c).flatten := by
  induction n with
  | zero => rfl
  | succ n ih =>
    rw [List.range_succ, List.flatMap_append, ih, List.replicate_succ', List.flatten_append]
    simp

theorem stateAndDrawOps_tickOps (cfg : Config) (s : State) :
    stateAndDrawOps (tickOps cfg s) =
      [GLOp.uniformState (wrapInt32 (s.currentQuad * 2)),
       GLOp.drawArrays (verticesFirst s.currentQuad) (verticesCount s.currentQuad),
       GLOp.uniformState (wrapInt32 (wrapInt32 (s.currentQuad * 2) + 1)),
       GLOp.drawArrays (verticesFirst QUAD2) (verticesCount QUAD2)] := rfl

theorem stateAndDrawOps_batchesOps (cfg : Config) (inputs : Nat → BatchInput) (k i : Nat)
    (s : State) (h : s.currentQuad = 0) :
    stateAndDrawOps (batchesOps cfg inputs k i s) =
      (List.range (k * forLoopCount cfg.buffer_size)).flatMap (fun (n : Nat) =>
        [GLOp.uniformState (2 * ((n % 2 : Nat) : Int)),
         GLOp.drawArrays (verticesFirst ((n % 2 : Nat) : Int)) 4,
         GLOp.uniformState (2 * ((n % 2 : Nat) : Int) + 1),
         GLOp.drawArrays 8 4]) := by
  unfold stateAndDrawOps
  rw [filterMap_batchesOps_rel _ _ cfg QuadEq (quadEq_tick cfg) _ inputs k i s
    (fun j _ _ u => quadEq_batchIteration cfg (inputs j) u)]
  · apply List.flatMap_congr
    intro n _
    have hq := ticks_currentQuad cfg s h n
    have hst := stateAndDrawOps_tickOps cfg (ticks cfg n s)
    unfold stateAndDrawOps at hst
    rw [hst, hq]
    have hw1 : wrapInt32 (((n % 2 : Nat) : Int) * 2) = 2 * ((n % 2 : Nat) : Int) := by
      unfold wrapInt32
      omega
    have hw2 : wrapInt32 (2 * ((n % 2 : Nat) : Int) + 1) = 2 * ((n % 2 : Nat) : Int) + 1 := by
      unfold wrapInt32
      omega
    rw [hw1, hw2]
    rfl
  · intro op hop
    cases op <;> first | rfl | cases hop
  · intro s t hst
    have h1 := stateAndDrawOps_tickOps cfg s
    have h2 := stateAndDrawOps_tickOps cfg t
    unfold stateAndDrawOps at h1 h2
    unfold QuadEq at hst
    rw [h1, h2, hst]

theorem passKinds_tickOps (cfg : Config) (s : State) :
    passKinds (tickOps cfg s) =
      [if verticesFirst s.currentQuad = verticesFirst QUAD2 then PassKind.audioRead
        else PassKind.update,
       PassKind.audioRead, PassKind.barrier] := by
  unfold passKinds tickOps
  by_cases h : verticesFirst s.currentQuad = verticesFirst QUAD2
  · simp [h]
  · simp [h]

theorem passKinds_batchesOps (cfg : Config) (inputs : Nat → BatchInput) (k i : Nat)
    (s : State) (h : s.currentQuad = 0) :
    passKinds (batchesOps cfg inputs k i s) =
      (List.replicate (k * forLoopCount cfg.buffer_size)
        [PassKind.update, PassKind.audioRead, PassKind.barrier]).flatten := by
  unfold passKinds
  rw [filterMap_batchesOps_rel _ _ cfg QuadEq (quadEq_tick cfg) _ inputs k i s
    (fun j _ _ u => quadEq_batchIteration cfg (inputs j) u),
    ← flatMap_const_eq_flatten_replicate]
  · apply List.flatMap_congr
    intro n _
    have hq := ticks_currentQuad cfg s h n
    have hcases : (ticks cfg n s).currentQuad = 0 ∨ (ticks cfg n s).currentQuad = 1 := by omega
    have hk := passKinds_tickOps cfg (ticks cfg n s)
    unfold passKinds at hk
    rw [hk]
    rcases hcases with h0 | h1
    · rw [h0]
      rfl
    · rw [h1]
      rfl
  · intro op hop
    cases op <;> first | rfl | cases hop
  · intro s t hst
    unfold QuadEq at hst
    have h1 := passKinds_tickOps cfg s
    have h2 := passKinds_tickOps cfg t
    unfold passKinds at h1 h2
    rw [h1, h2, hst]

theorem quadLeft_quadRight (cfg : Config) (hW : 0 < cfg.domainSize.1)
    (hW2 : cfg.domainSize.1 * 2 ≤ INT_MAX) :
    quadLeft cfg 0 = 0 ∧ quadRight cfg 0 = (cfg.domainSize.1 : ℚ) ∧
    quadLeft cfg 1 = (cfg.domainSize.1 : ℚ) ∧ quadRight cfg 1 = 2 * (cfg.domainSize.1 : ℚ) := by
  have htw : ((textureWidth cfg : Int) : ℚ) = 2 * (cfg.domainSize.1 : ℚ) := by
    unfold textureWidth NUM_OF_TIMESTEPS
    rw [wrapInt32_of_range (by unfold INT_MIN; omega) (by omega)]
    push_cast
    ring
  have v0 : vertexPosX cfg 0 = -1 := rfl
  have v1 : vertexPosX cfg 1 = -1 := rfl
  have v2 : vertexPosX cfg 2 = 0 := rfl
  have v3 : vertexPosX cfg 3 = 0 := rfl
  have v4 : vertexPosX cfg 4 = 0 := rfl
  have v5 : vertexPosX cfg 5 = 0 := rfl
  have v6 : vertexPosX cfg 6 = 1 := rfl
  have v7 : vertexPosX cfg 7 = 1 := rfl
  have f0 : (verticesFirst 0).toNat = 0 := rfl
  have f1 : (verticesFirst 1).toNat = 4 := rfl
  unfold quadLeft quadRight viewportX
  simp only [f0, f1, v0, v1, v2, v3, v4, v5, v6, v7, htw]
  norm_num
  ring

theorem quadBottom_quadTop (cfg : Config) (hc : cfg.ceiling = 2)
    (hH : 0 < cfg.domainSize.2 ∧ cfg.domainSize.2 + 2 ≤ INT_MAX) (q : Int)
    (hq : q = 0 ∨ q = 1) :
    quadBottom cfg q = 0 ∧ quadTop cfg q = (cfg.domainSize.2 : ℚ) := by
  have hth : ((textureHeight cfg : Int) : ℚ) = (cfg.domainSize.2 : ℚ) + 2 := by
    unfold textureHeight
    rw [hc, wrapInt32_of_range (by unfold INT_MIN; omega) (by omega)]
    push_cast
    ring
  have hHpos : (0 : ℚ) < (cfg.domainSize.2 : ℚ) := by exact_mod_cast hH.1
  have hHq : (0 : ℚ) < (cfg.domainSize.2 : ℚ) + 2 := by linarith
  have hy : (-1 : ℚ) ≤ 1 - (cfg.ceiling : ℚ) * deltaV cfg := by
    unfold deltaV
    rw [hc, hth]
    have h4 : 2 / ((cfg.domainSize.2 : ℚ) + 2) ≤ 1 := by
      rw [div_le_one hHq]
      linarith
    push_cast
    linarith
  have v0 : vertexPosY cfg 0 = -1 := rfl
  have v1 : vertexPosY cfg 1 = 1 - (cfg.ceiling : ℚ) * deltaV cfg := rfl
  have v2 : vertexPosY cfg 2 = -1 := rfl
  have v3 : vertexPosY cfg 3 = 1 - (cfg.ceiling : ℚ) * deltaV cfg := rfl
  have v4 : vertexPosY cfg 4 = -1 := rfl
  have v5 : vertexPosY cfg 5 = 1 - (cfg.ceiling : ℚ) * deltaV cfg := rfl
  have v6 : vertexPosY cfg 6 = -1 := rfl
  have v7 : vertexPosY cfg 7 = 1 - (cfg.ceiling : ℚ) * deltaV cfg := rfl
  have f0 : (verticesFirst 0).toNat = 0 := rfl
  have f1 : (verticesFirst 1).toNat = 4 := rfl
  have hmin : min (min (-1 : ℚ) (1 - (cfg.ceiling : ℚ) * deltaV cfg))
      (min (-1 : ℚ) (1 - (cfg.ceiling : ℚ) * deltaV cfg)) = -1 := by
    rw [min_eq_left hy, min_self]
  have hmax : max (max (-1 : ℚ) (1 - (cfg.ceiling : ℚ) * deltaV cfg))
      (max (-1 : ℚ) (1 - (cfg.ceiling : ℚ) * deltaV cfg))
      = 1 - (cfg.ceiling : ℚ) * deltaV cfg := by
    rw [max_eq_right hy, max_self]
  have htop : (1 - (cfg.ceiling : ℚ) * deltaV cfg + 1) / 2 * ((cfg.domainSize.2 : ℚ) + 2)
      = (cfg.domainSize.2 : ℚ) := by
    unfold deltaV
    rw [hc, hth]
    push_cast
    field_simp
    ring
  unfold quadBottom quadTop viewportY
  rcases hq with h | h
  · rw [h]
    simp only [f0, v0, v1, v2, v3, hmin, hmax, hth, htop]
    norm_num
  · rw [h]
    simp only [f1, v4, v5, v6, v7, hmin, hmax, hth, htop]
    norm_num

theorem listener_texel (cfg : Config) (hc : cfg.ceiling = 2)
    (hW : 0 < cfg.domainSize.1 ∧ cfg.domainSize.1 * 2 ≤ INT_MAX)
    (hH : 0 < cfg.domainSize.2 ∧ cfg.domainSize.2 + 2 ≤ INT_MAX)
    (q : Int) (hq : q = 0 ∨ q = 1) :
    listenerFragCoord cfg q =
        (((cfg.listenerPosition.1 : ℚ) + 1 / 2 + (1 - (q : ℚ)) * (cfg.domainSize.1 : ℚ))
            / (2 * (cfg.domainSize.1 : ℚ)),
         ((cfg.listenerPosition.2 : ℚ) + 1 / 2) / ((cfg.domainSize.2 : ℚ) + 2))
    ∧ listenerFragCoord cfg q =
        texelCentre cfg (cfg.listenerPosition.1 + (1 - q) * cfg.domainSize.1)
          cfg.listenerPosition.2
    ∧ texelOf cfg (listenerFragCoord cfg q) =
        (cfg.listenerPosition.1 + (1 - q) * cfg.domainSize.1, cfg.listenerPosition.2) := by
  have htw : ((textureWidth cfg : Int) : ℚ) = 2 * (cfg.domainSize.1 : ℚ) := by
    unfold textureWidth NUM_OF_TIMESTEPS
    rw [wrapInt32_of_range (by unfold INT_MIN; omega) (by omega)]
    push_cast
    ring
  have hth : ((textureHeight cfg : Int) : ℚ) = (cfg.domainSize.2 : ℚ) + 2 := by
    unfold textureHeight
    rw [hc, wrapInt32_of_range (by unfold INT_MIN; omega) (by omega)]
    push_cast
    ring
  have hWq : (0 : ℚ) < 2 * (cfg.domainSize.1 : ℚ) := by
    have : (0 : ℚ) < (cfg.domainSize.1 : ℚ) := by exact_mod_cast hW.1
    linarith
  have hHq : (0 : ℚ) < (cfg.domainSize.2 : ℚ) + 2 := by
    have : (0 : ℚ) < (cfg.domainSize.2 : ℚ) := by exact_mod_cast hH.1
    linarith
  have hform : listenerFragCoord cfg q =
      (((cfg.listenerPosition.1 : ℚ) + 1 / 2 + (1 - (q : ℚ)) * (cfg.domainSize.1 : ℚ))
          / (2 * (cfg.domainSize.1 : ℚ)),
       ((cfg.listenerPosition.2 : ℚ) + 1 / 2) / ((cfg.domainSize.2 : ℚ) + 2)) := by
    unfold listenerFragCoord
    rw [htw, hth]
    rcases hq with h | h
    · rw [h, if_pos rfl]
      norm_num
    · rw [h, if_neg (by decide)]
      norm_num
  refine ⟨hform, ?_, ?_⟩
  · rw [hform]
    unfold texelCentre
    rw [htw, hth]
    push_cast
    congr 2
    ring
  · rw [hform]
    unfold texelOf
    rw [htw, hth]
    show (⌊_⌋, ⌊_⌋) = _
    rw [div_mul_cancel₀ _ (ne_of_gt hWq), div_mul_cancel₀ _ (ne_of_gt hHq)]
    have hx : ⌊(cfg.listenerPosition.1 : ℚ) + 1 / 2 + (1 - (q : ℚ)) * (cfg.domainSize.1 : ℚ)⌋
        = cfg.listenerPosition.1 + (1 - q) * cfg.domainSize.1 := by
      rw [Int.floor_eq_iff]
      push_cast
      constructor <;> linarith
    have hy : ⌊(cfg.listenerPosition.2 : ℚ) + 1 / 2⌋ = cfg.listenerPosition.2 := by
      rw [Int.floor_eq_iff]
      constructor <;> linarith
    rw [hx, hy]

/-! ## Lemmas: the coordinate the audio pass samples -/

theorem audioReadCoord_audio_state (cfg : Config) (q : Int) (hq : q = 0 ∨ q = 1) :
    audioReadCoord cfg (2 * q + 1) = some (listenerFragCoord cfg q) := by
  rcases hq with h | h
  · rw [h]
    rfl
  · rw [h]
    rfl

theorem audioReadCoordsFrom_stateAndDrawOps (cfg : Config) (st : Int) (ops : List GLOp) :
    audioReadCoordsFrom cfg st (stateAndDrawOps ops) = audioReadCoordsFrom cfg st ops := by
  induction ops generalizing st with
  | nil => rfl
  | cons op rest ih =>
    cases op with
    | uniformState v =>
      show audioReadCoordsFrom cfg v (stateAndDrawOps rest) = audioReadCoordsFrom cfg v rest
      exact ih v
    | drawArrays first count =>
      show audioReadCoordsFrom cfg st (GLOp.drawArrays first count :: stateAndDrawOps rest)
        = audioReadCoordsFrom cfg st (GLOp.drawArrays first count :: rest)
      unfold audioReadCoordsFrom
      rw [ih st]
    | uniformExcitationMagnitude v => exact ih st
    | uniformExcitationPosition x y => exact ih st
    | uniformWrCoord x c => exact ih st
    | memoryBarrier => exact ih st
    | readPixels x y w h => exact ih st
    | loadFromSamples src a b c => exact ih st
    | play => exact ih st

theorem audioReadCoordsFrom_ticks (cfg : Config) (st : Int) (l : List Nat) :
    audioReadCoordsFrom cfg st (l.flatMap (fun (n : Nat) =>
        [GLOp.uniformState (2 * ((n % 2 : Nat) : Int)),
         GLOp.drawArrays (verticesFirst ((n % 2 : Nat) : Int)) 4,
         GLOp.uniformState (2 * ((n % 2 : Nat) : Int) + 1),
         GLOp.drawArrays 8 4]))
      = l.map (fun (n : Nat) => some (listenerFragCoord cfg ((n % 2 : Nat) : Int))) := by
  induction l generalizing st with
  | nil => rfl
  | cons n rest ih =>
    rw [List.flatMap_cons, List.map_cons]
    have hq : ((n % 2 : Nat) : Int) = 0 ∨ ((n % 2 : Nat) : Int) = 1 := by omega
    have hne : ¬ (verticesFirst ((n % 2 : Nat) : Int) = verticesFirst QUAD2) := by
      rcases hq with h | h <;> rw [h] <;> decide
    show audioReadCoordsFrom cfg (2 * ((n % 2 : Nat) : Int))
        (GLOp.drawArrays (verticesFirst ((n % 2 : Nat) : Int)) 4 ::
          GLOp.uniformState (2 * ((n % 2 : Nat) : Int) + 1) :: GLOp.drawArrays 8 4 :: _) = _
    unfold audioReadCoordsFrom
    rw [if_neg hne]
    unfold audioReadCoordsFrom
    unfold audioReadCoordsFrom
    rw [if_pos (by decide), audioReadCoord_audio_state cfg _ hq]
    show _ :: audioReadCoordsFrom cfg _ (rest.flatMap _) = _
    rw [ih]

theorem audioReadCoords_batchesOps (cfg : Config) (inputs : Nat → BatchInput) (k : Nat) :
    audioReadCoords cfg (batchesOps cfg inputs k 0 initialState) =
      (List.range (k * forLoopCount cfg.buffer_size)).map (fun (n : Nat) =>
        some (listenerFragCoord cfg ((n % 2 : Nat) : Int))) := by
  unfold audioReadCoords
  rw [← audioReadCoordsFrom_stateAndDrawOps,
    stateAndDrawOps_batchesOps cfg inputs k 0 initialState rfl, audioReadCoordsFrom_ticks]

/-! ## C1: firing cadence in continuous mode -/

/-- C1. Continuous mode, no mouse event, period `P = excitationDuration ≥ 1`, counter and
magnitude at their initial value 0: over any number `k` of batches, the value passed to the
`excitationMagnitude` uniform at tick `n` (counted across batches) is `maxExcitation` when
`n ≥ 1` and `P` divides `n`, and 0 otherwise.  With `sampleRate = 100` and
`excitationFrequency = 25` the period is 4. -/
theorem C1_continuous_cadence (cfg : Config) (inputs : Nat → BatchInput) (s : State) (k : Nat)
    (hmode : cfg.isSingleExcitation = false) (hP : 1 ≤ excitationDuration cfg)
    (hcnt : s.sampleCnt = 0) (hmag : s.excitationMagnitude = 0)
    (hev : ∀ j, j < k → (inputs j).mouseEvents = []) :
    suppliedMagnitudes (batchesOps cfg inputs k 0 s) =
        (List.range (k * forLoopCount cfg.buffer_size)).map
          (fun (n : Nat) =>
            if 1 ≤ n ∧ excitationDuration cfg ∣ (n : Int) then s.maxExcitation else 0)
      ∧ (∀ c : Config, c.sampleRate = 100 → c.excitationFrequency = 25 →
          excitationDuration c = 4) := by
  constructor
  · rw [suppliedMagnitudes_batchesOps cfg inputs k 0 s (fun j _ h => hev j (by omega))]
    apply List.map_congr_left
    intro n _
    have h0 : 0 ≤ s.sampleCnt := by omega
    have h1 : s.sampleCnt < excitationDuration cfg := by omega
    cases n with
    | zero =>
      show s.excitationMagnitude = _
      simp [hmag]
    | succ m =>
      rw [ticks_excitationMagnitude_continuous cfg s hP h0 h1 hmode m, hcnt]
      have hdvd : ((0 : Int) + (m : Int) + 1) % excitationDuration cfg = 0 ↔
          excitationDuration cfg ∣ ((m + 1 : Nat) : Int) := by
        rw [Int.dvd_iff_emod_eq_zero]
        push_cast
        rw [zero_add]
      by_cases hd : excitationDuration cfg ∣ ((m + 1 : Nat) : Int)
      · simp [hdvd.mpr hd, hd]
      · have hne : ¬ (((0 : Int) + (m : Int) + 1) % excitationDuration cfg = 0) :=
          fun h => hd (hdvd.mp h)
        simp [hne, hd]
  · intro c h1 h2
    unfold excitationDuration
    rw [h1, h2]
    decide

/-- Witness of C1: period 4, three batches of four ticks. -/
theorem C1_continuous_cadence_witness :
    (cadenceConfig.isSingleExcitation = false ∧ 1 ≤ excitationDuration cadenceConfig) ∧
    suppliedMagnitudes (batchesOps cadenceConfig quietInputs 3 0 initialState) =
      [0, 0, 0, 0, 1, 0, 0, 0, 1, 0, 0, 0] := by
  have hP : excitationDuration cadenceConfig = 4 := by decide
  have hB : forLoopCount cadenceConfig.buffer_size = 4 := by decide
  refine ⟨⟨rfl, by decide⟩, ?_⟩
  rw [(C1_continuous_cadence cadenceConfig quietInputs initialState 3 rfl (by decide) rfl rfl
    (fun _ _ => rfl)).1, hP, hB]
  simp [List.range_succ, initialState]
  decide

/-! ## C2: single-shot mode fires once -/

/-- C2. Single-shot mode, no mouse event, period `P = excitationDuration ≥ 1`, counter and
magnitude initially 0 and `maxExcitation` initially 1: over any number `k` of batches the
value passed to the `excitationMagnitude` uniform is 1 at tick `P` and 0 at every other
tick; among the first `N` ticks the non-zero values are exactly `[1]` when tick `P` is among
them and none otherwise; and `maxExcitation` is 1 before tick `n` when `n < P` and 0 before
every later tick. -/
theorem C2_single_shot_once (cfg : Config) (inputs : Nat → BatchInput) (s : State) (k : Nat)
    (hmode : cfg.isSingleExcitation = true) (hP : 1 ≤ excitationDuration cfg)
    (hcnt : s.sampleCnt = 0) (hmag : s.excitationMagnitude = 0) (hmax : s.maxExcitation = 1)
    (hev : ∀ j, j < k → (inputs j).mouseEvents = []) :
    suppliedMagnitudes (batchesOps cfg inputs k 0 s) =
        (List.range (k * forLoopCount cfg.buffer_size)).map
          (fun (n : Nat) => if (n : Int) = excitationDuration cfg then (1 : ℚ) else 0)
      ∧ (∀ N : Nat,
          ((suppliedMagnitudes (batchesOps cfg inputs k 0 s)).take N).filter (fun v => v ≠ 0) =
            if excitationDuration cfg < ((min N (k * forLoopCount cfg.buffer_size) : Nat) : Int)
            then [1] else [])
      ∧ (∀ j : Nat,
          (ticks cfg j (batches cfg inputs k 0 s)).maxExcitation =
            if ((k * forLoopCount cfg.buffer_size + j : Nat) : Int) < excitationDuration cfg
            then 1 else 0) := by
  have h0 : 0 ≤ s.sampleCnt := by omega
  have h1 : s.sampleCnt < excitationDuration cfg := by omega
  have hseq : suppliedMagnitudes (batchesOps cfg inputs k 0 s) =
      (List.range (k * forLoopCount cfg.buffer_size)).map
        (fun (n : Nat) => if (n : Int) = excitationDuration cfg then (1 : ℚ) else 0) := by
    rw [suppliedMagnitudes_batchesOps cfg inputs k 0 s (fun j _ h => hev j (by omega))]
    apply List.map_congr_left
    intro n _
    cases n with
    | zero =>
      show s.excitationMagnitude = _
      have hne : ¬ (((0 : Nat) : Int) = excitationDuration cfg) := by
        push_cast
        omega
      rw [hmag, if_neg hne]
    | succ m =>
      rw [ticks_excitationMagnitude_single cfg s hP h0 h1 hmode m, hcnt, hmax]
      push_cast
      rw [zero_add]
  refine ⟨hseq, ?_, ?_⟩
  · intro N
    rw [hseq, ← List.map_take, List.take_range,
      filter_ne_zero_indicator (excitationDuration cfg) (by omega)]
  · intro j
    have hEq := tickEq_ticks cfg j
      (tickEq_batches cfg inputs k 0 s (fun j _ h => hev j (by omega)))
    rw [hEq.2.2.1, ← ticks_add, ticks_maxExcitation_single cfg s hP h0 h1 hmode, hcnt, hmax,
      zero_add]

/-- Witness of C2: period 4, three batches of four ticks, one firing at tick 4. -/
theorem C2_single_shot_once_witness :
    (cadenceConfigSingle.isSingleExcitation = true ∧ 1 ≤ excitationDuration cadenceConfigSingle) ∧
    suppliedMagnitudes (batchesOps cadenceConfigSingle quietInputs 3 0 initialState) =
      [0, 0, 0, 0, 1, 0, 0, 0, 0, 0, 0, 0] ∧
    (batches cadenceConfigSingle quietInputs 3 0 initialState).maxExcitation = 0 := by
  have hP : excitationDuration cadenceConfigSingle = 4 := by decide
  have hB : forLoopCount cadenceConfigSingle.buffer_size = 4 := by decide
  have h := C2_single_shot_once cadenceConfigSingle quietInputs initialState 3 rfl (by decide)
    rfl rfl rfl (fun _ _ => rfl)
  refine ⟨⟨rfl, by decide⟩, ?_, ?_⟩
  · rw [h.1, hP, hB]
    simp [List.range_succ]
  · have h3 := h.2.2 0
    rw [hP, hB] at h3
    exact h3

/-! ## C3: the mouse callback re-arms the excitation -/

/-- C3. `mouseButtonCallback` on a window of `domainSize[0] * 10` by `domainSize[1] * 10`
pixels (positive sizes that fit an `int`).  A left-button press at pixel `(x, y)` sets
`maxExcitation` to 1 and `excitationPosition` to `(1/2 + x / (2 * domainSize[0] * 10),
1 - y / (domainSize[1] * 10))`, a point of the unit square when the pixel is inside the
window, and leaves every other variable, the tick counter and the current magnitude among
them, unchanged.  Any other button or action leaves the whole state unchanged.  In
single-shot mode with the shot spent (`maxExcitation = 0`), without a press no later tick
passes a non-zero magnitude, and after a press exactly one later tick does, with value 1. -/
theorem C3_setExcitation_rearms (cfg : Config) (s : State) (e : MouseEvent)
    (hW : 0 < cfg.domainSize.1 ∧ cfg.domainSize.1 * 10 ≤ INT_MAX)
    (hH : 0 < cfg.domainSize.2 ∧ cfg.domainSize.2 * 10 ≤ INT_MAX) :
    (e.button = GLFW_MOUSE_BUTTON_LEFT ∧ e.action = GLFW_PRESS →
      (mouseButtonCallback cfg e s).maxExcitation = 1 ∧
      (mouseButtonCallback cfg e s).excitationPosition =
        (1 / 2 + e.xPos / (2 * (cfg.domainSize.1 : ℚ) * 10),
         1 - e.yPos / ((cfg.domainSize.2 : ℚ) * 10)) ∧
      (0 ≤ e.xPos ∧ e.xPos ≤ (cfg.domainSize.1 : ℚ) * 10 ∧
        0 ≤ e.yPos ∧ e.yPos ≤ (cfg.domainSize.2 : ℚ) * 10 →
        0 ≤ (mouseButtonCallback cfg e s).excitationPosition.1 ∧
        (mouseButtonCallback cfg e s).excitationPosition.1 ≤ 1 ∧
        0 ≤ (mouseButtonCallback cfg e s).excitationPosition.2 ∧
        (mouseButtonCallback cfg e s).excitationPosition.2 ≤ 1) ∧
      (mouseButtonCallback cfg e s).sampleCnt = s.sampleCnt ∧
      (mouseButtonCallback cfg e s).excitationMagnitude = s.excitationMagnitude ∧
      (mouseButtonCallback cfg e s).currentQuad = s.currentQuad ∧
      (mouseButtonCallback cfg e s).state = s.state ∧
      (mouseButtonCallback cfg e s).wrCoord = s.wrCoord ∧
      (mouseButtonCallback cfg e s).sampleCounter = s.sampleCounter ∧
      (mouseButtonCallback cfg e s).realTimeAudioBuffer = s.realTimeAudioBuffer ∧
      (mouseButtonCallback cfg e s).playbackAudioBuffer = s.playbackAudioBuffer)
    ∧ (¬ (e.button = GLFW_MOUSE_BUTTON_LEFT ∧ e.action = GLFW_PRESS) →
        mouseButtonCallback cfg e s = s)
    ∧ (cfg.isSingleExcitation = true → 1 ≤ excitationDuration cfg →
        0 ≤ s.sampleCnt → s.sampleCnt < excitationDuration cfg → s.maxExcitation = 0 →
        ∀ (inputs : Nat → BatchInput) (k i : Nat),
          (∀ j, i ≤ j → j < i + k → (inputs j).mouseEvents = []) →
          suppliedMagnitudes (batchesOps cfg inputs k i s) =
              (List.range (k * forLoopCount cfg.buffer_size)).map
                (fun (t : Nat) => if t = 0 then s.excitationMagnitude else 0)
          ∧ (e.button = GLFW_MOUSE_BUTTON_LEFT ∧ e.action = GLFW_PRESS →
              suppliedMagnitudes (batchesOps cfg inputs k i (mouseButtonCallback cfg e s)) =
                (List.range (k * forLoopCount cfg.buffer_size)).map
                  (fun (t : Nat) =>
                    if t = 0 then s.excitationMagnitude
                    else if s.sampleCnt + (t : Int) = excitationDuration cfg then 1
                    else 0))) := by
  have hwW : ((wrapInt32 (cfg.domainSize.1 * MAGNIFIER) : Int) : ℚ) = (cfg.domainSize.1 : ℚ) * 10 := by
    rw [wrapInt32_of_range (by unfold INT_MIN MAGNIFIER; omega) (by unfold MAGNIFIER; omega)]
    unfold MAGNIFIER
    push_cast
    ring
  have hwH : ((wrapInt32 (cfg.domainSize.2 * MAGNIFIER) : Int) : ℚ) = (cfg.domainSize.2 : ℚ) * 10 := by
    rw [wrapInt32_of_range (by unfold INT_MIN MAGNIFIER; omega) (by unfold MAGNIFIER; omega)]
    unfold MAGNIFIER
    push_cast
    ring
  have hWpos : (0 : ℚ) < (cfg.domainSize.1 : ℚ) * 10 := by
    have : (0 : ℚ) < (cfg.domainSize.1 : ℚ) := by exact_mod_cast hW.1
    linarith
  have hHpos : (0 : ℚ) < (cfg.domainSize.2 : ℚ) * 10 := by
    have : (0 : ℚ) < (cfg.domainSize.2 : ℚ) := by exact_mod_cast hH.1
    linarith
  refine ⟨?_, mouseButtonCallback_other cfg e s, ?_⟩
  · intro hpress
    rw [mouseButtonCallback_press cfg e s hpress, hwW, hwH]
    have hx : ((e.xPos / ((cfg.domainSize.1 : ℚ) * 10) - 0) * (1 - 1 / 2)) / (1 - 0) + 1 / 2
        = 1 / 2 + e.xPos / (2 * (cfg.domainSize.1 : ℚ) * 10) := by
      ring
    refine ⟨rfl, ?_, ?_, rfl, rfl, rfl, rfl, rfl, rfl, rfl, rfl⟩
    · show (_, _) = (_, _)
      rw [hx]
    · intro hin
      obtain ⟨hx0, hx1, hy0, hy1⟩ := hin
      show 0 ≤ _ ∧ _ ≤ (1 : ℚ) ∧ 0 ≤ _ ∧ _ ≤ (1 : ℚ)
      rw [hx]
      have hxd0 : 0 ≤ e.xPos / (2 * (cfg.domainSize.1 : ℚ) * 10) :=
        div_nonneg hx0 (by linarith)
      have hxd1 : e.xPos / (2 * (cfg.domainSize.1 : ℚ) * 10) ≤ 1 / 2 := by
        rw [div_le_iff₀ (by linarith)]
        linarith
      have hyd0 : 0 ≤ e.yPos / ((cfg.domainSize.2 : ℚ) * 10) := div_nonneg hy0 (by linarith)
      have hyd1 : e.yPos / ((cfg.domainSize.2 : ℚ) * 10) ≤ 1 := by
        rw [div_le_iff₀ hHpos]
        linarith
      refine ⟨by linarith, by linarith, ?_, ?_⟩
      · show 0 ≤ 1 - e.yPos / ((cfg.domainSize.2 : ℚ) * 10)
        linarith
      · show 1 - e.yPos / ((cfg.domainSize.2 : ℚ) * 10) ≤ 1
        linarith
  · intro hmode hP h0 h1 hspent inputs k i hev
    constructor
    · rw [suppliedMagnitudes_single cfg inputs k i s hmode hP h0 h1 hev, hspent]
      apply List.map_congr_left
      intro t _
      by_cases ht : t = 0
      · simp [ht]
      · simp [ht]
    · intro hpress
      rw [suppliedMagnitudes_single cfg inputs k i _ hmode hP
        (by rw [mouseButtonCallback_press cfg e s hpress]; exact h0)
        (by rw [mouseButtonCallback_press cfg e s hpress]; exact h1) hev,
        mouseButtonCallback_press cfg e s hpress]

/-- Witness of C3: a press at pixel (400, 200) of the 800 by 800 window in a spent
single-shot state with period 4 and counter 2; a release changes nothing. -/
theorem C3_setExcitation_rearms_witness :
    (mouseButtonCallback cadenceConfigSingle leftPressEvent spentState).maxExcitation = 1 ∧
    (mouseButtonCallback cadenceConfigSingle leftPressEvent spentState).excitationPosition
      = (3 / 4, 3 / 4) ∧
    (mouseButtonCallback cadenceConfigSingle leftPressEvent spentState).sampleCnt = 2 ∧
    mouseButtonCallback cadenceConfigSingle leftReleaseEvent spentState = spentState ∧
    suppliedMagnitudes (batchesOps cadenceConfigSingle quietInputs 2 0 spentState)
      = [0, 0, 0, 0, 0, 0, 0, 0] ∧
    suppliedMagnitudes (batchesOps cadenceConfigSingle quietInputs 2 0
        (mouseButtonCallback cadenceConfigSingle leftPressEvent spentState))
      = [0, 0, 1, 0, 0, 0, 0, 0] := by
  have hP : excitationDuration cadenceConfigSingle = 4 := by decide
  have hB : forLoopCount cadenceConfigSingle.buffer_size = 4 := by decide
  have hpress : leftPressEvent.button = GLFW_MOUSE_BUTTON_LEFT ∧
      leftPressEvent.action = GLFW_PRESS := ⟨rfl, rfl⟩
  have hrelease : ¬ (leftReleaseEvent.button = GLFW_MOUSE_BUTTON_LEFT ∧
      leftReleaseEvent.action = GLFW_PRESS) := by decide
  have h := C3_setExcitation_rearms cadenceConfigSingle spentState leftPressEvent
    (by decide) (by decide)
  have h2 := C3_setExcitation_rearms cadenceConfigSingle spentState leftReleaseEvent
    (by decide) (by decide)
  have h3 := h.2.2 rfl (by decide) (by decide) (by decide) rfl quietInputs 2 0 (fun _ _ _ => rfl)
  refine ⟨(h.1 hpress).1, ?_, (h.1 hpress).2.2.2.1, h2.2.1 hrelease, ?_, ?_⟩
  · rw [(h.1 hpress).2.1]
    norm_num [leftPressEvent, cadenceConfigSingle]
  · rw [h3.1, hB]
    simp [List.range_succ, spentState, initialState]
  · rw [h3.2 hpress, hP, hB]
    simp [List.range_succ, spentState, initialState]

/-! ## C4: playback buffer accounting -/

/-- C5, at the failing input. The settings of the source, escape found pressed at the poll of
the first batch: the outer loop is left with 128 samples in the playback buffer, and the one
`loadFromSamples` call on the playback buffer is given the sample count 440960
(`bufferNum * buffer_size`). -/
theorem C5_cancelled_run_playback_count :
    (escapeInputs 0).escapePressed = true ∧
    executedBatches escapeInputs (forLoopCount (bufferNum defaultConfig)) 0 = 1 ∧
    (mainState defaultConfig escapeInputs).playbackAudioBuffer.length = 128 ∧
    playbackLoadCounts (mainOps defaultConfig escapeInputs) = [440960] := by
  have hn : forLoopCount (bufferNum defaultConfig) = 3445 := by decide
  have he : executedBatches escapeInputs 3445 0 = 1 := rfl
  refine ⟨rfl, ?_, ?_, ?_⟩
  · rw [hn, he]
  · unfold mainState
    rw [mainLoop_eq_batches, hn, he, batches_playbackAudioBuffer_length]
    decide
  · rw [playbackLoadCounts_mainOps]
    decide

/-! ## C6: the flush depends on the clock -/

/-- C6, at the failing input. The settings of the source, every batch taking 1000000 clock
ticks: after 345 batches `sampleCounter` is 44160, above `sampleRate = 44100`, and no flush
has been issued. -/
theorem C6_slow_batches_never_flush :
    (∀ j, (slowInputs j).differenceRealTimeClock = 1000000) ∧
    defaultConfig.sampleRate = 44100 ∧
    (batches defaultConfig slowInputs 345 0 initialState).sampleCounter = 44160 ∧
    flushCounts (batchesOps defaultConfig slowInputs 345 0 initialState) = [] := by
  have h := batches_slow defaultConfig slowInputs 345 0 initialState (by decide) (by decide)
    (fun _ => (by decide : ¬ ((1000000 : Int) < MICROSECS_IN_SEC)))
  refine ⟨fun _ => rfl, rfl, ?_, h.2⟩
  rw [h.1]
  decide

/-! ## C7: the size of a rolling-buffer flush -/

/-- C7, counterexample. The settings of the source with quiet batches: the first flush comes
with the 345th batch and hands 44160 samples, more than `sampleRate = 44100`. -/
theorem C7_flush_size_counterexample :
    defaultConfig.sampleRate = 44100 ∧
    flushCounts (batchesOps defaultConfig quietInputs 345 0 initialState) = [44160] ∧
    ¬ (∀ c ∈ flushCounts (batchesOps defaultConfig quietInputs 345 0 initialState),
        c ≤ defaultConfig.sampleRate) := by
  refine ⟨rfl, flushCounts_defaults_first_flush, ?_⟩
  rw [flushCounts_defaults_first_flush]
  intro h
  exact absurd (h 44160 (List.mem_singleton.mpr rfl)) (by decide)

/-- C7, amended. Every rolling-buffer flush hands more than `sampleRate` samples to the sink;
when the counter starts in `0 .. sampleRate`, `sampleRate + buffer_size` fits an `int` and
every batch takes fewer than 1000000 clock ticks, a flush hands at most
`sampleRate + buffer_size` samples. -/
theorem C7_flush_size (cfg : Config) (inputs : Nat → BatchInput) (k i : Nat) (s : State) :
    (∀ c ∈ flushCounts (batchesOps cfg inputs k i s), cfg.sampleRate < c)
    ∧ (0 ≤ s.sampleCounter → s.sampleCounter ≤ cfg.sampleRate →
        0 ≤ cfg.buffer_size → cfg.sampleRate + cfg.buffer_size ≤ INT_MAX →
        (∀ j, (inputs j).differenceRealTimeClock < MICROSECS_IN_SEC) →
        ∀ c ∈ flushCounts (batchesOps cfg inputs k i s),
          c ≤ cfg.sampleRate + cfg.buffer_size) := by
  refine ⟨flushCounts_gt_sampleRate cfg inputs k i s, ?_⟩
  intro h0 h1 hB hfit hfast c hc
  have hBcount : (forLoopCount cfg.buffer_size : Int) = cfg.buffer_size :=
    forLoopCount_of_range hB (by omega)
  have h := (batches_fast cfg inputs k i s h0 h1 (by rw [hBcount]; exact hfit) hfast).2 c hc
  rw [hBcount] at h
  exact h

/-- Witness of C7 (amended): the settings of the source, 345 quiet batches; the one flush
hands 44160 samples, between 44101 and 44228. -/
theorem C7_flush_size_witness :
    (0 ≤ initialState.sampleCounter ∧ initialState.sampleCounter ≤ defaultConfig.sampleRate ∧
      0 ≤ defaultConfig.buffer_size ∧
      defaultConfig.sampleRate + defaultConfig.buffer_size ≤ INT_MAX ∧
      ∀ j, (quietInputs j).differenceRealTimeClock < MICROSECS_IN_SEC) ∧
    (44160 : Int) ∈ flushCounts (batchesOps defaultConfig quietInputs 345 0 initialState) ∧
    ∀ c ∈ flushCounts (batchesOps defaultConfig quietInputs 345 0 initialState),
      44100 < c ∧ c ≤ 44228 := by
  have h := C7_flush_size defaultConfig quietInputs 345 0 initialState
  have hfast : ∀ j, (quietInputs j).differenceRealTimeClock < MICROSECS_IN_SEC :=
    fun _ => (by decide : (0 : Int) < MICROSECS_IN_SEC)
  refine ⟨⟨by decide, by decide, by decide, by decide, hfast⟩, ?_, ?_⟩
  · rw [flushCounts_defaults_first_flush]
    exact List.mem_singleton.mpr rfl
  · intro c hc
    exact ⟨h.1 c hc,
      h.2 (by decide) (by decide) (by decide) (by decide) hfast c hc⟩

/-! ## C8: sample conversion -/

/-- C8, counterexample. The pressure `p = 0x1.0002p-15 = 32769 / 2^30` is a `float` in
`-1 .. 1`.  The product `32767 * p` is `1 - 2^-30`, whose truncation toward zero is 0; the
`float` product of the source is rounded to 1, so the sample that is stored and appended is
1. -/
theorem C8_sample_conversion_counterexample :
    roundFloat32 roundingPressure = roundingPressure
    ∧ (-1 ≤ roundingPressure ∧ roundingPressure ≤ 1)
    ∧ 32767 * roundingPressure = 1 - 1 / 1073741824
    ∧ truncQ (32767 * roundingPressure) = 0
    ∧ roundFloat32 (roundingPressure * 32767) = 1
    ∧ sampleOf roundingPressure = 1
    ∧ sampleOf roundingPressure ≠ truncQ (32767 * roundingPressure)
    ∧ (appendSample (fun _ => roundingPressure) 0 initialState).playbackAudioBuffer = [1] := by
  have hrange : -1 ≤ roundingPressure ∧ roundingPressure ≤ 1 := by
    unfold roundingPressure
    constructor <;> norm_num
  have hprod : 32767 * roundingPressure = 1 - 1 / 1073741824 := by
    unfold roundingPressure
    norm_num
  have htrunc : truncQ (32767 * roundingPressure) = 0 := by
    rw [hprod]
    unfold truncQ
    rw [if_pos (by norm_num), Int.floor_eq_iff]
    constructor <;> norm_num
  have hs : sampleOf roundingPressure = 1 := by
    rw [(sampleOf_eq_truncQ roundingPressure hrange.1 hrange.2).1,
      roundFloat32_roundingPressure.2, truncQ_one]
  refine ⟨roundFloat32_roundingPressure.1, hrange, hprod, htrunc,
    roundFloat32_roundingPressure.2, hs, ?_, ?_⟩
  · rw [hs, htrunc]
    decide
  · show [] ++ [sampleOf roundingPressure] = [1]
    rw [hs]
    rfl

/-- C8, amended. For a pressure `p` with `-1 ≤ p ≤ 1` the sample
`sf::Int16 sample = p * 32767` is the truncation toward zero of the `float` product, the
product `32767 * p` rounded to the nearest `float`.  It is the truncation toward zero of
`32767 * p` or the integer next to it away from zero, the latter only when the `float`
product is that integer; it is the truncation toward zero of `32767 * p` whenever the
product is a `float` itself.  It lies in `-32767 .. 32767`, inside the signed 16-bit range,
and is the value the append loop pushes.  `p = 1` gives 32767, `p = -1` gives -32767 and
`p = 0` gives 0. -/
theorem C8_sample_conversion (p : ℚ) (h1 : -1 ≤ p) (h2 : p ≤ 1) :
    sampleOf p = truncQ (roundFloat32 (p * 32767))
    ∧ (0 ≤ p → truncQ (32767 * p) ≤ sampleOf p ∧ sampleOf p ≤ truncQ (32767 * p) + 1
        ∧ (sampleOf p = truncQ (32767 * p) + 1 →
            roundFloat32 (p * 32767) = ((truncQ (32767 * p) + 1 : Int) : ℚ)))
    ∧ (p ≤ 0 → truncQ (32767 * p) - 1 ≤ sampleOf p ∧ sampleOf p ≤ truncQ (32767 * p)
        ∧ (sampleOf p = truncQ (32767 * p) - 1 →
            roundFloat32 (p * 32767) = ((truncQ (32767 * p) - 1 : Int) : ℚ)))
    ∧ (roundFloat32 (p * 32767) = p * 32767 → sampleOf p = truncQ (32767 * p))
    ∧ (-32767 ≤ sampleOf p ∧ sampleOf p ≤ 32767)
    ∧ (-32768 ≤ sampleOf p ∧ sampleOf p ≤ 32767)
    ∧ (∀ (sampleBuffer : Nat → ℚ) (i : Nat) (s : State), sampleBuffer i = p →
        (appendSample sampleBuffer i s).playbackAudioBuffer
          = s.playbackAudioBuffer ++ [sampleOf p])
    ∧ (sampleOf 1 = 32767 ∧ sampleOf (-1) = -32767 ∧ sampleOf 0 = 0) := by
  obtain ⟨habs, hlo, hhi⟩ := roundFloat32_sample_bounds p h1 h2
  obtain ⟨hconv, hb⟩ := sampleOf_eq_truncQ p h1 h2
  have hx := truncQ_toward_zero (32767 * p)
  have hy := truncQ_toward_zero (roundFloat32 (p * 32767))
  have hcomm : p * 32767 = 32767 * p := mul_comm p 32767
  refine ⟨hconv, ?_, ?_, ?_, hb, ⟨by omega, hb.2⟩, ?_, ?_⟩
  · intro hp
    obtain ⟨hx1, hx2, _⟩ := hx.1 (by linarith)
    have hge : ((truncQ (32767 * p) : Int) : ℚ) ≤ roundFloat32 (p * 32767) :=
      intCast_le_roundFloat32 _ _ habs (by rw [hcomm]; exact hx1)
    have hle : roundFloat32 (p * 32767) ≤ ((truncQ (32767 * p) + 1 : Int) : ℚ) :=
      roundFloat32_le_intCast _ _ habs (by rw [hcomm]; push_cast; linarith)
    have hy0 : (0 : ℚ) ≤ roundFloat32 (p * 32767) := by
      have h := intCast_le_roundFloat32 (p * 32767) 0 habs (by push_cast; linarith)
      push_cast at h
      exact h
    obtain ⟨hy1, hy2, _⟩ := hy.1 hy0
    rw [hconv]
    have ha : ((truncQ (32767 * p) : Int) : ℚ)
        < ((truncQ (roundFloat32 (p * 32767)) : Int) : ℚ) + 1 := lt_of_le_of_lt hge hy2
    have hb2 : ((truncQ (roundFloat32 (p * 32767)) : Int) : ℚ)
        ≤ ((truncQ (32767 * p) + 1 : Int) : ℚ) := le_trans hy1 hle
    have ha2 : truncQ (32767 * p) < truncQ (roundFloat32 (p * 32767)) + 1 := by
      exact_mod_cast ha
    have hb3 : truncQ (roundFloat32 (p * 32767)) ≤ truncQ (32767 * p) + 1 := by
      exact_mod_cast hb2
    refine ⟨by omega, hb3, ?_⟩
    intro heq
    apply le_antisymm hle
    rw [← heq]
    exact hy1
  · intro hp
    obtain ⟨hx1, hx2, _⟩ := hx.2 (by linarith)
    have hle : roundFloat32 (p * 32767) ≤ ((truncQ (32767 * p) : Int) : ℚ) :=
      roundFloat32_le_intCast _ _ habs (by rw [hcomm]; exact hx1)
    have hge : ((truncQ (32767 * p) - 1 : Int) : ℚ) ≤ roundFloat32 (p * 32767) :=
      intCast_le_roundFloat32 _ _ habs (by rw [hcomm]; push_cast; linarith)
    have hy0 : roundFloat32 (p * 32767) ≤ (0 : ℚ) := by
      have h := roundFloat32_le_intCast (p * 32767) 0 habs (by push_cast; linarith)
      push_cast at h
      exact h
    obtain ⟨hy1, hy2, _⟩ := hy.2 hy0
    rw [hconv]
    have ha : ((truncQ (roundFloat32 (p * 32767)) : Int) : ℚ) - 1
        < ((truncQ (32767 * p) : Int) : ℚ) := lt_of_lt_of_le hy2 hle
    have hb2 : ((truncQ (32767 * p) - 1 : Int) : ℚ)
        ≤ ((truncQ (roundFloat32 (p * 32767)) : Int) : ℚ) := le_trans hge hy1
    have ha2 : truncQ (roundFloat32 (p * 32767)) - 1 < truncQ (32767 * p) := by
      exact_mod_cast ha
    have hb3 : truncQ (32767 * p) - 1 ≤ truncQ (roundFloat32 (p * 32767)) := by
      exact_mod_cast hb2
    refine ⟨hb3, by omega, ?_⟩
    intro heq
    apply le_antisymm _ hge
    rw [← heq]
    exact hy1
  · intro hexact
    rw [hconv, hexact, hcomm]
  · intro sampleBuffer i s hsb
    show s.playbackAudioBuffer ++ [sampleOf (sampleBuffer i)] = _
    rw [hsb]
  · have e1 : roundFloat32 ((1 : ℚ) * 32767) = 32767 := by
      have h := roundFloat32_intCast 32767 (by norm_num)
      push_cast at h
      rw [one_mul]
      exact h
    have e2 : roundFloat32 ((-1 : ℚ) * 32767) = -32767 := by
      have h := roundFloat32_intCast (-32767) (by norm_num)
      push_cast at h
      have hm : (-1 : ℚ) * 32767 = -32767 := by norm_num
      rw [hm]
      exact h
    have e3 : roundFloat32 ((0 : ℚ) * 32767) = 0 := by
      have h := roundFloat32_intCast 0 (by norm_num)
      push_cast at h
      rw [zero_mul]
      exact h
    refine ⟨?_, ?_, ?_⟩
    · unfold sampleOf
      rw [e1]
      norm_num [toInt16, truncQ, wrapInt16]
    · unfold sampleOf
      rw [e2]
      have hceil : ⌈(-32767 : ℚ)⌉ = -32767 := by
        rw [Int.ceil_eq_iff]
        norm_num
      norm_num [toInt16, truncQ, wrapInt16, hceil]
    · unfold sampleOf
      rw [e3]
      norm_num [toInt16, truncQ, wrapInt16]

/-- Witness of C8 (amended): the pressures 1, -1, `0x1.0002p-15` and 1/2. -/
theorem C8_sample_conversion_witness :
    ((-1 : ℚ) ≤ 1 ∧ (1 : ℚ) ≤ 1) ∧
    sampleOf 1 = truncQ (roundFloat32 (1 * 32767)) ∧
    (-32767 ≤ sampleOf (-1) ∧ sampleOf (-1) ≤ 32767) ∧
    (truncQ (32767 * roundingPressure) ≤ sampleOf roundingPressure ∧
      sampleOf roundingPressure ≤ truncQ (32767 * roundingPressure) + 1) ∧
    sampleOf (1 / 2) = 16383 := by
  have hr : -1 ≤ roundingPressure ∧ roundingPressure ≤ 1 := by
    unfold roundingPressure
    constructor <;> norm_num
  have h3 := (C8_sample_conversion roundingPressure hr.1 hr.2).2.1 (by
    unfold roundingPressure
    norm_num)
  refine ⟨⟨by norm_num, by norm_num⟩, (C8_sample_conversion 1 (by norm_num) (by norm_num)).1,
    (C8_sample_conversion (-1) (by norm_num) (by norm_num)).2.2.2.2.1, ⟨h3.1, h3.2.1⟩, ?_⟩
  have hexact : roundFloat32 ((1 / 2 : ℚ) * 32767) = 1 / 2 * 32767 := by
    rw [roundFloat32_eq _ 10 16776704 (by norm_num) (by norm_num [abs_of_pos])
      (by norm_num [abs_of_pos]) (by norm_num) (by norm_num)]
    norm_num
  rw [(C8_sample_conversion (1 / 2) (by norm_num) (by norm_num)).2.2.2.1 hexact]
  norm_num [truncQ, Int.floor_eq_iff]

/-! ## C9: the audio pass reads the other layer -/

/-- C9. On a `W` by `H` domain (positive sizes, `2 * W` and `H + 2` fitting an `int`,
`ceiling = 2`) with the listener cell `(lx, ly)`, `0 ≤ lx < W` and `0 ≤ ly < H`: over any
number of batches, tick `n` (counted across batches) sets `state` to `2q` and draws quad
`q = n mod 2`, then sets `state` to `2q + 1` and draws the audio quad; quad `q` covers the
texture columns `q * W .. (q + 1) * W`; for `q` in `{0, 1}` the coordinate
`listenerFragCoord[q]` is `((lx + 1/2 + (1 - q) * W) / (2 * W), (ly + 1/2) / (H + 2))`, the
centre of the texel in column `lx + (1 - q) * W` and row `ly`, which lies in the columns and
rows of quad `1 - q` and not in the columns of quad `q`; and the coordinate at which the
audio pass of tick `n` samples, with the state that is in force when it is drawn, is
`listenerFragCoord[n mod 2]`: the audio sample of a tick is taken from the quad that the
update pass of that tick does not draw. -/
theorem C9_read_other_layer (cfg : Config) (inputs : Nat → BatchInput) (k : Nat)
    (hc : cfg.ceiling = 2)
    (hW : 0 < cfg.domainSize.1 ∧ cfg.domainSize.1 * 2 ≤ INT_MAX)
    (hH : 0 < cfg.domainSize.2 ∧ cfg.domainSize.2 + 2 ≤ INT_MAX)
    (hlx : 0 ≤ cfg.listenerPosition.1 ∧ cfg.listenerPosition.1 < cfg.domainSize.1)
    (hly : 0 ≤ cfg.listenerPosition.2 ∧ cfg.listenerPosition.2 < cfg.domainSize.2) :
    stateAndDrawOps (batchesOps cfg inputs k 0 initialState) =
        (List.range (k * forLoopCount cfg.buffer_size)).flatMap (fun (n : Nat) =>
          [GLOp.uniformState (2 * ((n % 2 : Nat) : Int)),
           GLOp.drawArrays (verticesFirst ((n % 2 : Nat) : Int)) 4,
           GLOp.uniformState (2 * ((n % 2 : Nat) : Int) + 1),
           GLOp.drawArrays 8 4])
    ∧ (∀ q : Int, q = 0 ∨ q = 1 →
        quadLeft cfg q = (q : ℚ) * (cfg.domainSize.1 : ℚ) ∧
        quadRight cfg q = ((q : ℚ) + 1) * (cfg.domainSize.1 : ℚ))
    ∧ (∀ q : Int, q = 0 ∨ q = 1 →
        listenerFragCoord cfg q =
          (((cfg.listenerPosition.1 : ℚ) + 1 / 2 + (1 - (q : ℚ)) * (cfg.domainSize.1 : ℚ))
              / (2 * (cfg.domainSize.1 : ℚ)),
           ((cfg.listenerPosition.2 : ℚ) + 1 / 2) / ((cfg.domainSize.2 : ℚ) + 2))
        ∧ listenerFragCoord cfg q =
            texelCentre cfg (cfg.listenerPosition.1 + (1 - q) * cfg.domainSize.1)
              cfg.listenerPosition.2
        ∧ texelOf cfg (listenerFragCoord cfg q) =
            (cfg.listenerPosition.1 + (1 - q) * cfg.domainSize.1, cfg.listenerPosition.2)
        ∧ (quadLeft cfg (1 - q) ≤ (((texelOf cfg (listenerFragCoord cfg q)).1 : Int) : ℚ) ∧
            (((texelOf cfg (listenerFragCoord cfg q)).1 : Int) : ℚ) + 1 ≤ quadRight cfg (1 - q))
        ∧ (quadBottom cfg (1 - q) ≤ (((texelOf cfg (listenerFragCoord cfg q)).2 : Int) : ℚ) ∧
            (((texelOf cfg (listenerFragCoord cfg q)).2 : Int) : ℚ) + 1 ≤ quadTop cfg (1 - q))
        ∧ ¬ (quadLeft cfg q ≤ (((texelOf cfg (listenerFragCoord cfg q)).1 : Int) : ℚ) ∧
            (((texelOf cfg (listenerFragCoord cfg q)).1 : Int) : ℚ) + 1 ≤ quadRight cfg q))
    ∧ audioReadCoords cfg (batchesOps cfg inputs k 0 initialState) =
        (List.range (k * forLoopCount cfg.buffer_size)).map (fun (n : Nat) =>
          some (listenerFragCoord cfg ((n % 2 : Nat) : Int)))
    ∧ (∀ n : Nat, ∀ c : ℚ × ℚ,
        audioReadCoord cfg (2 * ((n % 2 : Nat) : Int) + 1) = some c →
          c = listenerFragCoord cfg ((n % 2 : Nat) : Int)
          ∧ (quadLeft cfg (1 - ((n % 2 : Nat) : Int)) ≤ (((texelOf cfg c).1 : Int) : ℚ) ∧
              (((texelOf cfg c).1 : Int) : ℚ) + 1 ≤ quadRight cfg (1 - ((n % 2 : Nat) : Int)))
          ∧ ¬ (quadLeft cfg ((n % 2 : Nat) : Int) ≤ (((texelOf cfg c).1 : Int) : ℚ) ∧
              (((texelOf cfg c).1 : Int) : ℚ) + 1 ≤ quadRight cfg ((n % 2 : Nat) : Int))) := by
  obtain ⟨hl0, hr0, hl1, hr1⟩ := quadLeft_quadRight cfg hW.1 hW.2
  have hlxq0 : (0 : ℚ) ≤ (cfg.listenerPosition.1 : ℚ) := by exact_mod_cast hlx.1
  have hlxq1 : (cfg.listenerPosition.1 : ℚ) + 1 ≤ (cfg.domainSize.1 : ℚ) := by
    have : cfg.listenerPosition.1 + 1 ≤ cfg.domainSize.1 := by omega
    exact_mod_cast this
  have hmain : ∀ q : Int, q = 0 ∨ q = 1 →
      (quadLeft cfg (1 - q) ≤ (((texelOf cfg (listenerFragCoord cfg q)).1 : Int) : ℚ) ∧
        (((texelOf cfg (listenerFragCoord cfg q)).1 : Int) : ℚ) + 1 ≤ quadRight cfg (1 - q))
      ∧ ¬ (quadLeft cfg q ≤ (((texelOf cfg (listenerFragCoord cfg q)).1 : Int) : ℚ) ∧
        (((texelOf cfg (listenerFragCoord cfg q)).1 : Int) : ℚ) + 1 ≤ quadRight cfg q) := by
    intro q hq
    obtain ⟨_, _, h3⟩ := listener_texel cfg hc hW hH q hq
    rw [h3]
    rcases hq with h | h
    · rw [h]
      show (quadLeft cfg 1 ≤ _ ∧ _ ≤ quadRight cfg 1) ∧ ¬ (quadLeft cfg 0 ≤ _ ∧ _ ≤ quadRight cfg 0)
      rw [hl0, hr0, hl1, hr1]
      push_cast
      refine ⟨⟨by linarith, by linarith⟩, fun hcon => ?_⟩
      linarith [hcon.2]
    · rw [h]
      show (quadLeft cfg 0 ≤ _ ∧ _ ≤ quadRight cfg 0) ∧ ¬ (quadLeft cfg 1 ≤ _ ∧ _ ≤ quadRight cfg 1)
      rw [hl0, hr0, hl1, hr1]
      push_cast
      refine ⟨⟨by linarith, by linarith⟩, fun hcon => ?_⟩
      linarith [hcon.1]
  refine ⟨stateAndDrawOps_batchesOps cfg inputs k 0 initialState rfl, ?_, ?_,
    audioReadCoords_batchesOps cfg inputs k, ?_⟩
  rotate_right
  · intro n c hcoord
    have hq : ((n % 2 : Nat) : Int) = 0 ∨ ((n % 2 : Nat) : Int) = 1 := by omega
    rw [audioReadCoord_audio_state cfg _ hq] at hcoord
    have hc2 : listenerFragCoord cfg ((n % 2 : Nat) : Int) = c := Option.some.inj hcoord
    rw [← hc2]
    exact ⟨rfl, hmain _ hq⟩
  · intro q hq
    rcases hq with h | h
    · rw [h, hl0, hr0]
      norm_num
    · rw [h, hl1, hr1]
      norm_num
  · intro q hq
    obtain ⟨h1, h2, h3⟩ := listener_texel cfg hc hW hH q hq
    have hrow := quadBottom_quadTop cfg hc hH (1 - q) (by omega)
    have hlyq0 : (0 : ℚ) ≤ (cfg.listenerPosition.2 : ℚ) := by exact_mod_cast hly.1
    have hlyq1 : (cfg.listenerPosition.2 : ℚ) + 1 ≤ (cfg.domainSize.2 : ℚ) := by
      have : cfg.listenerPosition.2 + 1 ≤ cfg.domainSize.2 := by omega
      exact_mod_cast this
    refine ⟨h1, h2, h3, ?_, ?_, ?_⟩
    · rw [h3]
      rcases hq with h | h
      · rw [h]
        show quadLeft cfg 1 ≤ _ ∧ _ ≤ quadRight cfg 1
        rw [hl1, hr1]
        push_cast
        constructor <;> linarith
      · rw [h]
        show quadLeft cfg 0 ≤ _ ∧ _ ≤ quadRight cfg 0
        rw [hl0, hr0]
        push_cast
        constructor <;> linarith
    · rw [h3, hrow.1, hrow.2]
      exact ⟨hlyq0, hlyq1⟩
    · rw [h3]
      rcases hq with h | h
      · rw [h, hl0, hr0]
        push_cast
        intro hcon
        linarith [hcon.2]
      · rw [h, hl1, hr1]
        push_cast
        intro hcon
        linarith [hcon.1]

/-- Witness of C9: the settings of the source (80 by 80 domain, listener cell (5, 5)), two
batches of four ticks each with the cadence settings. -/
theorem C9_read_other_layer_witness :
    (cadenceConfig.ceiling = 2 ∧
      (0 < cadenceConfig.domainSize.1 ∧ cadenceConfig.domainSize.1 * 2 ≤ INT_MAX) ∧
      (0 ≤ cadenceConfig.listenerPosition.1 ∧
        cadenceConfig.listenerPosition.1 < cadenceConfig.domainSize.1)) ∧
    texelOf cadenceConfig (listenerFragCoord cadenceConfig 0) = (85, 5) ∧
    texelOf cadenceConfig (listenerFragCoord cadenceConfig 1) = (5, 5) ∧
    (quadLeft cadenceConfig 0 = 0 ∧ quadRight cadenceConfig 0 = 80) ∧
    (quadLeft cadenceConfig 1 = 80 ∧ quadRight cadenceConfig 1 = 160) ∧
    stateAndDrawOps (batchesOps cadenceConfig quietInputs 1 0 initialState) =
      [GLOp.uniformState 0, GLOp.drawArrays 0 4, GLOp.uniformState 1, GLOp.drawArrays 8 4,
       GLOp.uniformState 2, GLOp.drawArrays 4 4, GLOp.uniformState 3, GLOp.drawArrays 8 4,
       GLOp.uniformState 0, GLOp.drawArrays 0 4, GLOp.uniformState 1, GLOp.drawArrays 8 4,
       GLOp.uniformState 2, GLOp.drawArrays 4 4, GLOp.uniformState 3, GLOp.drawArrays 8 4] ∧
    audioReadCoords cadenceConfig (batchesOps cadenceConfig quietInputs 1 0 initialState) =
      [some (listenerFragCoord cadenceConfig 0), some (listenerFragCoord cadenceConfig 1),
       some (listenerFragCoord cadenceConfig 0), some (listenerFragCoord cadenceConfig 1)] := by
  have hB : forLoopCount cadenceConfig.buffer_size = 4 := by decide
  have h := C9_read_other_layer cadenceConfig quietInputs 1 rfl (by decide) (by decide)
    (by decide) (by decide)
  have hq0 := h.2.1 0 (Or.inl rfl)
  have hq1 := h.2.1 1 (Or.inr rfl)
  refine ⟨⟨rfl, by decide, by decide⟩, (h.2.2.1 0 (Or.inl rfl)).2.2.1,
    (h.2.2.1 1 (Or.inr rfl)).2.2.1, ?_, ?_, ?_, ?_⟩
  · rw [hq0.1, hq0.2]
    norm_num [cadenceConfig]
  · rw [hq1.1, hq1.2]
    norm_num [cadenceConfig]
  · rw [h.1, hB]
    simp [List.range_succ, verticesFirst]
  · rw [h.2.2.2.1, hB]
    simp [List.range_succ]

/-! ## C10: where the barrier is issued -/

/-- C10, counterexample. The settings of the source, one quiet batch: the operations are
update, audio read, barrier, repeated 128 times, so the first audio read pass follows the
first update pass with no barrier in between, and the specified ordering does not hold. -/
theorem C10_barrier_order_counterexample :
    passKinds (batchesOps defaultConfig quietInputs 1 0 initialState) =
      (List.replicate 128 [PassKind.update, PassKind.audioRead, PassKind.barrier]).flatten ∧
    (passKinds (batchesOps defaultConfig quietInputs 1 0 initialState)).take 3 =
      [PassKind.update, PassKind.audioRead, PassKind.barrier] ∧
    barrierBetweenUpdateAndRead false
      (passKinds (batchesOps defaultConfig quietInputs 1 0 initialState)) = false := by
  have h := passKinds_batchesOps defaultConfig quietInputs 1 0 initialState rfl
  have hB : 1 * forLoopCount defaultConfig.buffer_size = 127 + 1 := by decide
  rw [hB] at h
  rw [h]
  exact ⟨rfl, rfl, rfl⟩

/-- C10, amended. In the sequence of operations issued by the tick loop, over any number of
batches, the update pass, the audio read pass and the barrier of a tick are issued in this
order, tick after tick: the barrier of a tick comes after that tick's audio read pass and
before the update pass of the next tick, and none is issued between a tick's update pass and
its audio read pass. -/
theorem C10_barrier_order (cfg : Config) (inputs : Nat → BatchInput) (k : Nat) :
    passKinds (batchesOps cfg inputs k 0 initialState) =
      (List.replicate (k * forLoopCount cfg.buffer_size)
        [PassKind.update, PassKind.audioRead, PassKind.barrier]).flatten :=
  passKinds_batchesOps cfg inputs k 0 initialState rfl

/-! ## Lemmas: the capture cursor -/

theorem truncQ_natCast (n : Nat) : truncQ (n : ℚ) = (n : Int) := by
  unfold truncQ
  rw [if_pos (Nat.cast_nonneg n)]
  exact Int.floor_natCast n

theorem roundFloat32_natCast (n : Nat) (hn : n < 16777216) : roundFloat32 (n : ℚ) = (n : ℚ) := by
  have h := roundFloat32_intCast (n : Int) (by
    rw [abs_of_nonneg (by positivity)]
    exact_mod_cast hn)
  exact_mod_cast h

theorem tick_wrCoord (cfg : Config) (s : State) :
    (tick cfg s).wrCoord =
      (if roundFloat32 ((Int.tmod (floatToInt (roundFloat32 (s.wrCoord.2 + 1))) 4 : Int) : ℚ) = 0
        then roundFloat32 (s.wrCoord.1 + deltaCoordX cfg) else s.wrCoord.1,
       roundFloat32 ((Int.tmod (floatToInt (roundFloat32 (s.wrCoord.2 + 1))) 4 : Int) : ℚ)) := by
  unfold tick
  dsimp only
  split_ifs <;> rfl

/-- The channel after `int(wrCoord[1] + 1) % 4`: the small integers involved are `float`
values, so no rounding takes place. -/
theorem next_channel (c : Nat) (hc : c < 4) :
    roundFloat32 ((Int.tmod (floatToInt (roundFloat32 (((c : Nat) : ℚ) + 1))) 4 : Int) : ℚ)
      = (((c + 1) % 4 : Nat) : ℚ) := by
  have h1 : ((c : Nat) : ℚ) + 1 = (((c + 1 : Nat)) : ℚ) := by push_cast; ring
  have h2 : Int.tmod (floatToInt (((c + 1 : Nat)) : ℚ)) 4 = (((c + 1) % 4 : Nat) : Int) := by
    unfold floatToInt
    rw [truncQ_natCast]
    interval_cases c <;> decide
  rw [h1, roundFloat32_natCast (c + 1) (by omega), h2, Int.cast_natCast,
    roundFloat32_natCast ((c + 1) % 4) (by omega)]

theorem ticks_wrCoord (cfg : Config) (s : State) (h : s.wrCoord = (0, 0)) (k : Nat) :
    (ticks cfg k s).wrCoord = (cursorX cfg (k / 4), ((k % 4 : Nat) : ℚ)) := by
  induction k with
  | zero =>
    show s.wrCoord = _
    rw [h]
    simp [cursorX]
  | succ k ih =>
    rw [ticks_succ_right, tick_wrCoord, ih]
    dsimp only
    rw [next_channel (k % 4) (Nat.mod_lt k (by decide))]
    have hmod : (k % 4 + 1) % 4 = (k + 1) % 4 := by omega
    rw [hmod]
    by_cases hz : (k + 1) % 4 = 0
    · have hdiv : (k + 1) / 4 = k / 4 + 1 := by omega
      rw [hz, hdiv]
      simp [cursorX]
    · have hdiv : (k + 1) / 4 = k / 4 := by omega
      have hne : ¬ (((k + 1) % 4 : Nat) : ℚ) = 0 := by
        intro h0
        apply hz
        exact_mod_cast h0
      rw [if_neg hne, hdiv]

theorem appendSamples_wrCoord (sampleBuffer : Nat → ℚ) (n i : Nat) (s : State) :
    (appendSamples sampleBuffer n i s).wrCoord = s.wrCoord := by
  induction n generalizing i s with
  | zero => rfl
  | succ n ih =>
    show (appendSamples sampleBuffer n (i + 1) (appendSample sampleBuffer i s)).wrCoord = _
    rw [ih]
    rfl

theorem realTimeFlush_wrCoord (cfg : Config) (clk : Int) (s : State) :
    (realTimeFlush cfg clk s).wrCoord = s.wrCoord := by
  unfold realTimeFlush
  split_ifs <;> rfl

theorem mouseButtonCallback_wrCoord (cfg : Config) (e : MouseEvent) (s : State) :
    (mouseButtonCallback cfg e s).wrCoord = s.wrCoord := by
  unfold mouseButtonCallback
  split_ifs <;> rfl

theorem pollEvents_wrCoord (cfg : Config) (events : List MouseEvent) (s : State) :
    (pollEvents cfg events s).wrCoord = s.wrCoord := by
  induction events generalizing s with
  | nil => rfl
  | cons e es ih =>
    show (pollEvents cfg es (mouseButtonCallback cfg e s)).wrCoord = _
    rw [ih, mouseButtonCallback_wrCoord]

theorem batchIteration_wrCoord (cfg : Config) (inp : BatchInput) (s : State) :
    (batchIteration cfg inp s).wrCoord = (0, 0) := by
  unfold batchIteration batchFill
  rw [pollEvents_wrCoord, realTimeFlush_wrCoord, appendSamples_wrCoord]

theorem batches_wrCoord (cfg : Config) (inputs : Nat → BatchInput) (k i : Nat) (s : State)
    (h : s.wrCoord = (0, 0)) : (batches cfg inputs k i s).wrCoord = (0, 0) := by
  induction k generalizing i s with
  | zero => exact h
  | succ k ih => exact ih (i + 1) _ (batchIteration_wrCoord cfg (inputs i) s)

theorem wrCoordUniforms_batchIterationOps (cfg : Config) (inp : BatchInput) (s : State)
    (h : s.wrCoord = (0, 0)) :
    wrCoordUniforms (batchIterationOps cfg inp s) =
      (List.range (forLoopCount cfg.buffer_size)).map
        (fun (t : Nat) => (cursorX cfg (t / 4), ((t % 4 : Nat) : ℚ))) := by
  unfold wrCoordUniforms
  rw [filterMap_batchIterationOps, filterMap_ticksOps, ← flatMap_singleton_eq_map]
  · apply List.flatMap_congr
    intro t _
    rw [← ticks_wrCoord cfg s h t]
    rfl
  · intro op hop
    cases op <;> first | rfl | cases hop

/-- The `float` nearest to 1/160, the texel width of the default texture. -/
theorem deltaCoordX_of_width (cfg : Config) (h : textureWidth cfg = 160) :
    deltaCoordX cfg = 13421773 / 2147483648 := by
  unfold deltaCoordX
  rw [h]
  have h160 : roundFloat32 ((160 : Int) : ℚ) = ((160 : Int) : ℚ) :=
    roundFloat32_intCast 160 (by norm_num)
  rw [h160]
  rw [roundFloat64_eq _ 60 7205759403792794 (by norm_num) (by norm_num [abs_of_pos])
    (by norm_num [abs_of_pos]) (by norm_num) (by norm_num)]
  rw [roundFloat32_eq _ 31 13421773 (by norm_num) (by norm_num [abs_of_pos])
    (by norm_num [abs_of_pos]) (by norm_num) (by norm_num)]
  norm_num

/-- One addition `wrCoord[0] += deltaCoordX`, evaluated. -/
theorem cursorX_step (cfg : Config) (d x : ℚ) (m k : Nat) (n : Int) (v : ℚ)
    (hd : deltaCoordX cfg = d) (hx : cursorX cfg m = x) (hk : k ≤ 149)
    (hlo : (8388608 : ℚ) ≤ |x + d| * 2 ^ k) (hhi : |x + d| * 2 ^ k < 16777216)
    (h1 : (n : ℚ) - 1 / 2 < (x + d) * 2 ^ k) (h2 : (x + d) * 2 ^ k < (n : ℚ) + 1 / 2)
    (hv : (n : ℚ) / 2 ^ k = v) : cursorX cfg (m + 1) = v := by
  show roundFloat32 (cursorX cfg m + deltaCoordX cfg) = v
  rw [hx, hd, roundFloat32_eq _ k n hk hlo hhi h1 h2, hv]

/-- The values of `wrCoord[0]` during a batch of at most 128 ticks on a texture 160 texels
wide, and what they show: each lies within half a texel of the texel edge `m / 160`, from
the 23rd on below it, and they increase. -/
theorem cursorX_width160 (cfg : Config) (h : textureWidth cfg = 160) :
    (List.range 33).map (cursorX cfg) =
      [0, 13421773 / 2147483648, 13421773 / 1073741824, 5033165 / 268435456, 13421773 /
       536870912, 1 / 32, 5033165 / 134217728, 2936013 / 67108864, 6710887 / 134217728, 1887437
       / 33554432, 8388609 / 134217728, 4613735 / 67108864, 10066331 / 134217728, 1363149 /
       16777216, 11744053 / 134217728, 6291457 / 67108864, 13421775 / 134217728, 3565159 /
       33554432, 15099497 / 134217728, 7969179 / 67108864, 8388609 / 67108864, 8808039 /
       67108864, 9227469 / 67108864, 9646899 / 67108864, 10066329 / 67108864, 10485759 /
       67108864, 10905189 / 67108864, 11324619 / 67108864, 11744049 / 67108864, 12163479 /
       67108864, 12582909 / 67108864, 13002339 / 67108864, 13421769 / 67108864]
    ∧ (∀ m : Nat, m ≤ 32 → |cursorX cfg m - (m : ℚ) / 160| < 1 / 320)
    ∧ (∀ m : Nat, m ≤ 22 → (m : ℚ) / 160 ≤ cursorX cfg m)
    ∧ (∀ m : Nat, 23 ≤ m → m ≤ 32 →
        ((m : ℚ) - 1) / 160 < cursorX cfg m ∧ cursorX cfg m < (m : ℚ) / 160)
    ∧ (∀ m : Nat, m < 32 → cursorX cfg m < cursorX cfg (m + 1)) := by
  have hd := deltaCoordX_of_width cfg h
  have h0 : cursorX cfg 0 = 0 := rfl
  have h1 : cursorX cfg 1 = 13421773 / 2147483648 :=
    cursorX_step cfg _ _ 0 31 13421773 _ hd h0 (by norm_num) (by norm_num [abs_of_pos])
      (by norm_num [abs_of_pos]) (by norm_num) (by norm_num) (by norm_num)
  have h2 : cursorX cfg 2 = 13421773 / 1073741824 :=
    cursorX_step cfg _ _ 1 30 13421773 _ hd h1 (by norm_num) (by norm_num [abs_of_pos])
      (by norm_num [abs_of_pos]) (by norm_num) (by norm_num) (by norm_num)
  have h3 : cursorX cfg 3 = 5033165 / 268435456 :=
    cursorX_step cfg _ _ 2 29 10066330 _ hd h2 (by norm_num) (by norm_num [abs_of_pos])
      (by norm_num [abs_of_pos]) (by norm_num) (by norm_num) (by norm_num)
  have h4 : cursorX cfg 4 = 13421773 / 536870912 :=
    cursorX_step cfg _ _ 3 29 13421773 _ hd h3 (by norm_num) (by norm_num [abs_of_pos])
      (by norm_num [abs_of_pos]) (by norm_num) (by norm_num) (by norm_num)
  have h5 : cursorX cfg 5 = 1 / 32 :=
    cursorX_step cfg _ _ 4 28 8388608 _ hd h4 (by norm_num) (by norm_num [abs_of_pos])
      (by norm_num [abs_of_pos]) (by norm_num) (by norm_num) (by norm_num)
  have h6 : cursorX cfg 6 = 5033165 / 134217728 :=
    cursorX_step cfg _ _ 5 28 10066330 _ hd h5 (by norm_num) (by norm_num [abs_of_pos])
      (by norm_num [abs_of_pos]) (by norm_num) (by norm_num) (by norm_num)
  have h7 : cursorX cfg 7 = 2936013 / 67108864 :=
    cursorX_step cfg _ _ 6 28 11744052 _ hd h6 (by norm_num) (by norm_num [abs_of_pos])
      (by norm_num [abs_of_pos]) (by norm_num) (by norm_num) (by norm_num)
  have h8 : cursorX cfg 8 = 6710887 / 134217728 :=
    cursorX_step cfg _ _ 7 28 13421774 _ hd h7 (by norm_num) (by norm_num [abs_of_pos])
      (by norm_num [abs_of_pos]) (by norm_num) (by norm_num) (by norm_num)
  have h9 : cursorX cfg 9 = 1887437 / 33554432 :=
    cursorX_step cfg _ _ 8 28 15099496 _ hd h8 (by norm_num) (by norm_num [abs_of_pos])
      (by norm_num [abs_of_pos]) (by norm_num) (by norm_num) (by norm_num)
  have h10 : cursorX cfg 10 = 8388609 / 134217728 :=
    cursorX_step cfg _ _ 9 27 8388609 _ hd h9 (by norm_num) (by norm_num [abs_of_pos])
      (by norm_num [abs_of_pos]) (by norm_num) (by norm_num) (by norm_num)
  have h11 : cursorX cfg 11 = 4613735 / 67108864 :=
    cursorX_step cfg _ _ 10 27 9227470 _ hd h10 (by norm_num) (by norm_num [abs_of_pos])
      (by norm_num [abs_of_pos]) (by norm_num) (by norm_num) (by norm_num)
  have h12 : cursorX cfg 12 = 10066331 / 134217728 :=
    cursorX_step cfg _ _ 11 27 10066331 _ hd h11 (by norm_num) (by norm_num [abs_of_pos])
      (by norm_num [abs_of_pos]) (by norm_num) (by norm_num) (by norm_num)
  have h13 : cursorX cfg 13 = 1363149 / 16777216 :=
    cursorX_step cfg _ _ 12 27 10905192 _ hd h12 (by norm_num) (by norm_num [abs_of_pos])
      (by norm_num [abs_of_pos]) (by norm_num) (by norm_num) (by norm_num)
  have h14 : cursorX cfg 14 = 11744053 / 134217728 :=
    cursorX_step cfg _ _ 13 27 11744053 _ hd h13 (by norm_num) (by norm_num [abs_of_pos])
      (by norm_num [abs_of_pos]) (by norm_num) (by norm_num) (by norm_num)
  have h15 : cursorX cfg 15 = 6291457 / 67108864 :=
    cursorX_step cfg _ _ 14 27 12582914 _ hd h14 (by norm_num) (by norm_num [abs_of_pos])
      (by norm_num [abs_of_pos]) (by norm_num) (by norm_num) (by norm_num)
  have h16 : cursorX cfg 16 = 13421775 / 134217728 :=
    cursorX_step cfg _ _ 15 27 13421775 _ hd h15 (by norm_num) (by norm_num [abs_of_pos])
      (by norm_num [abs_of_pos]) (by norm_num) (by norm_num) (by norm_num)
  have h17 : cursorX cfg 17 = 3565159 / 33554432 :=
    cursorX_step cfg _ _ 16 27 14260636 _ hd h16 (by norm_num) (by norm_num [abs_of_pos])
      (by norm_num [abs_of_pos]) (by norm_num) (by norm_num) (by norm_num)
  have h18 : cursorX cfg 18 = 15099497 / 134217728 :=
    cursorX_step cfg _ _ 17 27 15099497 _ hd h17 (by norm_num) (by norm_num [abs_of_pos])
      (by norm_num [abs_of_pos]) (by norm_num) (by norm_num) (by norm_num)
  have h19 : cursorX cfg 19 = 7969179 / 67108864 :=
    cursorX_step cfg _ _ 18 27 15938358 _ hd h18 (by norm_num) (by norm_num [abs_of_pos])
      (by norm_num [abs_of_pos]) (by norm_num) (by norm_num) (by norm_num)
  have h20 : cursorX cfg 20 = 8388609 / 67108864 :=
    cursorX_step cfg _ _ 19 26 8388609 _ hd h19 (by norm_num) (by norm_num [abs_of_pos])
      (by norm_num [abs_of_pos]) (by norm_num) (by norm_num) (by norm_num)
  have h21 : cursorX cfg 21 = 8808039 / 67108864 :=
    cursorX_step cfg _ _ 20 26 8808039 _ hd h20 (by norm_num) (by norm_num [abs_of_pos])
      (by norm_num [abs_of_pos]) (by norm_num) (by norm_num) (by norm_num)
  have h22 : cursorX cfg 22 = 9227469 / 67108864 :=
    cursorX_step cfg _ _ 21 26 9227469 _ hd h21 (by norm_num) (by norm_num [abs_of_pos])
      (by norm_num [abs_of_pos]) (by norm_num) (by norm_num) (by norm_num)
  have h23 : cursorX cfg 23 = 9646899 / 67108864 :=
    cursorX_step cfg _ _ 22 26 9646899 _ hd h22 (by norm_num) (by norm_num [abs_of_pos])
      (by norm_num [abs_of_pos]) (by norm_num) (by norm_num) (by norm_num)
  have h24 : cursorX cfg 24 = 10066329 / 67108864 :=
    cursorX_step cfg _ _ 23 26 10066329 _ hd h23 (by norm_num) (by norm_num [abs_of_pos])
      (by norm_num [abs_of_pos]) (by norm_num) (by norm_num) (by norm_num)
  have h25 : cursorX cfg 25 = 10485759 / 67108864 :=
    cursorX_step cfg _ _ 24 26 10485759 _ hd h24 (by norm_num) (by norm_num [abs_of_pos])
      (by norm_num [abs_of_pos]) (by norm_num) (by norm_num) (by norm_num)
  have h26 : cursorX cfg 26 = 10905189 / 67108864 :=
    cursorX_step cfg _ _ 25 26 10905189 _ hd h25 (by norm_num) (by norm_num [abs_of_pos])
      (by norm_num [abs_of_pos]) (by norm_num) (by norm_num) (by norm_num)
  have h27 : cursorX cfg 27 = 11324619 / 67108864 :=
    cursorX_step cfg _ _ 26 26 11324619 _ hd h26 (by norm_num) (by norm_num [abs_of_pos])
      (by norm_num [abs_of_pos]) (by norm_num) (by norm_num) (by norm_num)
  have h28 : cursorX cfg 28 = 11744049 / 67108864 :=
    cursorX_step cfg _ _ 27 26 11744049 _ hd h27 (by norm_num) (by norm_num [abs_of_pos])
      (by norm_num [abs_of_pos]) (by norm_num) (by norm_num) (by norm_num)
  have h29 : cursorX cfg 29 = 12163479 / 67108864 :=
    cursorX_step cfg _ _ 28 26 12163479 _ hd h28 (by norm_num) (by norm_num [abs_of_pos])
      (by norm_num [abs_of_pos]) (by norm_num) (by norm_num) (by norm_num)
  have h30 : cursorX cfg 30 = 12582909 / 67108864 :=
    cursorX_step cfg _ _ 29 26 12582909 _ hd h29 (by norm_num) (by norm_num [abs_of_pos])
      (by norm_num [abs_of_pos]) (by norm_num) (by norm_num) (by norm_num)
  have h31 : cursorX cfg 31 = 13002339 / 67108864 :=
    cursorX_step cfg _ _ 30 26 13002339 _ hd h30 (by norm_num) (by norm_num [abs_of_pos])
      (by norm_num [abs_of_pos]) (by norm_num) (by norm_num) (by norm_num)
  have h32 : cursorX cfg 32 = 13421769 / 67108864 :=
    cursorX_step cfg _ _ 31 26 13421769 _ hd h31 (by norm_num) (by norm_num [abs_of_pos])
      (by norm_num [abs_of_pos]) (by norm_num) (by norm_num) (by norm_num)
  refine ⟨?_, ?_, ?_, ?_, ?_⟩
  · simp only [List.range_succ, List.range_zero, List.map_append, List.map_cons, List.map_nil,
      List.nil_append, List.cons_append, List.singleton_append,
      h0, h1, h2, h3, h4, h5, h6, h7, h8, h9, h10, h11, h12, h13, h14, h15, h16, h17, h18, h19,
      h20, h21, h22, h23, h24, h25, h26, h27, h28, h29, h30, h31, h32]
  · intro m hm
    rw [abs_lt]
    interval_cases m <;>
      simp only [h0, h1, h2, h3, h4, h5, h6, h7, h8, h9, h10, h11, h12, h13, h14, h15, h16, h17, h18, h19,
      h20, h21, h22, h23, h24, h25, h26, h27, h28, h29, h30, h31, h32] <;>
      constructor <;> norm_num
  · intro m hm
    interval_cases m <;>
      simp only [h0, h1, h2, h3, h4, h5, h6, h7, h8, h9, h10, h11, h12, h13, h14, h15, h16, h17, h18, h19,
      h20, h21, h22, h23, h24, h25, h26, h27, h28, h29, h30, h31, h32] <;>
      norm_num
  · intro m hm1 hm2
    interval_cases m <;>
      simp only [h0, h1, h2, h3, h4, h5, h6, h7, h8, h9, h10, h11, h12, h13, h14, h15, h16, h17, h18, h19,
      h20, h21, h22, h23, h24, h25, h26, h27, h28, h29, h30, h31, h32] <;>
      constructor <;> norm_num
  · intro m hm
    interval_cases m <;>
      simp only [h0, h1, h2, h3, h4, h5, h6, h7, h8, h9, h10, h11, h12, h13, h14, h15, h16, h17, h18, h19,
      h20, h21, h22, h23, h24, h25, h26, h27, h28, h29, h30, h31, h32] <;>
      norm_num

/-- Different indices up to 32 have different cursor values on a texture 160 texels wide. -/
theorem cursorX_injective_width160 (cfg : Config) (h : textureWidth cfg = 160) (a b : Nat)
    (ha : a ≤ 32) (hb : b ≤ 32) (hab : cursorX cfg a = cursorX cfg b) : a = b := by
  have hstep := (cursorX_width160 cfg h).2.2.2.2
  have hlt : ∀ n : Nat, ∀ m : Nat, m < n → n ≤ 32 → cursorX cfg m < cursorX cfg n := by
    intro n
    induction n with
    | zero =>
      intro m hm _
      omega
    | succ n ih =>
      intro m hm hn
      by_cases hmn : m = n
      · rw [hmn]
        exact hstep n (by omega)
      · exact lt_trans (ih m (by omega) (by omega)) (hstep n (by omega))
  by_contra hne
  rcases Nat.lt_or_gt_of_ne hne with hl | hg
  · exact absurd hab (ne_of_lt (hlt b a hl hb))
  · exact absurd hab (ne_of_gt (hlt a b hg ha))

/-! ## Lemmas: the writes into the rolling buffer -/

theorem appendSamplesIndices_range (sampleBuffer : Nat → ℚ) (n i : Nat) (s : State)
    (h0 : 0 ≤ s.sampleCounter) (h1 : s.sampleCounter + (n : Int) ≤ INT_MAX) :
    ∀ idx ∈ appendSamplesIndices sampleBuffer n i s,
      s.sampleCounter ≤ idx ∧ idx < s.sampleCounter + (n : Int) := by
  induction n generalizing i s with
  | zero =>
    intro idx h
    cases h
  | succ n ih =>
    intro idx h
    have hstep : (appendSample sampleBuffer i s).sampleCounter = s.sampleCounter + 1 := by
      show wrapInt32 (s.sampleCounter + 1) = _
      apply wrapInt32_of_range
      · unfold INT_MIN
        omega
      · push_cast at h1
        omega
    have h2 : idx = s.sampleCounter ∨
        idx ∈ appendSamplesIndices sampleBuffer n (i + 1) (appendSample sampleBuffer i s) :=
      List.mem_cons.mp h
    push_cast
    rcases h2 with h2 | h2
    · omega
    · have := ih (i + 1) (appendSample sampleBuffer i s) (by rw [hstep]; omega)
        (by rw [hstep]; push_cast at h1; omega) idx h2
      rw [hstep] at this
      omega

theorem batchWriteIndices_range (cfg : Config) (inp : BatchInput) (s : State)
    (h0 : 0 ≤ s.sampleCounter)
    (h1 : s.sampleCounter + (forLoopCount cfg.buffer_size : Int) ≤ INT_MAX) :
    ∀ idx ∈ batchWriteIndices cfg inp s,
      s.sampleCounter ≤ idx ∧ idx < s.sampleCounter + (forLoopCount cfg.buffer_size : Int) := by
  unfold batchWriteIndices
  have hsc : ({ ticks cfg (forLoopCount cfg.buffer_size) s with wrCoord := (0, 0) } : State).sampleCounter
      = s.sampleCounter := ticks_sampleCounter cfg _ s
  intro idx h
  have := appendSamplesIndices_range _ _ _ _ (by rw [hsc]; exact h0) (by rw [hsc]; exact h1) idx h
  rw [hsc] at this
  exact this

theorem batchesWriteIndices_fast (cfg : Config) (inputs : Nat → BatchInput) (k i : Nat)
    (s : State) (h0 : 0 ≤ s.sampleCounter) (h1 : s.sampleCounter ≤ cfg.sampleRate)
    (hfit : cfg.sampleRate + (forLoopCount cfg.buffer_size : Int) ≤ INT_MAX)
    (hfast : ∀ j, (inputs j).differenceRealTimeClock < MICROSECS_IN_SEC) :
    ∀ idx ∈ batchesWriteIndices cfg inputs k i s,
      0 ≤ idx ∧ idx < cfg.sampleRate + (forLoopCount cfg.buffer_size : Int) := by
  induction k generalizing i s with
  | zero =>
    intro idx h
    cases h
  | succ k ih =>
    intro idx h
    have h2 : idx ∈ batchWriteIndices cfg (inputs i) s ++
        batchesWriteIndices cfg inputs k (i + 1) (batchIteration cfg (inputs i) s) := h
    rcases List.mem_append.mp h2 with h3 | h3
    · have := batchWriteIndices_range cfg (inputs i) s h0 (by omega) idx h3
      omega
    · have hb := (batches_fast cfg inputs 1 i s h0 h1 hfit hfast).1
      have hone : batches cfg inputs 1 i s = batchIteration cfg (inputs i) s := rfl
      rw [hone] at hb
      exact ih (i + 1) _ hb.1 hb.2 idx h3

/-! ## Lemmas: the point types -/

theorem inBounds_iff (cfg : Config) (pt : PointType) (i j : Int) :
    pt.inBounds cfg i j = true ↔
      (0 ≤ i ∧ i < cfg.domainSize.1) ∧ pt.allocated i = true ∧
        (0 ≤ j ∧ j < cfg.domainSize.2) := by
  unfold PointType.inBounds
  simp [Bool.and_eq_true, and_assoc]

theorem setTransmission_spec (cfg : Config) (pt : PointType) (i j : Int) (v : ℚ)
    (h : pt.inBounds cfg i j = true) :
    ∃ pt1, pt.setTransmission cfg i j v = some pt1 ∧ pt1.allocated = pt.allocated
      ∧ pt1.excitation = pt.excitation
      ∧ ∀ a b, pt1.transmission a b = if a = i ∧ b = j then v else pt.transmission a b := by
  unfold PointType.setTransmission
  rw [if_pos h]
  exact ⟨_, rfl, rfl, rfl, fun _ _ => rfl⟩

theorem setExcitation_spec (cfg : Config) (pt : PointType) (i j : Int) (v : ℚ)
    (h : pt.inBounds cfg i j = true) :
    ∃ pt1, pt.setExcitation cfg i j v = some pt1 ∧ pt1.allocated = pt.allocated
      ∧ pt1.transmission = pt.transmission
      ∧ ∀ a b, pt1.excitation a b = if a = i ∧ b = j then v else pt.excitation a b := by
  unfold PointType.setExcitation
  rw [if_pos h]
  exact ⟨_, rfl, rfl, rfl, fun _ _ => rfl⟩

/-- One pass of the row loop at an in-bounds cell. -/
theorem initRow_pass (cfg : Config) (pos : ℚ × ℚ) (i j : Int) (pt : PointType)
    (h : ∀ p : PointType, p.allocated = pt.allocated → p.inBounds cfg i j = true) :
    ∃ pt3,
      ((pt.setTransmission cfg i j 1).bind fun pt1 =>
        (pt1.setExcitation cfg i j 0).bind fun pt2 =>
        (if (i : ℚ) = pos.1 ∧ (j : ℚ) = pos.2 then pt2.setExcitation cfg i j 1
          else some pt2).bind fun pt3 => some pt3) = some pt3
      ∧ pt3.allocated = pt.allocated
      ∧ (∀ a b, pt3.transmission a b = if a = i ∧ b = j then 1 else pt.transmission a b)
      ∧ (∀ a b, pt3.excitation a b =
          if a = i ∧ b = j then (if (i : ℚ) = pos.1 ∧ (j : ℚ) = pos.2 then 1 else 0)
          else pt.excitation a b) := by
  obtain ⟨pt1, e1, a1, x1, t1⟩ := setTransmission_spec cfg pt i j 1 (h pt rfl)
  obtain ⟨pt2, e2, a2, t2, x2⟩ := setExcitation_spec cfg pt1 i j 0 (h pt1 a1)
  rw [e1, Option.some_bind, e2, Option.some_bind]
  by_cases hpos : (i : ℚ) = pos.1 ∧ (j : ℚ) = pos.2
  · obtain ⟨pt3, e3, a3, t3, x3⟩ := setExcitation_spec cfg pt2 i j 1 (h pt2 (a2.trans a1))
    rw [if_pos hpos, e3, Option.some_bind]
    refine ⟨pt3, rfl, a3.trans (a2.trans a1), ?_, ?_⟩
    · intro a b
      rw [t3, t2, t1]
    · intro a b
      rw [x3, x2, x1, if_pos hpos]
      by_cases hc : a = i ∧ b = j
      · rw [if_pos hc, if_pos hc]
      · rw [if_neg hc, if_neg hc, if_neg hc]
  · rw [if_neg hpos, Option.some_bind]
    refine ⟨pt2, rfl, a2.trans a1, ?_, ?_⟩
    · intro a b
      rw [t2, t1]
    · intro a b
      rw [x2, x1, if_neg hpos]

theorem initRow_spec (cfg : Config) (pos : ℚ × ℚ) (i : Int)
    (hi : 0 ≤ i ∧ i < cfg.domainSize.1) (hH : cfg.domainSize.2 ≤ INT_MAX)
    (n : Nat) (j0 : Int) (pt : PointType)
    (halloc : pt.allocated i = true) (hj0 : 0 ≤ j0) (hjn : j0 + (n : Int) ≤ cfg.domainSize.2) :
    ∃ pt', initRow cfg pos i n j0 pt = some pt' ∧ pt'.allocated = pt.allocated
      ∧ (∀ a b, pt'.transmission a b =
          if a = i ∧ j0 ≤ b ∧ b < j0 + (n : Int) then 1 else pt.transmission a b)
      ∧ (∀ a b, pt'.excitation a b =
          if a = i ∧ j0 ≤ b ∧ b < j0 + (n : Int) then
            (if (i : ℚ) = pos.1 ∧ (b : ℚ) = pos.2 then 1 else 0)
          else pt.excitation a b) := by
  induction n generalizing j0 pt with
  | zero =>
    refine ⟨pt, rfl, rfl, ?_, ?_⟩
    · intro a b
      have : ¬ (a = i ∧ j0 ≤ b ∧ b < j0 + ((0 : Nat) : Int)) := by
        push_cast
        omega
      rw [if_neg this]
    · intro a b
      have : ¬ (a = i ∧ j0 ≤ b ∧ b < j0 + ((0 : Nat) : Int)) := by
        push_cast
        omega
      rw [if_neg this]
  | succ n ih =>
    push_cast at hjn
    have hb : ∀ p : PointType, p.allocated = pt.allocated → p.inBounds cfg i j0 = true := by
      intro p hp
      rw [inBounds_iff, hp]
      exact ⟨hi, halloc, hj0, by omega⟩
    have hw : wrapInt32 (j0 + 1) = j0 + 1 :=
      wrapInt32_of_range (by unfold INT_MIN; omega) (by omega)
    obtain ⟨pt3, e3, a3, t3, x3⟩ := initRow_pass cfg pos i j0 pt hb
    obtain ⟨pt', h1, h2, h3, h4⟩ := ih (j0 + 1) pt3 (by rw [a3]; exact halloc) (by omega)
      (by omega)
    have hrun : initRow cfg pos i (n + 1) j0 pt = some pt' := by
      have hunf : initRow cfg pos i (n + 1) j0 pt =
          ((pt.setTransmission cfg i j0 1).bind fun pt1 =>
            (pt1.setExcitation cfg i j0 0).bind fun pt2 =>
            (if (i : ℚ) = pos.1 ∧ (j0 : ℚ) = pos.2 then pt2.setExcitation cfg i j0 1
              else some pt2).bind fun pt3 => some pt3).bind
            (fun pt3 => initRow cfg pos i n (wrapInt32 (j0 + 1)) pt3) := by
        show ((pt.setTransmission cfg i j0 1).bind fun pt1 =>
            (pt1.setExcitation cfg i j0 0).bind fun pt2 =>
            (if (i : ℚ) = pos.1 ∧ (j0 : ℚ) = pos.2 then pt2.setExcitation cfg i j0 1
              else some pt2).bind fun pt3 =>
            initRow cfg pos i n (wrapInt32 (j0 + 1)) pt3) = _
        simp only [Option.bind_assoc, Option.some_bind]
      rw [hunf, e3, Option.some_bind, hw, h1]
    refine ⟨pt', hrun, h2.trans a3, ?_, ?_⟩
    · intro a b
      rw [h3, t3]
      push_cast
      by_cases hc : a = i ∧ j0 + 1 ≤ b ∧ b < j0 + 1 + (n : Int)
      · rw [if_pos hc, if_pos ⟨hc.1, by omega, by omega⟩]
      · rw [if_neg hc]
        by_cases hd : a = i ∧ b = j0
        · rw [if_pos hd, if_pos ⟨hd.1, by omega, by omega⟩]
        · have : ¬ (a = i ∧ j0 ≤ b ∧ b < j0 + ((n : Int) + 1)) := by
            intro h
            by_cases hbj : b = j0
            · exact hd ⟨h.1, hbj⟩
            · exact hc ⟨h.1, by omega, by omega⟩
          rw [if_neg hd, if_neg this]
    · intro a b
      rw [h4, x3]
      push_cast
      by_cases hc : a = i ∧ j0 + 1 ≤ b ∧ b < j0 + 1 + (n : Int)
      · rw [if_pos hc, if_pos (show a = i ∧ j0 ≤ b ∧ b < j0 + ((n : Int) + 1) from
          ⟨hc.1, by omega, by omega⟩)]
      · rw [if_neg hc]
        by_cases hd : a = i ∧ b = j0
        · rw [if_pos hd, if_pos (show a = i ∧ j0 ≤ b ∧ b < j0 + ((n : Int) + 1) from
            ⟨hd.1, by omega, by omega⟩), hd.2]
        · have : ¬ (a = i ∧ j0 ≤ b ∧ b < j0 + ((n : Int) + 1)) := by
            intro h
            by_cases hbj : b = j0
            · exact hd ⟨h.1, hbj⟩
            · exact hc ⟨h.1, by omega, by omega⟩
          rw [if_neg hd, if_neg this]

theorem allocateRow_spec (cfg : Config) (pt : PointType) (i : Int)
    (h : 0 ≤ i ∧ i < cfg.domainSize.1 ∧ 0 ≤ cfg.domainSize.2) :
    ∃ pt1, pt.allocateRow cfg i = some pt1
      ∧ (∀ a, pt1.allocated a = if a = i then true else pt.allocated a)
      ∧ pt1.transmission = pt.transmission ∧ pt1.excitation = pt.excitation := by
  unfold PointType.allocateRow
  rw [if_pos h]
  exact ⟨_, rfl, fun _ => rfl, rfl, rfl⟩

theorem initRows_spec (cfg : Config) (pos : ℚ × ℚ) (hW : cfg.domainSize.1 ≤ INT_MAX)
    (hH0 : 0 ≤ cfg.domainSize.2) (hH : cfg.domainSize.2 ≤ INT_MAX)
    (n : Nat) (i0 : Int) (pt : PointType) (hi0 : 0 ≤ i0)
    (hin : i0 + (n : Int) ≤ cfg.domainSize.1) :
    ∃ pt', initRows cfg pos n i0 pt = some pt'
      ∧ (∀ a, pt'.allocated a = if i0 ≤ a ∧ a < i0 + (n : Int) then true else pt.allocated a)
      ∧ (∀ a b, pt'.transmission a b =
          if (i0 ≤ a ∧ a < i0 + (n : Int)) ∧ (0 ≤ b ∧ b < cfg.domainSize.2) then 1
          else pt.transmission a b)
      ∧ (∀ a b, pt'.excitation a b =
          if (i0 ≤ a ∧ a < i0 + (n : Int)) ∧ (0 ≤ b ∧ b < cfg.domainSize.2) then
            (if (a : ℚ) = pos.1 ∧ (b : ℚ) = pos.2 then 1 else 0)
          else pt.excitation a b) := by
  induction n generalizing i0 pt with
  | zero =>
    have hno : ∀ a : Int, ¬ (i0 ≤ a ∧ a < i0 + ((0 : Nat) : Int)) := by
      intro a
      push_cast
      omega
    refine ⟨pt, rfl, ?_, ?_, ?_⟩
    · intro a
      rw [if_neg (hno a)]
    · intro a b
      rw [if_neg (fun h => hno a h.1)]
    · intro a b
      rw [if_neg (fun h => hno a h.1)]
  | succ n ih =>
    push_cast at hin
    have hcount : (forLoopCount cfg.domainSize.2 : Int) = cfg.domainSize.2 :=
      forLoopCount_of_range hH0 hH
    have hw : wrapInt32 (i0 + 1) = i0 + 1 :=
      wrapInt32_of_range (by unfold INT_MIN; omega) (by omega)
    obtain ⟨pt1, e1, a1, t1, x1⟩ := allocateRow_spec cfg pt i0 ⟨hi0, by omega, hH0⟩
    obtain ⟨pt2, e2, a2, t2, x2⟩ := initRow_spec cfg pos i0 ⟨hi0, by omega⟩ hH
      (forLoopCount cfg.domainSize.2) 0 pt1 (by rw [a1, if_pos rfl]) (le_refl 0)
      (by rw [hcount]; omega)
    obtain ⟨pt', e3, a3, t3, x3⟩ := ih (i0 + 1) pt2 (by omega) (by omega)
    have hrun : initRows cfg pos (n + 1) i0 pt = some pt' := by
      unfold initRows
      rw [e1, Option.some_bind, e2, Option.some_bind, hw, e3]
    rw [hcount] at t2 x2
    refine ⟨pt', hrun, ?_, ?_, ?_⟩
    · intro a
      rw [a3, a2, a1]
      push_cast
      by_cases hc : i0 + 1 ≤ a ∧ a < i0 + 1 + (n : Int)
      · rw [if_pos hc, if_pos (show i0 ≤ a ∧ a < i0 + ((n : Int) + 1) from by omega)]
      · rw [if_neg hc]
        by_cases hd : a = i0
        · rw [if_pos hd, if_pos (show i0 ≤ a ∧ a < i0 + ((n : Int) + 1) from by omega)]
        · rw [if_neg hd, if_neg (show ¬ (i0 ≤ a ∧ a < i0 + ((n : Int) + 1)) from by omega)]
    · intro a b
      rw [t3, t2, t1]
      push_cast
      by_cases hb : 0 ≤ b ∧ b < cfg.domainSize.2
      · by_cases hc : i0 + 1 ≤ a ∧ a < i0 + 1 + (n : Int)
        · rw [if_pos ⟨hc, hb⟩, if_pos (show (i0 ≤ a ∧ a < i0 + ((n : Int) + 1)) ∧
            (0 ≤ b ∧ b < cfg.domainSize.2) from ⟨by omega, hb⟩)]
        · rw [if_neg (fun h => hc h.1)]
          by_cases hd : a = i0
          · rw [if_pos (show a = i0 ∧ 0 ≤ b ∧ b < 0 + cfg.domainSize.2 from
              ⟨hd, hb.1, by omega⟩),
              if_pos (show (i0 ≤ a ∧ a < i0 + ((n : Int) + 1)) ∧
                (0 ≤ b ∧ b < cfg.domainSize.2) from ⟨by omega, hb⟩)]
          · rw [if_neg (fun h => hd h.1),
              if_neg (show ¬ ((i0 ≤ a ∧ a < i0 + ((n : Int) + 1)) ∧
                (0 ≤ b ∧ b < cfg.domainSize.2)) from fun h => by omega)]
      · rw [if_neg (fun h => hb h.2), if_neg (fun h => hb ⟨h.2.1, by omega⟩),
          if_neg (fun h => hb h.2)]
    · intro a b
      rw [x3, x2, x1]
      push_cast
      by_cases hb : 0 ≤ b ∧ b < cfg.domainSize.2
      · by_cases hc : i0 + 1 ≤ a ∧ a < i0 + 1 + (n : Int)
        · rw [if_pos ⟨hc, hb⟩, if_pos (show (i0 ≤ a ∧ a < i0 + ((n : Int) + 1)) ∧
            (0 ≤ b ∧ b < cfg.domainSize.2) from ⟨by omega, hb⟩)]
        · rw [if_neg (fun h => hc h.1)]
          by_cases hd : a = i0
          · rw [if_pos (show a = i0 ∧ 0 ≤ b ∧ b < 0 + cfg.domainSize.2 from
              ⟨hd, hb.1, by omega⟩),
              if_pos (show (i0 ≤ a ∧ a < i0 + ((n : Int) + 1)) ∧
                (0 ≤ b ∧ b < cfg.domainSize.2) from ⟨by omega, hb⟩), hd]
          · rw [if_neg (fun h => hd h.1),
              if_neg (show ¬ ((i0 ≤ a ∧ a < i0 + ((n : Int) + 1)) ∧
                (0 ≤ b ∧ b < cfg.domainSize.2)) from fun h => by omega)]
      · rw [if_neg (fun h => hb h.2), if_neg (fun h => hb ⟨h.2.1, by omega⟩),
          if_neg (fun h => hb h.2)]

theorem boundaryLoopFirst_spec (cfg : Config) (hW : cfg.domainSize.1 ≤ INT_MAX)
    (hH1 : 1 ≤ cfg.domainSize.2) (hH : cfg.domainSize.2 ≤ INT_MAX)
    (n : Nat) (i0 : Int) (pt : PointType)
    (halloc : ∀ a, 0 ≤ a ∧ a < cfg.domainSize.1 → pt.allocated a = true)
    (hi0 : 0 ≤ i0) (hin : i0 + (n : Int) ≤ cfg.domainSize.1) :
    ∃ pt', boundaryLoopFirst cfg n i0 pt = some pt' ∧ pt'.allocated = pt.allocated
      ∧ pt'.excitation = pt.excitation
      ∧ (∀ a b, pt'.transmission a b =
          if (i0 ≤ a ∧ a < i0 + (n : Int)) ∧ (b = 0 ∨ b = cfg.domainSize.2 - 1) then 0
          else pt.transmission a b) := by
  induction n generalizing i0 pt with
  | zero =>
    refine ⟨pt, rfl, rfl, rfl, ?_⟩
    intro a b
    rw [if_neg (fun h => by
      have := h.1
      push_cast at this
      omega)]
  | succ n ih =>
    push_cast at hin
    have hw : wrapInt32 (i0 + 1) = i0 + 1 :=
      wrapInt32_of_range (by unfold INT_MIN; omega) (by omega)
    have hwH : wrapInt32 (cfg.domainSize.2 - 1) = cfg.domainSize.2 - 1 :=
      wrapInt32_of_range (by unfold INT_MIN; omega) (by omega)
    obtain ⟨pt1, e1, a1, x1, t1⟩ := setTransmission_spec cfg pt i0 0 0
      ((inBounds_iff cfg pt i0 0).mpr ⟨⟨hi0, by omega⟩, halloc i0 ⟨hi0, by omega⟩,
        le_refl 0, by omega⟩)
    obtain ⟨pt2, e2, a2, x2, t2⟩ := setTransmission_spec cfg pt1 i0 (cfg.domainSize.2 - 1) 0
      ((inBounds_iff cfg pt1 i0 _).mpr ⟨⟨hi0, by omega⟩,
        by rw [a1]; exact halloc i0 ⟨hi0, by omega⟩, by omega, by omega⟩)
    obtain ⟨pt', e3, a3, x3, t3⟩ := ih (i0 + 1) pt2
      (fun a ha => by rw [a2, a1]; exact halloc a ha) (by omega) (by omega)
    have hrun : boundaryLoopFirst cfg (n + 1) i0 pt = some pt' := by
      unfold boundaryLoopFirst
      rw [e1, Option.some_bind, hwH, e2, Option.some_bind, hw, e3]
    refine ⟨pt', hrun, a3.trans (a2.trans a1), x3.trans (x2.trans x1), ?_⟩
    intro a b
    rw [t3, t2, t1]
    push_cast
    by_cases hb : b = 0 ∨ b = cfg.domainSize.2 - 1
    · by_cases hc : i0 + 1 ≤ a ∧ a < i0 + 1 + (n : Int)
      · rw [if_pos ⟨hc, hb⟩, if_pos (show (i0 ≤ a ∧ a < i0 + ((n : Int) + 1)) ∧
          (b = 0 ∨ b = cfg.domainSize.2 - 1) from ⟨by omega, hb⟩)]
      · rw [if_neg (fun h => hc h.1)]
        by_cases hd : a = i0
        · rw [if_pos (show (i0 ≤ a ∧ a < i0 + ((n : Int) + 1)) ∧
            (b = 0 ∨ b = cfg.domainSize.2 - 1) from ⟨by omega, hb⟩)]
          by_cases he : b = cfg.domainSize.2 - 1
          · rw [if_pos ⟨hd, he⟩]
          · rw [if_neg (fun h => he h.2), if_pos ⟨hd, by omega⟩]
        · rw [if_neg (fun h => hd h.1), if_neg (fun h => hd h.1),
            if_neg (show ¬ ((i0 ≤ a ∧ a < i0 + ((n : Int) + 1)) ∧
              (b = 0 ∨ b = cfg.domainSize.2 - 1)) from fun h => by omega)]
    · rw [if_neg (fun h => hb h.2), if_neg (fun h => hb (Or.inr h.2)),
        if_neg (fun h => hb (Or.inl h.2)), if_neg (fun h => hb h.2)]

theorem boundaryLoopSecond_spec (cfg : Config) (hW1 : 1 ≤ cfg.domainSize.1)
    (hW : cfg.domainSize.1 ≤ INT_MAX) (hH : cfg.domainSize.2 ≤ INT_MAX)
    (n : Nat) (i0 : Int) (pt : PointType)
    (halloc : ∀ a, 0 ≤ a ∧ a < cfg.domainSize.1 → pt.allocated a = true)
    (hi0 : 0 ≤ i0) (hin : i0 + (n : Int) ≤ cfg.domainSize.2) :
    ∃ pt', boundaryLoopSecond cfg n i0 pt = some pt' ∧ pt'.allocated = pt.allocated
      ∧ pt'.excitation = pt.excitation
      ∧ (∀ a b, pt'.transmission a b =
          if (a = 0 ∨ a = cfg.domainSize.1 - 1) ∧ (i0 ≤ b ∧ b < i0 + (n : Int)) then 0
          else pt.transmission a b) := by
  induction n generalizing i0 pt with
  | zero =>
    refine ⟨pt, rfl, rfl, rfl, ?_⟩
    intro a b
    rw [if_neg (fun h => by
      have := h.2
      push_cast at this
      omega)]
  | succ n ih =>
    push_cast at hin
    have hw : wrapInt32 (i0 + 1) = i0 + 1 :=
      wrapInt32_of_range (by unfold INT_MIN; omega) (by omega)
    have hwW : wrapInt32 (cfg.domainSize.1 - 1) = cfg.domainSize.1 - 1 :=
      wrapInt32_of_range (by unfold INT_MIN; omega) (by omega)
    obtain ⟨pt1, e1, a1, x1, t1⟩ := setTransmission_spec cfg pt 0 i0 0
      ((inBounds_iff cfg pt 0 i0).mpr ⟨⟨le_refl 0, by omega⟩, halloc 0 ⟨le_refl 0, by omega⟩,
        hi0, by omega⟩)
    obtain ⟨pt2, e2, a2, x2, t2⟩ := setTransmission_spec cfg pt1 (cfg.domainSize.1 - 1) i0 0
      ((inBounds_iff cfg pt1 _ i0).mpr ⟨⟨by omega, by omega⟩,
        by rw [a1]; exact halloc _ ⟨by omega, by omega⟩, hi0, by omega⟩)
    obtain ⟨pt', e3, a3, x3, t3⟩ := ih (i0 + 1) pt2
      (fun a ha => by rw [a2, a1]; exact halloc a ha) (by omega) (by omega)
    have hrun : boundaryLoopSecond cfg (n + 1) i0 pt = some pt' := by
      unfold boundaryLoopSecond
      rw [e1, Option.some_bind, hwW, e2, Option.some_bind, hw, e3]
    refine ⟨pt', hrun, a3.trans (a2.trans a1), x3.trans (x2.trans x1), ?_⟩
    intro a b
    rw [t3, t2, t1]
    push_cast
    by_cases ha : a = 0 ∨ a = cfg.domainSize.1 - 1
    · by_cases hc : i0 + 1 ≤ b ∧ b < i0 + 1 + (n : Int)
      · rw [if_pos ⟨ha, hc⟩, if_pos (show (a = 0 ∨ a = cfg.domainSize.1 - 1) ∧
          (i0 ≤ b ∧ b < i0 + ((n : Int) + 1)) from ⟨ha, by omega⟩)]
      · rw [if_neg (fun h => hc h.2)]
        by_cases hd : b = i0
        · rw [if_pos (show (a = 0 ∨ a = cfg.domainSize.1 - 1) ∧
            (i0 ≤ b ∧ b < i0 + ((n : Int) + 1)) from ⟨ha, by omega⟩)]
          by_cases he : a = cfg.domainSize.1 - 1
          · rw [if_pos ⟨he, hd⟩]
          · rw [if_neg (fun h => he h.1), if_pos ⟨by omega, hd⟩]
        · rw [if_neg (fun h => hd h.2), if_neg (fun h => hd h.2),
            if_neg (show ¬ ((a = 0 ∨ a = cfg.domainSize.1 - 1) ∧
              (i0 ≤ b ∧ b < i0 + ((n : Int) + 1))) from fun h => by omega)]
    · rw [if_neg (fun h => ha h.1), if_neg (fun h => ha (Or.inr h.1)),
        if_neg (fun h => ha (Or.inl h.1)), if_neg (fun h => ha h.1)]

/-- The construction of `pointType` on a domain of at least one cell in each direction
stays in bounds, clears exactly the outer ring of `pointType[0]`, and sets `pointType[1]`
to 1 exactly at the cells whose indices equal the excitation position. -/
theorem buildPointType_spec (cfg : Config) (pos : ℚ × ℚ)
    (hW1 : 1 ≤ cfg.domainSize.1) (hW : cfg.domainSize.1 ≤ INT_MAX)
    (hH1 : 1 ≤ cfg.domainSize.2) (hH : cfg.domainSize.2 ≤ INT_MAX) :
    ∃ pt, buildPointType cfg pos = some pt
      ∧ (∀ a, 0 ≤ a ∧ a < cfg.domainSize.1 → pt.allocated a = true)
      ∧ (∀ a b, 0 ≤ a ∧ a < cfg.domainSize.1 → 0 ≤ b ∧ b < cfg.domainSize.2 →
          pt.transmission a b =
            if a = 0 ∨ a = cfg.domainSize.1 - 1 ∨ b = 0 ∨ b = cfg.domainSize.2 - 1 then 0
            else 1)
      ∧ (∀ a b, 0 ≤ a ∧ a < cfg.domainSize.1 → 0 ≤ b ∧ b < cfg.domainSize.2 →
          pt.excitation a b = if (a : ℚ) = pos.1 ∧ (b : ℚ) = pos.2 then 1 else 0) := by
  have hcW : (forLoopCount cfg.domainSize.1 : Int) = cfg.domainSize.1 :=
    forLoopCount_of_range (by omega) hW
  have hwH : wrapInt32 (cfg.domainSize.2 - 1) = cfg.domainSize.2 - 1 :=
    wrapInt32_of_range (by unfold INT_MIN; omega) (by omega)
  have hcH : (forLoopCount (cfg.domainSize.2 - 1) : Int) = cfg.domainSize.2 - 1 :=
    forLoopCount_of_range (by omega) (by omega)
  obtain ⟨pt1, e1, a1, t1, x1⟩ := initRows_spec cfg pos hW (by omega) hH
    (forLoopCount cfg.domainSize.1) 0 emptyPointType (le_refl 0) (by rw [hcW]; omega)
  rw [hcW] at a1 t1 x1
  have halloc1 : ∀ a, 0 ≤ a ∧ a < cfg.domainSize.1 → pt1.allocated a = true := by
    intro a ha
    rw [a1, if_pos (by omega)]
  obtain ⟨pt2, e2, a2, x2, t2⟩ := boundaryLoopFirst_spec cfg hW hH1 hH
    (forLoopCount cfg.domainSize.1) 0 pt1 halloc1 (le_refl 0) (by rw [hcW]; omega)
  rw [hcW] at t2
  obtain ⟨pt3, e3, a3, x3, t3⟩ := boundaryLoopSecond_spec cfg hW1 hW hH
    (forLoopCount (cfg.domainSize.2 - 1)) 0 pt2
    (fun a ha => by rw [a2]; exact halloc1 a ha) (le_refl 0) (by rw [hcH]; omega)
  rw [hcH] at t3
  have hrun : buildPointType cfg pos = some pt3 := by
    unfold buildPointType
    rw [if_pos (by omega), e1, Option.some_bind, e2, Option.some_bind, hwH, e3]
  refine ⟨pt3, hrun, fun a ha => by rw [a3, a2]; exact halloc1 a ha, ?_, ?_⟩
  · intro a b ha hb
    rw [t3, t2, t1]
    by_cases h3 : (a = 0 ∨ a = cfg.domainSize.1 - 1) ∧ (0 ≤ b ∧ b < 0 + (cfg.domainSize.2 - 1))
    · rw [if_pos h3, if_pos (by omega)]
    · rw [if_neg h3]
      by_cases h2 : (0 ≤ a ∧ a < 0 + cfg.domainSize.1) ∧ (b = 0 ∨ b = cfg.domainSize.2 - 1)
      · rw [if_pos h2, if_pos (by omega)]
      · rw [if_neg h2, if_pos (show (0 ≤ a ∧ a < 0 + cfg.domainSize.1) ∧
          (0 ≤ b ∧ b < cfg.domainSize.2) from ⟨by omega, hb⟩),
          if_neg (by omega)]
  · intro a b ha hb
    rw [x3, x2, x1, if_pos (show (0 ≤ a ∧ a < 0 + cfg.domainSize.1) ∧
      (0 ≤ b ∧ b < cfg.domainSize.2) from ⟨by omega, hb⟩)]

/-! ## Lemmas: the texture and the start of the program -/

theorem pixelIndex_eq (cfg : Config) (i j channel : Int) (hi : 0 ≤ i) (hj : 0 ≤ j)
    (htw : 0 ≤ textureWidth cfg) (hc : 0 ≤ channel)
    (hmax : (j * textureWidth cfg + i) * 4 + channel ≤ INT_MAX) :
    pixelIndex cfg i j channel = (j * textureWidth cfg + i) * 4 + channel := by
  have hprod : 0 ≤ j * textureWidth cfg := Int.mul_nonneg hj htw
  unfold pixelIndex
  rw [wrapInt32_of_range (x := j * textureWidth cfg) (by unfold INT_MIN; omega) (by omega),
    wrapInt32_of_range (x := j * textureWidth cfg + i) (by unfold INT_MIN; omega) (by omega),
    wrapInt32_of_range (x := (j * textureWidth cfg + i) * 4) (by unfold INT_MIN; omega)
      (by omega),
    wrapInt32_of_range (by unfold INT_MIN; omega) hmax]

theorem pixel_lt_size (tw th i j : Int) (hi : i < tw) (hj : j < th) (htw : 0 ≤ tw) :
    (j * tw + i) * 4 + 3 < tw * th * 4 := by
  have h1 : j * tw ≤ (th - 1) * tw := Int.mul_le_mul_of_nonneg_right (by omega) htw
  have h2 : (th - 1) * tw = tw * th - tw := by ring
  omega

theorem copyPoint_spec (cfg : Config) (pt : PointType) (i src j : Int) (t : Texture)
    (hsrc : pt.inBounds cfg src j = true) (hi : 0 ≤ i ∧ i < textureWidth cfg)
    (hj : 0 ≤ j ∧ j < textureHeight cfg)
    (hsize : t.size = textureWidth cfg * textureHeight cfg * 4) (hfit : t.size ≤ INT_MAX) :
    ∃ t', copyPoint cfg pt i src j t = some t' ∧ t'.size = t.size := by
  have hlt := pixel_lt_size (textureWidth cfg) (textureHeight cfg) i j hi.2 hj.2 (by omega)
  have hprod : 0 ≤ j * textureWidth cfg := Int.mul_nonneg hj.1 (by omega)
  have e2 := pixelIndex_eq cfg i j 2 hi.1 hj.1 (by omega) (by decide) (by omega)
  have e3 := pixelIndex_eq cfg i j 3 hi.1 hj.1 (by omega) (by decide) (by omega)
  unfold copyPoint PointType.getTransmission PointType.getExcitation Texture.set
  rw [if_pos hsrc, Option.some_bind, e2, e3, if_pos (by omega), Option.some_bind,
    if_pos hsrc, Option.some_bind]
  dsimp only
  rw [if_pos (by omega)]
  exact ⟨_, rfl, rfl⟩

theorem copyColumn_spec (cfg : Config) (pt : PointType)
    (hW1 : 1 ≤ cfg.domainSize.1) (hwidth : textureWidth cfg = 2 * cfg.domainSize.1)
    (hheight : cfg.domainSize.2 ≤ textureHeight cfg)
    (halloc : ∀ a, 0 ≤ a ∧ a < cfg.domainSize.1 → pt.allocated a = true)
    (i : Int) (hi : 0 ≤ i ∧ i < textureWidth cfg)
    (n : Nat) (j0 : Int) (t : Texture) (hj0 : 0 ≤ j0)
    (hjn : j0 + (n : Int) ≤ cfg.domainSize.2)
    (hsize : t.size = textureWidth cfg * textureHeight cfg * 4) (hfit : t.size ≤ INT_MAX) :
    ∃ t', copyColumn cfg pt i n j0 t = some t' ∧ t'.size = t.size := by
  induction n generalizing j0 t with
  | zero => exact ⟨t, rfl, rfl⟩
  | succ n ih =>
    push_cast at hjn
    have hth : textureHeight cfg ≤ INT_MAX := wrapInt32_le _
    have hw : wrapInt32 (j0 + 1) = j0 + 1 :=
      wrapInt32_of_range (by unfold INT_MIN; omega) (by omega)
    have hjr : 0 ≤ j0 ∧ j0 < textureHeight cfg := ⟨hj0, by omega⟩
    unfold copyColumn
    by_cases hlow : i < cfg.domainSize.1
    · have hsrc : pt.inBounds cfg i j0 = true :=
        (inBounds_iff cfg pt i j0).mpr ⟨⟨hi.1, hlow⟩, halloc i ⟨hi.1, hlow⟩, hj0, by omega⟩
      obtain ⟨t1, e1, s1⟩ := copyPoint_spec cfg pt i i j0 t hsrc hi hjr hsize hfit
      obtain ⟨t', e2, s2⟩ := ih (j0 + 1) t1 (by omega) (by omega) (by rw [s1]; exact hsize)
        (by rw [s1]; exact hfit)
      rw [if_pos hlow, e1, Option.some_bind, if_neg (by omega), Option.some_bind, hw, e2]
      exact ⟨t', rfl, s2.trans s1⟩
    · have hwi : wrapInt32 (i - cfg.domainSize.1) = i - cfg.domainSize.1 :=
        wrapInt32_of_range (by unfold INT_MIN; omega)
          (by have := wrapInt32_le (cfg.domainSize.1 * NUM_OF_TIMESTEPS)
              unfold textureWidth at hi
              omega)
      have hsrc : pt.inBounds cfg (i - cfg.domainSize.1) j0 = true :=
        (inBounds_iff cfg pt _ j0).mpr ⟨⟨by omega, by omega⟩,
          halloc _ ⟨by omega, by omega⟩, hj0, by omega⟩
      obtain ⟨t1, e1, s1⟩ := copyPoint_spec cfg pt i (i - cfg.domainSize.1) j0 t hsrc hi hjr
        hsize hfit
      obtain ⟨t', e2, s2⟩ := ih (j0 + 1) t1 (by omega) (by omega) (by rw [s1]; exact hsize)
        (by rw [s1]; exact hfit)
      rw [if_neg hlow, Option.some_bind, if_pos (by omega), hwi, e1, Option.some_bind, hw, e2]
      exact ⟨t', rfl, s2.trans s1⟩

theorem copyPointTypes_spec (cfg : Config) (pt : PointType)
    (hW1 : 1 ≤ cfg.domainSize.1) (hH0 : 0 ≤ cfg.domainSize.2)
    (hwidth : textureWidth cfg = 2 * cfg.domainSize.1)
    (hrows : wrapInt32 (textureHeight cfg - cfg.ceiling) = cfg.domainSize.2)
    (hheight : cfg.domainSize.2 ≤ textureHeight cfg)
    (halloc : ∀ a, 0 ≤ a ∧ a < cfg.domainSize.1 → pt.allocated a = true)
    (n : Nat) (i0 : Int) (t : Texture) (hi0 : 0 ≤ i0)
    (hin : i0 + (n : Int) ≤ textureWidth cfg)
    (hsize : t.size = textureWidth cfg * textureHeight cfg * 4) (hfit : t.size ≤ INT_MAX) :
    ∃ t', copyPointTypes cfg pt n i0 t = some t' ∧ t'.size = t.size := by
  induction n generalizing i0 t with
  | zero => exact ⟨t, rfl, rfl⟩
  | succ n ih =>
    push_cast at hin
    have htw : textureWidth cfg ≤ INT_MAX := wrapInt32_le _
    have hHmax : cfg.domainSize.2 ≤ INT_MAX := by
      have := wrapInt32_le (textureHeight cfg - cfg.ceiling)
      omega
    have hw : wrapInt32 (i0 + 1) = i0 + 1 :=
      wrapInt32_of_range (by unfold INT_MIN; omega) (by omega)
    have hcount : (forLoopCount cfg.domainSize.2 : Int) = cfg.domainSize.2 :=
      forLoopCount_of_range hH0 hHmax
    obtain ⟨t1, e1, s1⟩ := copyColumn_spec cfg pt hW1 hwidth hheight halloc i0
      ⟨hi0, by omega⟩ (forLoopCount cfg.domainSize.2) 0 t (le_refl 0) (by rw [hcount]; omega)
      hsize hfit
    obtain ⟨t', e2, s2⟩ := ih (i0 + 1) t1 (by omega) (by omega) (by rw [s1]; exact hsize)
      (by rw [s1]; exact hfit)
    unfold copyPointTypes
    rw [hrows, e1, Option.some_bind, hw, e2]
    exact ⟨t', rfl, s2.trans s1⟩

theorem printTexture_spec (t : Texture) (n : Nat) (i0 : Int) (hi0 : 0 ≤ i0)
    (hin : i0 + (n : Int) ≤ t.size) (hfit : t.size ≤ INT_MAX) :
    printTexture t n i0 = some () := by
  induction n generalizing i0 with
  | zero => rfl
  | succ n ih =>
    push_cast at hin
    unfold printTexture Texture.get
    rw [if_pos (by omega), Option.some_bind,
      wrapInt32_of_range (by unfold INT_MIN; omega) (by omega)]
    exact ih (i0 + 1) (by omega) (by omega)


theorem texture_dimensions (cfg : Config) (hW1 : 1 ≤ cfg.domainSize.1)
    (hH1 : 1 ≤ cfg.domainSize.2) (hc : 0 ≤ cfg.ceiling)
    (hfit : cfg.domainSize.1 * 2 * (cfg.domainSize.2 + cfg.ceiling) * 4 ≤ INT_MAX) :
    textureWidth cfg = 2 * cfg.domainSize.1
      ∧ textureHeight cfg = cfg.domainSize.2 + cfg.ceiling
      ∧ wrapInt32 (wrapInt32 (textureWidth cfg * textureHeight cfg) * 4)
          = textureWidth cfg * textureHeight cfg * 4
      ∧ textureWidth cfg * textureHeight cfg * 4 ≤ INT_MAX
      ∧ 0 ≤ textureWidth cfg * textureHeight cfg := by
  have hth1 : 1 ≤ cfg.domainSize.2 + cfg.ceiling := by omega
  have hprodW : cfg.domainSize.1 * 2 * 1 ≤ cfg.domainSize.1 * 2 * (cfg.domainSize.2 + cfg.ceiling) :=
    Int.mul_le_mul_of_nonneg_left hth1 (by omega)
  have hprodH : 1 * (cfg.domainSize.2 + cfg.ceiling)
      ≤ cfg.domainSize.1 * 2 * (cfg.domainSize.2 + cfg.ceiling) :=
    Int.mul_le_mul_of_nonneg_right (by omega) (by omega)
  have hpos : 0 ≤ cfg.domainSize.1 * 2 * (cfg.domainSize.2 + cfg.ceiling) :=
    Int.mul_nonneg (by omega) (by omega)
  have hw : textureWidth cfg = 2 * cfg.domainSize.1 := by
    unfold textureWidth NUM_OF_TIMESTEPS
    rw [wrapInt32_of_range (by unfold INT_MIN; omega) (by omega)]
    ring
  have hh : textureHeight cfg = cfg.domainSize.2 + cfg.ceiling := by
    unfold textureHeight
    exact wrapInt32_of_range (by unfold INT_MIN; omega) (by omega)
  have hmul : textureWidth cfg * textureHeight cfg
      = cfg.domainSize.1 * 2 * (cfg.domainSize.2 + cfg.ceiling) := by
    rw [hw, hh]
    ring
  refine ⟨hw, hh, ?_, ?_, ?_⟩
  · rw [hmul, wrapInt32_of_range (x := cfg.domainSize.1 * 2 * (cfg.domainSize.2 + cfg.ceiling))
      (by unfold INT_MIN; omega) (by omega)]
    exact wrapInt32_of_range (by unfold INT_MIN; omega) hfit
  · rw [hmul]
    exact hfit
  · rw [hmul]
    exact hpos

/-- On a domain of at least one cell in each direction whose texture fits an `int` and
holds at least the values the start-up print reads, the texture data is built without
leaving the bounds of an array. -/
theorem buildTexture_some (cfg : Config) (startup : Startup) (pos : ℚ × ℚ)
    (hW1 : 1 ≤ cfg.domainSize.1) (hH1 : 1 ≤ cfg.domainSize.2) (hc : 0 ≤ cfg.ceiling)
    (hfit : cfg.domainSize.1 * 2 * (cfg.domainSize.2 + cfg.ceiling) * 4 ≤ INT_MAX)
    (hp0 : 0 ≤ startup.pointerSize)
    (hp : startup.pointerSize * 4
      ≤ cfg.domainSize.1 * 2 * (cfg.domainSize.2 + cfg.ceiling) * 4) :
    ∃ t, buildTexture cfg startup pos = some t := by
  obtain ⟨hw, hh, hsz, hszfit, hnonneg⟩ := texture_dimensions cfg hW1 hH1 hc hfit
  have hmul : textureWidth cfg * textureHeight cfg * 4
      = cfg.domainSize.1 * 2 * (cfg.domainSize.2 + cfg.ceiling) * 4 := by
    rw [hw, hh]
    ring
  have hWmax : cfg.domainSize.1 ≤ INT_MAX := by
    have := wrapInt32_le (cfg.domainSize.1 * NUM_OF_TIMESTEPS)
    unfold textureWidth at hw
    omega
  have hHmax : cfg.domainSize.2 ≤ INT_MAX := by
    have := wrapInt32_le (cfg.domainSize.2 + cfg.ceiling)
    unfold textureHeight at hh
    omega
  obtain ⟨pt, ept, halloc, _, _⟩ := buildPointType_spec cfg pos hW1 hWmax hH1 hHmax
  have hrows : wrapInt32 (textureHeight cfg - cfg.ceiling) = cfg.domainSize.2 := by
    rw [hh]
    have : cfg.domainSize.2 + cfg.ceiling - cfg.ceiling = cfg.domainSize.2 := by ring
    rw [this]
    exact wrapInt32_of_range (by unfold INT_MIN; omega) hHmax
  have hcw : (forLoopCount (textureWidth cfg) : Int) = textureWidth cfg :=
    forLoopCount_of_range (by omega) (wrapInt32_le _)
  have hcp : (forLoopCount (wrapInt32 (startup.pointerSize * 4)) : Int)
      = startup.pointerSize * 4 := by
    rw [wrapInt32_of_range (by unfold INT_MIN; omega) (by omega)]
    exact forLoopCount_of_range (by omega) (by omega)
  obtain ⟨t1, e1, s1⟩ := copyPointTypes_spec cfg pt hW1 (by omega) hw hrows (by omega) halloc
    (forLoopCount (textureWidth cfg)) 0
    { size := textureWidth cfg * textureHeight cfg * 4, pixels := fun _ => 0 }
    (le_refl 0) (by rw [hcw]; omega) rfl hszfit
  have e2 := printTexture_spec t1 (forLoopCount (wrapInt32 (startup.pointerSize * 4))) 0
    (le_refl 0) (by rw [hcp, s1]; show _ ≤ textureWidth cfg * textureHeight cfg * 4; omega)
    (by rw [s1]; exact hszfit)
  refine ⟨t1, ?_⟩
  unfold buildTexture newTexture
  rw [hsz, if_pos (by omega), Option.some_bind, ept, Option.some_bind, e1, Option.some_bind, e2,
    Option.some_bind]

/-! ## Lemmas: the scenario of the update rule -/

/-- C11. For every domain of `W ≥ 1` by `H ≥ 1` cells (sizes that fit an `int`, square or
not) and every excitation position, the construction of `pointType` makes only in-bounds
accesses, and afterwards the transmission value of cell `(i, j)` is 0 exactly when `i = 0`
or `i = W - 1` or `j = 0` or `j = H - 1`, and 1 otherwise. -/
theorem C11_interior_mask (cfg : Config) (pos : ℚ × ℚ)
    (hW1 : 1 ≤ cfg.domainSize.1) (hW : cfg.domainSize.1 ≤ INT_MAX)
    (hH1 : 1 ≤ cfg.domainSize.2) (hH : cfg.domainSize.2 ≤ INT_MAX) :
    ∃ pt, buildPointType cfg pos = some pt ∧
      ∀ i j, 0 ≤ i ∧ i < cfg.domainSize.1 → 0 ≤ j ∧ j < cfg.domainSize.2 →
        (pt.transmission i j = 0 ↔
          (i = 0 ∨ i = cfg.domainSize.1 - 1 ∨ j = 0 ∨ j = cfg.domainSize.2 - 1))
        ∧ (¬ (i = 0 ∨ i = cfg.domainSize.1 - 1 ∨ j = 0 ∨ j = cfg.domainSize.2 - 1) →
            pt.transmission i j = 1) := by
  obtain ⟨pt, e, _, ht, _⟩ := buildPointType_spec cfg pos hW1 hW hH1 hH
  refine ⟨pt, e, ?_⟩
  intro i j hi hj
  rw [ht i j hi hj]
  by_cases hb : i = 0 ∨ i = cfg.domainSize.1 - 1 ∨ j = 0 ∨ j = cfg.domainSize.2 - 1
  · rw [if_pos hb]
    exact ⟨⟨fun _ => hb, fun _ => rfl⟩, fun h => absurd hb h⟩
  · rw [if_neg hb]
    exact ⟨⟨fun h => absurd h (by norm_num), fun h => absurd h hb⟩, fun _ => rfl⟩

/-- Witness of C11: a domain of 3 by 5 cells. -/
theorem C11_interior_mask_witness :
    (1 ≤ oblongConfig.domainSize.1 ∧ 1 ≤ oblongConfig.domainSize.2) ∧
    ∃ pt, buildPointType oblongConfig initialState.excitationPosition = some pt ∧
      pt.transmission 0 0 = 0 ∧ pt.transmission 1 0 = 0 ∧ pt.transmission 1 1 = 1 ∧
      pt.transmission 1 3 = 1 ∧ pt.transmission 1 4 = 0 ∧ pt.transmission 2 2 = 0 ∧
      pt.transmission 0 4 = 0 ∧ pt.transmission 2 4 = 0 := by
  obtain ⟨pt, e, h⟩ := C11_interior_mask oblongConfig initialState.excitationPosition
    (by decide) (by decide) (by decide) (by decide)
  refine ⟨by decide, pt, e, ?_, ?_, ?_, ?_, ?_, ?_, ?_, ?_⟩
  · exact (h 0 0 (by decide) (by decide)).1.mpr (by decide)
  · exact (h 1 0 (by decide) (by decide)).1.mpr (by decide)
  · exact (h 1 1 (by decide) (by decide)).2 (by decide)
  · exact (h 1 3 (by decide) (by decide)).2 (by decide)
  · exact (h 1 4 (by decide) (by decide)).1.mpr (by decide)
  · exact (h 2 2 (by decide) (by decide)).1.mpr (by decide)
  · exact (h 0 4 (by decide) (by decide)).1.mpr (by decide)
  · exact (h 2 4 (by decide) (by decide)).1.mpr (by decide)

/-! ## C12: the excitation mask -/

theorem int_ne_seven_tenths (a : Int) : ¬ ((a : ℚ) = 7 / 10) := by
  intro h
  have h2 : ((10 * a : Int) : ℚ) = ((7 : Int) : ℚ) := by
    push_cast
    rw [h]
    norm_num
  have h3 : 10 * a = 7 := by exact_mod_cast h2
  omega

/-- C12, at the failing input. The excitation position of the source is (0.7, 0.5).  With
the settings of the source (80 by 80 cells) the construction of `pointType` completes and no
cell of the excitation mask `pointType[1]` has the value 1; the same holds for every domain
of `W ≥ 1` by `H ≥ 1` cells: the cell indices are compared with the coordinates of the
position, which no integer index equals. -/
theorem C12_no_excitation_cell :
    initialState.excitationPosition = (7 / 10, 1 / 2) ∧
    (∃ pt, buildPointType defaultConfig initialState.excitationPosition = some pt ∧
      ∀ i j, 0 ≤ i ∧ i < 80 → 0 ≤ j ∧ j < 80 → pt.excitation i j = 0) ∧
    (∀ cfg : Config, 1 ≤ cfg.domainSize.1 → cfg.domainSize.1 ≤ INT_MAX →
      1 ≤ cfg.domainSize.2 → cfg.domainSize.2 ≤ INT_MAX →
      ∃ pt, buildPointType cfg initialState.excitationPosition = some pt ∧
        ∀ i j, 0 ≤ i ∧ i < cfg.domainSize.1 → 0 ≤ j ∧ j < cfg.domainSize.2 →
          pt.excitation i j = 0) := by
  have hgen : ∀ cfg : Config, 1 ≤ cfg.domainSize.1 → cfg.domainSize.1 ≤ INT_MAX →
      1 ≤ cfg.domainSize.2 → cfg.domainSize.2 ≤ INT_MAX →
      ∃ pt, buildPointType cfg initialState.excitationPosition = some pt ∧
        ∀ i j, 0 ≤ i ∧ i < cfg.domainSize.1 → 0 ≤ j ∧ j < cfg.domainSize.2 →
          pt.excitation i j = 0 := by
    intro cfg hW1 hW hH1 hH
    obtain ⟨pt, e, _, _, hx⟩ := buildPointType_spec cfg initialState.excitationPosition
      hW1 hW hH1 hH
    refine ⟨pt, e, ?_⟩
    intro i j hi hj
    rw [hx i j hi hj]
    exact if_neg (fun h => int_ne_seven_tenths i h.1)
  exact ⟨rfl, hgen defaultConfig (by decide) (by decide) (by decide) (by decide), hgen⟩

/-! ## C13: a domain without interior cells -/

theorem passKinds_append (a b : List GLOp) :
    passKinds (a ++ b) = passKinds a ++ passKinds b := by
  unfold passKinds
  exact List.filterMap_append a b _

theorem count_update_passes (n : Nat) :
    ((List.replicate n [PassKind.update, PassKind.audioRead, PassKind.barrier]).flatten).count
      PassKind.update = n := by
  induction n with
  | zero => rfl
  | succ n ih =>
    rw [List.replicate_succ, List.flatten_cons, List.count_append, ih]
    have h1 : List.count PassKind.update
        [PassKind.update, PassKind.audioRead, PassKind.barrier] = 1 := by decide
    rw [h1]
    omega

/-- The number of update passes of a whole run is the number of batches made times the
batch size. -/
theorem count_update_mainOps (cfg : Config) (inputs : Nat → BatchInput) :
    (passKinds (mainOps cfg inputs)).count PassKind.update =
      executedBatches inputs (forLoopCount (bufferNum cfg)) 0 * forLoopCount cfg.buffer_size := by
  unfold mainOps
  rw [passKinds_append, mainLoopOps_eq_batchesOps,
    passKinds_batchesOps cfg inputs _ 0 initialState rfl]
  have hfin : passKinds (finalPlaybackOps cfg) = [] := rfl
  rw [hfin, List.append_nil, count_update_passes]

theorem program_not_fatal (cfg : Config) (startup : Startup) (inputs : Nat → BatchInput)
    (hw : startup.windowCreated = true) (hg : startup.gladLoaded = true) (code : Int) :
    program cfg startup inputs ≠ Outcome.fatal code := by
  unfold program
  rw [if_neg (by rw [hw]; decide), if_neg (by rw [hg]; decide)]
  cases buildTexture cfg startup initialState.excitationPosition with
  | none => exact fun h => Outcome.noConfusion h
  | some t => exact fun h => Outcome.noConfusion h

theorem program_finished (cfg : Config) (startup : Startup) (inputs : Nat → BatchInput)
    (hw : startup.windowCreated = true) (hg : startup.gladLoaded = true)
    (ht : ∃ t, buildTexture cfg startup initialState.excitationPosition = some t) :
    program cfg startup inputs = Outcome.finished (mainState cfg inputs) (mainOps cfg inputs) := by
  obtain ⟨t, e⟩ := ht
  unfold program
  rw [if_neg (by rw [hw]; decide), if_neg (by rw [hg]; decide), e]

/-- C13, counterexample. A domain of 2 by 2 cells with the other settings of the source,
the window and the OpenGL loader present: `main` does not return with an error; it builds
the texture data and runs the simulation cycle, which issues 440960 update passes. -/
theorem C13_degenerate_domain_counterexample :
    tinyConfig.domainSize = (2, 2) ∧
    (∀ code, program tinyConfig normalStartup quietInputs ≠ Outcome.fatal code) ∧
    program tinyConfig normalStartup quietInputs =
      Outcome.finished (mainState tinyConfig quietInputs) (mainOps tinyConfig quietInputs) ∧
    (passKinds (mainOps tinyConfig quietInputs)).count PassKind.update = 440960 := by
  refine ⟨rfl, program_not_fatal tinyConfig normalStartup quietInputs rfl rfl,
    program_finished tinyConfig normalStartup quietInputs rfl rfl
      (buildTexture_some tinyConfig normalStartup _ (by decide) (by decide) (by decide)
        (by decide) (by decide) (by decide)), ?_⟩
  rw [count_update_mainOps, executedBatches_no_escape quietInputs _ 0 (fun _ => rfl)]
  decide

/-- C13, amended. For every domain with both dimensions at least 1 (its texture fitting an
`int`) in which either dimension is at most 2, the interior mask has no interior cell.  The
domain size is not checked: with the window and the OpenGL loader present `main` never
returns with an error, and when the texture holds at least the `sizeof(pointer) * 4`
values that the start-up print reads, the texture data is built in bounds and the
simulation cycle is run. -/
theorem C13_degenerate_domain (cfg : Config) (startup : Startup) (inputs : Nat → BatchInput)
    (hW1 : 1 ≤ cfg.domainSize.1) (hH1 : 1 ≤ cfg.domainSize.2) (hc : 0 ≤ cfg.ceiling)
    (hfit : cfg.domainSize.1 * 2 * (cfg.domainSize.2 + cfg.ceiling) * 4 ≤ INT_MAX)
    (hsmall : cfg.domainSize.1 ≤ 2 ∨ cfg.domainSize.2 ≤ 2) :
    (∃ pt, buildPointType cfg initialState.excitationPosition = some pt ∧
      ∀ i j, 0 ≤ i ∧ i < cfg.domainSize.1 → 0 ≤ j ∧ j < cfg.domainSize.2 →
        pt.transmission i j = 0)
    ∧ (startup.windowCreated = true → startup.gladLoaded = true →
        (∀ code, program cfg startup inputs ≠ Outcome.fatal code)
        ∧ (0 ≤ startup.pointerSize →
            startup.pointerSize * 4
              ≤ cfg.domainSize.1 * 2 * (cfg.domainSize.2 + cfg.ceiling) * 4 →
            program cfg startup inputs =
              Outcome.finished (mainState cfg inputs) (mainOps cfg inputs))) := by
  obtain ⟨hw, hh, _, _, _⟩ := texture_dimensions cfg hW1 hH1 hc hfit
  have hWmax : cfg.domainSize.1 ≤ INT_MAX := by
    have := wrapInt32_le (cfg.domainSize.1 * NUM_OF_TIMESTEPS)
    unfold textureWidth at hw
    omega
  have hHmax : cfg.domainSize.2 ≤ INT_MAX := by
    have := wrapInt32_le (cfg.domainSize.2 + cfg.ceiling)
    unfold textureHeight at hh
    omega
  constructor
  · obtain ⟨pt, e, _, ht, _⟩ := buildPointType_spec cfg initialState.excitationPosition
      hW1 hWmax hH1 hHmax
    refine ⟨pt, e, ?_⟩
    intro i j hi hj
    rw [ht i j hi hj]
    exact if_pos (by omega)
  · intro hwin hglad
    refine ⟨program_not_fatal cfg startup inputs hwin hglad, ?_⟩
    intro hp0 hp
    exact program_finished cfg startup inputs hwin hglad
      (buildTexture_some cfg startup _ hW1 hH1 hc hfit hp0 hp)

/-- Witness of C13 (amended): the domain of 2 by 2 cells. -/
theorem C13_degenerate_domain_witness :
    (1 ≤ tinyConfig.domainSize.1 ∧ 1 ≤ tinyConfig.domainSize.2 ∧
      (tinyConfig.domainSize.1 ≤ 2 ∨ tinyConfig.domainSize.2 ≤ 2)) ∧
    (∃ pt, buildPointType tinyConfig initialState.excitationPosition = some pt ∧
      pt.transmission 0 0 = 0 ∧ pt.transmission 0 1 = 0 ∧ pt.transmission 1 0 = 0 ∧
      pt.transmission 1 1 = 0) ∧
    program tinyConfig normalStartup quietInputs =
      Outcome.finished (mainState tinyConfig quietInputs) (mainOps tinyConfig quietInputs) := by
  have h := C13_degenerate_domain tinyConfig normalStartup quietInputs (by decide) (by decide)
    (by decide) (by decide) (by decide)
  obtain ⟨pt, e, hz⟩ := h.1
  refine ⟨by decide, ⟨pt, e, hz 0 0 (by decide) (by decide), hz 0 1 (by decide) (by decide),
    hz 1 0 (by decide) (by decide), hz 1 1 (by decide) (by decide)⟩, ?_⟩
  exact (h.2 rfl rfl).2 (by decide) (by decide)

/-! ## C14: the scenario of the update rule -/

/-- C15, counterexample. With the settings of the source (texture 160 texels wide, batches
of 128 ticks) `deltaCoordX` is the `float` 13421773 / 2^31 and after 92 ticks of the first
batch `wrCoord` is `(9646899 / 2^26, 0)`: the 23 rounded additions of line 518 do not give
`(92 div 4) * deltaX`, neither for the exact `deltaX = 1/160` nor for the `float`
`deltaCoordX`.  The value lies below `23 / 160`, inside texel column 22, the column that
also holds the cursor after 88 ticks. -/
theorem C15_capture_cursor_counterexample :
    92 ≤ forLoopCount defaultConfig.buffer_size
    ∧ deltaX defaultConfig = 1 / 160
    ∧ deltaCoordX defaultConfig = 13421773 / 2147483648
    ∧ (ticks defaultConfig 92 initialState).wrCoord = (9646899 / 67108864, 0)
    ∧ (ticks defaultConfig 92 initialState).wrCoord ≠
        (((92 / 4 : Nat) : ℚ) * deltaX defaultConfig, ((92 % 4 : Nat) : ℚ))
    ∧ (ticks defaultConfig 92 initialState).wrCoord ≠
        (((92 / 4 : Nat) : ℚ) * deltaCoordX defaultConfig, ((92 % 4 : Nat) : ℚ))
    ∧ (ticks defaultConfig 92 initialState).wrCoord.1 < ((92 / 4 : Nat) : ℚ) * deltaX defaultConfig
    ∧ ⌊(ticks defaultConfig 92 initialState).wrCoord.1 * (textureWidth defaultConfig : ℚ)⌋ = 22
    ∧ ⌊(ticks defaultConfig 88 initialState).wrCoord.1 * (textureWidth defaultConfig : ℚ)⌋ = 22
    := by
  have hw : textureWidth defaultConfig = 160 := by decide
  have hdx : deltaX defaultConfig = 1 / 160 := by
    unfold deltaX
    rw [hw]
    norm_num
  have hd := deltaCoordX_of_width defaultConfig hw
  have hvals := (cursorX_width160 defaultConfig hw).1
  have h23 : cursorX defaultConfig 23 = 9646899 / 67108864 := by
    have h := congrArg (fun l => l.getD 23 0) hvals
    exact h
  have h22 : cursorX defaultConfig 22 = 9227469 / 67108864 := by
    have h := congrArg (fun l => l.getD 22 0) hvals
    exact h
  have e92 : (ticks defaultConfig 92 initialState).wrCoord = (9646899 / 67108864, 0) := by
    rw [ticks_wrCoord defaultConfig initialState rfl 92]
    show (cursorX defaultConfig 23, ((0 : Nat) : ℚ)) = _
    rw [h23]
    norm_num
  have e88 : (ticks defaultConfig 88 initialState).wrCoord = (9227469 / 67108864, 0) := by
    rw [ticks_wrCoord defaultConfig initialState rfl 88]
    show (cursorX defaultConfig 22, ((0 : Nat) : ℚ)) = _
    rw [h22]
    norm_num
  refine ⟨by decide, hdx, hd, e92, ?_, ?_, ?_, ?_, ?_⟩
  · rw [e92, hdx]
    intro hcon
    have h1 := (Prod.mk.injEq _ _ _ _).mp hcon
    norm_num at h1
  · rw [e92, hd]
    intro hcon
    have h1 := (Prod.mk.injEq _ _ _ _).mp hcon
    norm_num at h1
  · rw [e92, hdx]
    norm_num
  · rw [e92, hw, Int.floor_eq_iff]
    constructor <;> norm_num
  · rw [e88, hw, Int.floor_eq_iff]
    constructor <;> norm_num

/-- C15, amended. For every batch size `B`, every batch `b` of a run and every `k ≤ B`: the
batch starts with `wrCoord = (0, 0)`; after `k` ticks `wrCoord[1]` is `k mod 4` and
`wrCoord[0]` is the `float` that `k div 4` rounded additions of `deltaCoordX` to 0 give; the
values passed to the `wrCoord` uniform during the batch are those for `k = 0 .. B - 1` in
order; and the batch ends with `wrCoord = (0, 0)`.  On a texture 160 texels wide and for
`k ≤ 128`, `wrCoord[0]` is less than half a texel away from `(k div 4) * deltaX`, the left
edge of texel `k div 4`, from `k = 92` on below it; and different `k` have different
cursor values. -/
theorem C15_capture_cursor (cfg : Config) (inputs : Nat → BatchInput) (b : Nat) :
    (batches cfg inputs b 0 initialState).wrCoord = (0, 0)
    ∧ (∀ k : Nat, k ≤ forLoopCount cfg.buffer_size →
        (ticks cfg k (batches cfg inputs b 0 initialState)).wrCoord =
          (cursorX cfg (k / 4), ((k % 4 : Nat) : ℚ)))
    ∧ wrCoordUniforms (batchIterationOps cfg (inputs b) (batches cfg inputs b 0 initialState)) =
        (List.range (forLoopCount cfg.buffer_size)).map
          (fun (k : Nat) => (cursorX cfg (k / 4), ((k % 4 : Nat) : ℚ)))
    ∧ (batchIteration cfg (inputs b) (batches cfg inputs b 0 initialState)).wrCoord = (0, 0)
    ∧ (textureWidth cfg = 160 →
        (∀ k : Nat, k ≤ 128 →
          |cursorX cfg (k / 4) - ((k / 4 : Nat) : ℚ) * deltaX cfg| < deltaX cfg / 2)
        ∧ (∀ k : Nat, 92 ≤ k → k ≤ 128 →
            cursorX cfg (k / 4) < ((k / 4 : Nat) : ℚ) * deltaX cfg)
        ∧ (∀ k l : Nat, k ≤ 128 → l ≤ 128 →
            (cursorX cfg (k / 4), ((k % 4 : Nat) : ℚ))
              = (cursorX cfg (l / 4), ((l % 4 : Nat) : ℚ)) → k = l)) := by
  have h0 := batches_wrCoord cfg inputs b 0 initialState rfl
  refine ⟨h0, fun k _ => ticks_wrCoord cfg _ h0 k,
    wrCoordUniforms_batchIterationOps cfg _ _ h0, batchIteration_wrCoord cfg _ _, ?_⟩
  intro hw
  have hdx : deltaX cfg = 1 / 160 := by
    unfold deltaX
    rw [hw]
    norm_num
  obtain ⟨_, hnear, _, hbelow, _⟩ := cursorX_width160 cfg hw
  refine ⟨?_, ?_, ?_⟩
  · intro k hk
    have h := hnear (k / 4) (by omega)
    rw [hdx]
    have e1 : ((k / 4 : Nat) : ℚ) * (1 / 160) = ((k / 4 : Nat) : ℚ) / 160 := by ring
    have e2 : (1 / 160 : ℚ) / 2 = 1 / 320 := by norm_num
    rw [e1, e2]
    exact h
  · intro k hk1 hk2
    have h := (hbelow (k / 4) (by omega) (by omega)).2
    rw [hdx]
    have e1 : ((k / 4 : Nat) : ℚ) * (1 / 160) = ((k / 4 : Nat) : ℚ) / 160 := by ring
    rw [e1]
    exact h
  · intro k l hk hl heq
    have h1 := (Prod.mk.injEq _ _ _ _).mp heq
    have hdiv : k / 4 = l / 4 :=
      cursorX_injective_width160 cfg hw (k / 4) (l / 4) (by omega) (by omega) h1.1
    have hmod : k % 4 = l % 4 := by exact_mod_cast h1.2
    omega

/-- Witness of C15 (amended): the settings of the source; after 92 ticks of the third batch
the cursor is `(9646899 / 2^26, 0)`, below `23 / 160` by less than half a texel. -/
theorem C15_capture_cursor_witness :
    textureWidth defaultConfig = 160
    ∧ (ticks defaultConfig 92 (batches defaultConfig quietInputs 2 0 initialState)).wrCoord =
        (cursorX defaultConfig 23, 0)
    ∧ |cursorX defaultConfig 23 - 23 * deltaX defaultConfig| < deltaX defaultConfig / 2
    ∧ cursorX defaultConfig 23 < 23 * deltaX defaultConfig
    ∧ (batchIteration defaultConfig (quietInputs 2)
        (batches defaultConfig quietInputs 2 0 initialState)).wrCoord = (0, 0) := by
  have h := C15_capture_cursor defaultConfig quietInputs 2
  have hw : textureWidth defaultConfig = 160 := by decide
  have h5 := h.2.2.2.2 hw
  refine ⟨hw, ?_, ?_, ?_, h.2.2.2.1⟩
  · have e := h.2.1 92 (by decide)
    rw [e]
    norm_num
  · have e := h5.1 92 (by decide)
    norm_num at e ⊢
    exact e
  · have e := h5.2.1 92 (by decide) (by decide)
    norm_num at e ⊢
    exact e

/-! ## C16: index safety of the rolling buffer -/

/-- The first write of the first batch uses the value `sampleCounter` has on entry. -/
theorem batchesWriteIndices_first (cfg : Config) (inputs : Nat → BatchInput) (k i : Nat)
    (s : State) (hB : 0 < forLoopCount cfg.buffer_size) :
    s.sampleCounter ∈ batchesWriteIndices cfg inputs (k + 1) i s := by
  unfold batchesWriteIndices
  apply List.mem_append_left
  unfold batchWriteIndices
  dsimp only
  obtain ⟨n, hn⟩ := Nat.exists_eq_succ_of_ne_zero (Nat.pos_iff_ne_zero.mp hB)
  rw [hn]
  unfold appendSamplesIndices
  apply List.mem_cons.mpr
  left
  exact (ticks_sampleCounter cfg _ s).symm

/-- C16. When every batch takes fewer than 1000000 clock ticks: with `sampleRate = 44100`
and `buffer_size = 128`, over any number of batches every write
`realTimeAudioBuffer[sampleCounter++]` uses an index in `0 .. 54099`; and for every
`sampleRate ≥ 0` and `buffer_size ≥ 0` whose sum fits an `int`, `sampleCounter` lies in
`0 .. sampleRate` at the start of every batch and every index written is below
`sampleRate + buffer_size`. -/
theorem C16_rolling_buffer_index_safety (cfg : Config) (inputs : Nat → BatchInput) (k : Nat)
    (hfast : ∀ j, (inputs j).differenceRealTimeClock < MICROSECS_IN_SEC) :
    (cfg.sampleRate = 44100 → cfg.buffer_size = 128 →
      ∀ idx ∈ batchesWriteIndices cfg inputs k 0 initialState,
        0 ≤ idx ∧ idx < realTimeCapacity)
    ∧ (0 ≤ cfg.sampleRate → 0 ≤ cfg.buffer_size →
        cfg.sampleRate + cfg.buffer_size ≤ INT_MAX →
        (0 ≤ (batches cfg inputs k 0 initialState).sampleCounter ∧
          (batches cfg inputs k 0 initialState).sampleCounter ≤ cfg.sampleRate)
        ∧ ∀ idx ∈ batchesWriteIndices cfg inputs k 0 initialState,
            0 ≤ idx ∧ idx < cfg.sampleRate + cfg.buffer_size) := by
  have hgen : 0 ≤ cfg.sampleRate → 0 ≤ cfg.buffer_size →
      cfg.sampleRate + cfg.buffer_size ≤ INT_MAX →
      (0 ≤ (batches cfg inputs k 0 initialState).sampleCounter ∧
        (batches cfg inputs k 0 initialState).sampleCounter ≤ cfg.sampleRate)
      ∧ ∀ idx ∈ batchesWriteIndices cfg inputs k 0 initialState,
          0 ≤ idx ∧ idx < cfg.sampleRate + cfg.buffer_size := by
    intro hR hB hfit
    have hBcount : (forLoopCount cfg.buffer_size : Int) = cfg.buffer_size :=
      forLoopCount_of_range hB (by omega)
    have h0 : (0 : Int) ≤ initialState.sampleCounter := le_refl 0
    have h1 : initialState.sampleCounter ≤ cfg.sampleRate := hR
    refine ⟨(batches_fast cfg inputs k 0 initialState h0 h1 (by rw [hBcount]; exact hfit)
      hfast).1, ?_⟩
    intro idx hidx
    have := batchesWriteIndices_fast cfg inputs k 0 initialState h0 h1
      (by rw [hBcount]; exact hfit) hfast idx hidx
    rw [hBcount] at this
    exact this
  refine ⟨?_, hgen⟩
  intro hR hB idx hidx
  have := (hgen (by rw [hR]; decide) (by rw [hB]; decide) (by rw [hR, hB]; decide)).2 idx hidx
  rw [hR, hB] at this
  unfold realTimeCapacity
  omega

/-- Witness of C16: the settings of the source, 400 quiet batches; the first write of the
first batch uses index 0 and every index stays below 44228. -/
theorem C16_rolling_buffer_index_safety_witness :
    (∀ j, (quietInputs j).differenceRealTimeClock < MICROSECS_IN_SEC) ∧
    (0 : Int) ∈ batchesWriteIndices defaultConfig quietInputs 400 0 initialState ∧
    (∀ idx ∈ batchesWriteIndices defaultConfig quietInputs 400 0 initialState,
      0 ≤ idx ∧ idx < 54100) ∧
    (∀ idx ∈ batchesWriteIndices defaultConfig quietInputs 400 0 initialState,
      0 ≤ idx ∧ idx < 44228) := by
  have hfast : ∀ j, (quietInputs j).differenceRealTimeClock < MICROSECS_IN_SEC :=
    fun _ => (by decide : (0 : Int) < MICROSECS_IN_SEC)
  have h := C16_rolling_buffer_index_safety defaultConfig quietInputs 400 hfast
  refine ⟨hfast, ?_, h.1 rfl rfl, (h.2 (by decide) (by decide) (by decide)).2⟩
  exact batchesWriteIndices_first defaultConfig quietInputs 399 0 initialState (by decide)

end FDSynth
